import Mathlib

/-!
# readblock: the fleet scanner `多进程扫块.js`

A shallow embedding of the block-range allocator, the pair analyser, the
metadata cache, the ledger operations and one iteration of the worker loop of
`src/多进程扫块.js` (with `safeDecimals` and `fetchTokenInfo` of
`src/测试版.js`), of the log parsers of `src/readblock.js`, and of the pairing
rules and the scanning loop of the single-process scripts `src/1.js` and
`src/测试版.js`, followed by the properties proved about them.

Conventions of the embedding.

* Block numbers are `Int` (JavaScript numbers, exact below `2^53`; the Redis
  key holds the decimal text of an integer, which `parseInt` reads back).
* Token and pool addresses are `String`; `toLowerCase` is the ASCII lowering,
  which is what JavaScript does on the hexadecimal text of an address.
* Amounts that the source passes through `ethers.formatUnits` and `parseFloat`
  are exact rationals: the rounding of `parseFloat` to a double is not
  modelled.
* The Redis instance and the MySQL table are explicit state; the chain
  (contract calls) is a read-only oracle passed as an argument. Queries and
  Redis commands themselves do not fail in the model.
* `contract_address = ?` is equality of the stored text: `main` lower-cases
  every pool address before it reaches the ledger.
* Calls of the ledger operations are taken one at a time, and inside them
  `getTokenMeta` is the function of one uninterrupted call. The allocator and
  the calls of `getTokenMeta` among themselves are also modelled step by
  step, across workers and overlapping calls.
* `AbiCoder.decode` reads 32-byte words from the payload and throws when a
  word is missing; numbers are masked to their width.
-/

namespace Readblock

/-! ## BlockRangeAllocator: `acquireBlockRange` (lines 63-94) -/

/-- The value of `parseInt(await redis.get(blockKey)) || (latest - 1000000)`:
an absent key gives `NaN`, and both `NaN` and `0` are falsy, so they select the
fallback. -/
def readFromBlock (cursor : Option Int) (latest : Int) : Int :=
  match cursor with
  | none => latest - 1000000
  | some c => if c = 0 then latest - 1000000 else c

/-- The Lua script of lines 76-84, run atomically by `redis.eval` with
`ARGV[1] = arg`: it returns its reply and the stored cursor after the run. -/
def claimScript (current : Option Int) (arg : Int) : Int × Option Int :=
  match current with
  | none => (1, some arg)
  | some c => if arg > c then (1, some arg) else (0, some c)

/-- Where a worker stands with respect to `acquireBlockRange`. -/
inductive WorkerState
  /-- outside `acquireBlockRange` -/
  | idle
  /-- at the top of the `while (true)` loop; `latest` was read at line 64 -/
  | loopTop (latest : Int)
  /-- line 69-71 done with `toBlock <= latest`; the script is not yet run -/
  | readDone (latest : Int) (fromBlock : Int)
  deriving DecidableEq, Repr

/-- The shared cursor, the workers and the ranges returned so far (the most
recent first), each with the worker it was returned to. -/
structure Fleet where
  cursor : Option Int
  workers : Nat → WorkerState
  granted : List (Nat × Int × Int)

/-- The atomic steps of the workers. -/
inductive FleetEvent
  /-- worker `w` enters `acquireBlockRange`; `getBlockNumber()` gives `latest` -/
  | call (w : Nat) (latest : Int)
  /-- worker `w` runs lines 69-74: reads the cursor and tests the head -/
  | read (w : Nat)
  /-- worker `w` runs lines 85-92: evaluates the script and tests its reply -/
  | claim (w : Nat)
  deriving DecidableEq, Repr

/-- One atomic step of the fleet; `batchSize` is `parseInt(batchSize)`. An
event that the worker's position does not allow changes nothing. -/
def fleetStep (batchSize : Int) (s : Fleet) : FleetEvent → Fleet
  | .call w latest =>
    match s.workers w with
    | .idle => { s with workers := Function.update s.workers w (.loopTop latest) }
    | _ => s
  | .read w =>
    match s.workers w with
    | .loopTop latest =>
      let fromBlock := readFromBlock s.cursor latest
      let toBlock := fromBlock + batchSize - 1
      if toBlock > latest then s
      else { s with workers := Function.update s.workers w (.readDone latest fromBlock) }
    | _ => s
  | .claim w =>
    match s.workers w with
    | .readDone latest fromBlock =>
      let toBlock := fromBlock + batchSize - 1
      let r := claimScript s.cursor (toBlock + 1)
      if r.1 = 1 then
        { cursor := r.2
          workers := Function.update s.workers w .idle
          granted := (w, fromBlock, toBlock) :: s.granted }
      else
        { s with cursor := r.2, workers := Function.update s.workers w (.loopTop latest) }
    | _ => s

/-- The fleet after a sequence of atomic steps. -/
def fleetRun (batchSize : Int) (s : Fleet) (es : List FleetEvent) : Fleet :=
  es.foldl (fleetStep batchSize) s

/-- The start of a fleet: every worker idle, nothing returned yet. -/
def Fleet.init (cursor : Option Int) : Fleet :=
  { cursor := cursor, workers := fun _ => .idle, granted := [] }

/-- The stored cursor after a sequence of script evaluations with the given
arguments, whoever issued them. -/
def evalScripts (current : Option Int) (args : List Int) : Option Int :=
  args.foldl (fun c a => (claimScript c a).2) current

/-- The order on stored cursors: an absent key is below every value. -/
def cursorLe : Option Int → Option Int → Prop
  | none, _ => True
  | some _, none => False
  | some a, some b => a ≤ b

instance (a b : Option Int) : Decidable (cursorLe a b) := by
  cases a <;> cases b <;> unfold cursorLe <;> infer_instance

/-- The blocks of two inclusive ranges `[f₁, t₁]` and `[f₂, t₂]` overlap. -/
def rangesOverlap (r₁ r₂ : Int × Int) : Prop :=
  ∃ b : Int, r₁.1 ≤ b ∧ b ≤ r₁.2 ∧ r₂.1 ≤ b ∧ b ≤ r₂.2

/-- The invariant of a fleet whose cursor is set and positive: every pending
read is a multiple of the batch size below the cursor, and the returned ranges
lie below the cursor, each entirely above the ones returned before it. -/
def FleetInv (b : Int) (s : Fleet) : Prop :=
  ∃ c : Int, s.cursor = some c ∧ 0 < c ∧
    (∀ w latest f, s.workers w = .readDone latest f → f ≤ c ∧ b ∣ (c - f)) ∧
    s.granted.Pairwise (fun x y => y.2.2 < x.2.1) ∧
    ∀ g ∈ s.granted, g.2.2 < c

/-! ## Reference registry and `analyzePair` (lines 31-41, 124-177) -/

/-- The ASCII lowering of a string (`String.prototype.toLowerCase` on the
text of an address). -/
def toLowerCase (s : String) : String :=
  ⟨s.data.map Char.toLower⟩

/-- One entry of `MAIN_TOKENS`: display name and conversion rate. -/
structure MainTokenInfo where
  name : String
  rate : ℚ
  deriving DecidableEq

/-- A reference registry: lower-case address, then name and rate. -/
abbrev Registry := List (String × MainTokenInfo)

/-- The property read `MAIN_TOKENS[k]` on the registry object. -/
def Registry.get (reg : Registry) (k : String) : Option MainTokenInfo :=
  List.lookup k reg

/-- The registry of lines 32-41. The three rates come from the environment
(`parseFloat(RATE_WBNB || "700")` and so on) and are arguments here. -/
def MAIN_TOKENS (rateWBNB rateETH rateBTCB : ℚ) : Registry :=
  [ ("0x55d398326f99059ff775485246999027b3197955", ⟨"USDT", 1⟩),
    ("0x8ac76a51cc950d9822d68b83fe1ad97b32cd580d", ⟨"USDC", 1⟩),
    ("0xe9e7cea3dedca5984780bafc599bd69add087d56", ⟨"BUSD", 1⟩),
    ("0x1af3f329e8be154074d8769d1ffa4ee058b1dbc3", ⟨"DAI", 1⟩),
    ("0x8d0d000ee44948fc98c9b98a4fa4921476f08b0d", ⟨"USD1", 1⟩),
    ("0xbb4cdb9cbd36b01bd1cbaebf2de08d9173bc095c", ⟨"WBNB", rateWBNB⟩),
    ("0x2170ed0880ac9a755fd29b2688956bd959f933f8", ⟨"ETH", rateETH⟩),
    ("0x7130d2a12b9bcbfae4f2634d864a1ee1ce3ead9c", ⟨"BTCB", rateBTCB⟩) ]

/-- The anchor compared against at line 152:
`"0x55d398326f99059fF775485246999027B3197955".toLowerCase()`. -/
def USDT_ANCHOR : String :=
  toLowerCase "0x55d398326f99059fF775485246999027B3197955"

/-- The object returned by `analyzePair`; `none` is JavaScript `null`. -/
structure PairAnalysis where
  hasMainToken : Bool
  mainToken : Option String
  mainTokenName : Option String
  parentToken : Option String
  otherToken : Option String
  deriving DecidableEq

/-- The function `analyzePair` of lines 124-170 over the registry `reg`. -/
def analyzePair (reg : Registry) (token0 token1 : String) : PairAnalysis :=
  let t0 := toLowerCase token0
  let t1 := toLowerCase token1
  let t0Main := reg.get t0
  let t1Main := reg.get t1
  let hasMainToken := t0Main.isSome || t1Main.isSome
  match t0Main, t1Main with
  | none, none =>
    { hasMainToken := hasMainToken, mainToken := none, mainTokenName := none,
      parentToken := some token0, otherToken := some token1 }
  | some m0, none =>
    { hasMainToken := hasMainToken, mainToken := some token0, mainTokenName := some m0.name,
      parentToken := some token1, otherToken := some token0 }
  | none, some m1 =>
    { hasMainToken := hasMainToken, mainToken := some token1, mainTokenName := some m1.name,
      parentToken := some token0, otherToken := some token1 }
  | some m0, some m1 =>
    if t0 = USDT_ANCHOR then
      { hasMainToken := hasMainToken, mainToken := some token0, mainTokenName := some m0.name,
        parentToken := some token1, otherToken := none }
    else
      { hasMainToken := hasMainToken, mainToken := some token1, mainTokenName := some m1.name,
        parentToken := some token0, otherToken := none }

/-- The number `parseFloat(ethers.formatUnits(amount, decimals))`, taken
exactly: `amount / 10^decimals`. -/
def formatUnits (amount : Int) (decimals : Nat) : ℚ :=
  (amount : ℚ) / (10 : ℚ) ^ decimals

/-- The function `getUSDTValue` of lines 173-177. -/
def getUSDTValue (reg : Registry) (tokenAddress : String) (amount : Int) (decimals : Nat) : ℚ :=
  match reg.get (toLowerCase tokenAddress) with
  | none => 0
  | some info => formatUnits amount decimals * info.rate

/-! ## TokenMetadataCache: `getTokenMeta` (lines 97-121) -/

/-- The result object of `getTokenMeta`. -/
structure TokenMeta where
  symbol : String
  decimals : Nat
  totalSupplyReadable : ℚ
  deriving DecidableEq

/-- What the node answers to the contract reads; `none` is a call that throws.
`balanceOf token holder` is `balanceOf(holder)` on `token`; `token0` and
`token1` are the reads on a pool contract; `getCode` is `provider.getCode`. -/
structure Chain where
  decimals : String → Option Nat
  symbol : String → Option String
  totalSupply : String → Option Nat
  balanceOf : String → String → Option Nat
  token0 : String → Option String
  token1 : String → Option String
  getCode : String → Option String

/-- A chain on which every read throws. -/
def failingChain : Chain :=
  { decimals := fun _ => none, symbol := fun _ => none, totalSupply := fun _ => none,
    balanceOf := fun _ _ => none, token0 := fun _ => none, token1 := fun _ => none,
    getCode := fun _ => none }

/-- The `token_meta:*` keys of the Redis instance, the latest write first. -/
abbrev MetaCache := List (String × TokenMeta)

/-- The function `getTokenMeta` of lines 97-121: the result and the cache
after the call. -/
def getTokenMeta (chain : Chain) (cache : MetaCache) (address : String) :
    TokenMeta × MetaCache :=
  let key := "token_meta:" ++ toLowerCase address
  match List.lookup key cache with
  | some cached => (cached, cache)
  | none =>
    let decimals := (chain.decimals address).getD 18
    let symbol := (chain.symbol address).getD "UNK"
    let totalSupplyReadable :=
      match chain.totalSupply address with
      | some supply => formatUnits supply decimals
      | none => 0
    let result : TokenMeta :=
      { symbol := symbol, decimals := decimals, totalSupplyReadable := totalSupplyReadable }
    (result, (key, result) :: cache)

/-! ## PoolLedger: `updateReserves` and `updateVolume` (lines 207-230, 341-376) -/

/-- Modelled from the spec: the DDL of table `token_stats` is not in the
sources. The columns are those the queries name; the two trade counters are
integers that start at zero (spec §4.6, "zeroed volume/trade counters");
`none` in `liquidity_value` and `total_transaction_volume` is SQL `NULL`
(the source reads the latter through `IFNULL`). -/
structure PoolRecord where
  contract_address : String
  parent_token_address : String
  token_symbol : String
  total_supply : ℚ
  lp_version : String
  token0_address : String
  token1_address : String
  token0_balance : ℚ
  token1_balance : ℚ
  main_token : Option String
  liquidity_value : Option ℚ
  total_transaction_volume : Option ℚ
  trade_count_24h : Int
  trade_count_12h : Int
  last_updated : Nat
  deriving DecidableEq

/-- The table `token_stats` and the metadata cache. -/
structure Store where
  rows : List PoolRecord
  tokenMeta : MetaCache
  deriving DecidableEq

/-- The rows of `SELECT ... FROM token_stats WHERE contract_address=?`. -/
def selectByAddress (rows : List PoolRecord) (address : String) : List PoolRecord :=
  rows.filter (fun r => r.contract_address == address)

/-- The effect of `UPDATE token_stats SET ... WHERE contract_address=?`. -/
def updateByAddress (rows : List PoolRecord) (address : String)
    (f : PoolRecord → PoolRecord) : List PoolRecord :=
  rows.map (fun r => if r.contract_address == address then f r else r)

/-- The function `updateReserves` of lines 207-230; `now` is `NOW()`. The two
`getTokenMeta` calls of `Promise.all` are taken one after the other. -/
def updateReserves (reg : Registry) (chain : Chain) (now : Nat) (s : Store)
    (lpAddress : String) (r0 r1 : Nat) : Store :=
  match selectByAddress s.rows lpAddress with
  | [] => s
  | row :: _ =>
    let t0 := row.token0_address
    let t1 := row.token1_address
    let m0 := getTokenMeta chain s.tokenMeta t0
    let m1 := getTokenMeta chain m0.2 t1
    let b0 := formatUnits r0 m0.1.decimals
    let b1 := formatUnits r1 m1.1.decimals
    let liquidityValue : ℚ :=
      match reg.get (toLowerCase t0) with
      | some i0 => b0 * i0.rate
      | none =>
        match reg.get (toLowerCase t1) with
        | some i1 => b1 * i1.rate
        | none => 0
    { rows := updateByAddress s.rows lpAddress (fun r =>
        { r with token0_balance := b0, token1_balance := b1,
                 liquidity_value := some liquidityValue, last_updated := now })
      tokenMeta := m1.2 }

/-- The big-endian value of a run of bytes. -/
def beValue (bytes : List Nat) : Nat :=
  bytes.foldl (fun acc b => acc * 256 + b % 256) 0

/-- The `i`-th 32-byte word of an ABI payload, when the payload has it. -/
def readWord (data : List Nat) (i : Nat) : Option Nat :=
  let w := (data.drop (32 * i)).take 32
  if w.length = 32 then some (beValue w) else none

/-- The call `AbiCoder.decode(["uint256","uint256","uint256","uint256"], data)`
of lines 342-345 on the bytes of `data`: four words, or an exception when the
payload is too short. -/
def decodeV2Swap (data : List Nat) : Except String (Nat × Nat × Nat × Nat) :=
  match readWord data 0, readWord data 1, readWord data 2, readWord data 3 with
  | some a, some b, some c, some d => .ok (a, b, c, d)
  | _, _, _, _ => .error "BUFFER_OVERRUN"

/-- The function `updateVolume` of lines 341-376; an exception leaves the
function before any query. -/
def updateVolume (reg : Registry) (chain : Chain) (s : Store)
    (lpAddress : String) (data : List Nat) : Except String Store :=
  match decodeV2Swap data with
  | .error e => .error e
  | .ok (amount0In, amount1In, amount0Out, amount1Out) =>
    match selectByAddress s.rows lpAddress with
    | [] => .ok s
    | row :: _ =>
      let token0 := row.token0_address
      let token1 := row.token1_address
      let a := analyzePair reg token0 token1
      if !a.hasMainToken then .ok s
      else
        match a.mainToken with
        | none => .error "TypeError"
        | some mainToken =>
          let m := getTokenMeta chain s.tokenMeta mainToken
          let usdtVolume : Int :=
            if toLowerCase mainToken = toLowerCase token0 then
              (amount0In : Int) + (amount0Out : Int)
            else if toLowerCase mainToken = toLowerCase token1 then
              (amount1In : Int) + (amount1Out : Int)
            else 0
          let usd := getUSDTValue reg mainToken usdtVolume m.1.decimals
          .ok { rows := updateByAddress s.rows lpAddress (fun r =>
                  { r with total_transaction_volume :=
                             some (r.total_transaction_volume.getD 0 + usd),
                           trade_count_24h := r.trade_count_24h + 1,
                           trade_count_12h := r.trade_count_12h + 1 })
                tokenMeta := m.2 }

/-- The store after `updateVolume` on each payload in turn, as the loop of
lines 470-480 issues them; the first exception ends the run. -/
def updateVolumes (reg : Registry) (chain : Chain) (s : Store) (lpAddress : String) :
    List (List Nat) → Except String Store
  | [] => .ok s
  | data :: rest =>
    match updateVolume reg chain s lpAddress data with
    | .error e => .error e
    | .ok s1 => updateVolumes reg chain s1 lpAddress rest

/-- The first record of an address, if any. -/
def Store.record (s : Store) (address : String) : Option PoolRecord :=
  (selectByAddress s.rows address).head?

/-- The decimals `updateReserves` obtains for the two tokens of a record: the
second `getTokenMeta` sees the cache the first one left. -/
def reserveDecimals (chain : Chain) (cache : MetaCache) (token0 token1 : String) : Nat × Nat :=
  ((getTokenMeta chain cache token0).1.decimals,
    (getTokenMeta chain (getTokenMeta chain cache token0).2 token1).1.decimals)

/-- The valuation the claim describes: the human-scaled balance of the side
that holds `analyzePair(token0, token1).mainToken`, times that token's rate,
and zero when there is no reference token. The side is found as lines 305-309
and 361-365 find it. -/
def referenceSideValue (reg : Registry) (token0 token1 : String) (b0 b1 : ℚ) : ℚ :=
  match (analyzePair reg token0 token1).mainToken with
  | none => 0
  | some m =>
    match reg.get (toLowerCase m) with
    | none => 0
    | some info =>
      if toLowerCase m = toLowerCase token0 then b0 * info.rate else b1 * info.rate

/-- The valuation `updateReserves` computes at lines 215-223: the side of
`token0` when it is a registry key, else the side of `token1` when it is. -/
def firstSideValue (reg : Registry) (token0 token1 : String) (b0 b1 : ℚ) : ℚ :=
  match reg.get (toLowerCase token0) with
  | some i0 => b0 * i0.rate
  | none =>
    match reg.get (toLowerCase token1) with
    | some i1 => b1 * i1.rate
    | none => 0

/-- The traded amount on the side of the reference token `m` of a V2 swap with
decoded amounts `(amount0In, amount1In, amount0Out, amount1Out)`. -/
def referenceSideAmount (m token0 : String) (amounts : Nat × Nat × Nat × Nat) : Int :=
  if toLowerCase m = toLowerCase token0 then (amounts.1 : Int) + (amounts.2.2.1 : Int)
  else (amounts.2.1 : Int) + (amounts.2.2.2 : Int)

/-- A registry with the single reference token of the spec's scenarios, at
rate 2. -/
def scenarioRegistry : Registry :=
  [("0x00000000000000000000000000000000000000aa", ⟨"T_ref", 2⟩)]

/-- A chain on which every token has `decimals` 0 and `symbol` "T", and every
other read throws. -/
def scenarioChain : Chain :=
  { failingChain with decimals := fun _ => some 0, symbol := fun _ => some "T" }

/-- A pool record of the scenarios with the given pair and nothing traded yet. -/
def scenarioRecord (address token0 token1 : String) : PoolRecord :=
  { contract_address := address, parent_token_address := token1, token_symbol := "T",
    total_supply := 0, lp_version := "V2", token0_address := token0, token1_address := token1,
    token0_balance := 0, token1_balance := 0, main_token := some "T_ref",
    liquidity_value := none, total_transaction_volume := none,
    trade_count_24h := 0, trade_count_12h := 0, last_updated := 0 }

/-- The ABI payload of four `uint256` words, each below 256. -/
def swapPayload (a b c d : Nat) : List Nat :=
  List.replicate 31 0 ++ [a] ++ (List.replicate 31 0 ++ [b]) ++
    (List.replicate 31 0 ++ [c]) ++ (List.replicate 31 0 ++ [d])

/-! ## PoolLedger: pool creation and `updateV3Volume` (lines 180-204, 232-338, 379-436) -/

/-- The function `checkV2LP` of lines 180-189: the pair, or `none` for
`{ isLP: false }`. -/
def checkV2LP (chain : Chain) (address : String) : Option (String × String) :=
  match chain.token0 address with
  | none => none
  | some token0 =>
    match chain.token1 address with
    | none => none
    | some token1 => some (token0, token1)

/-- The function `getV3Tokens` of lines 192-204: the pair, or `none` for
`[null, null]`. -/
def getV3Tokens (chain : Chain) (lpAddress : String) : Option (String × String) :=
  match chain.token0 lpAddress, chain.token1 lpAddress with
  | some token0, some token1 => some (token0, token1)
  | _, _ => none

/-- The function `getTokenBalances` of lines 233-250: the two human-scaled
balances and the cache left by the two `getTokenMeta` calls; a failing
`balanceOf` gives `"0"` for both. -/
def getTokenBalances (chain : Chain) (cache : MetaCache) (poolAddress token0 token1 : String) :
    (ℚ × ℚ) × MetaCache :=
  let m0 := getTokenMeta chain cache token0
  let m1 := getTokenMeta chain m0.2 token1
  match chain.balanceOf token0 poolAddress, chain.balanceOf token1 poolAddress with
  | some bal0, some bal1 =>
    ((formatUnits bal0 m0.1.decimals, formatUnits bal1 m1.1.decimals), m1.2)
  | _, _ => ((0, 0), m1.2)

/-- Modelled from the spec: the DDL of `token_stats` is not in the sources.
`contract_address` carries a unique key (spec §9; the source handles
`ER_DUP_ENTRY` at lines 285 and 332): an `INSERT` for an address that has a
row is rejected, any other `INSERT` appends the row. -/
def insertRecord (rows : List PoolRecord) (r : PoolRecord) : Except String (List PoolRecord) :=
  match selectByAddress rows r.contract_address with
  | [] => .ok (rows ++ [r])
  | _ :: _ => .error "ER_DUP_ENTRY"

/-- The `try { INSERT } catch` of lines 266-290 and 311-337 with the cache
`cache` reached before it: a duplicate is ignored, another error is thrown
again. -/
def insertIgnoringDuplicate (s : Store) (cache : MetaCache) (r : PoolRecord) :
    Except String Store :=
  match insertRecord s.rows r with
  | .ok rows => .ok { rows := rows, tokenMeta := cache }
  | .error e =>
    if e = "ER_DUP_ENTRY" then .ok { rows := s.rows, tokenMeta := cache } else .error e

/-- The function `ensureV2Pool` of lines 253-291. Columns the `INSERT` does not
name take their default: `NULL` for the valuation and the volume, zero for the
counters, the time of insertion `now` for `last_updated`. -/
def ensureV2Pool (reg : Registry) (chain : Chain) (now : Nat) (s : Store)
    (lpAddress : String) : Except String Store :=
  match selectByAddress s.rows lpAddress with
  | _ :: _ => .ok s
  | [] =>
    match checkV2LP chain lpAddress with
    | none => .ok s
    | some (token0, token1) =>
      let a := analyzePair reg token0 token1
      if !a.hasMainToken then .ok s
      else
        let b := getTokenBalances chain s.tokenMeta lpAddress token0 token1
        match a.parentToken with
        | none => .error "TypeError"
        | some parentToken =>
          let parentInfo := getTokenMeta chain b.2 parentToken
          insertIgnoringDuplicate s parentInfo.2
            { contract_address := lpAddress, parent_token_address := parentToken,
              token_symbol := parentInfo.1.symbol,
              total_supply := parentInfo.1.totalSupplyReadable, lp_version := "V2",
              token0_address := token0, token1_address := token1,
              token0_balance := b.1.1, token1_balance := b.1.2,
              main_token := a.mainTokenName, liquidity_value := none,
              total_transaction_volume := none, trade_count_24h := 0, trade_count_12h := 0,
              last_updated := now }

/-- The function `insertV3Pool` of lines 294-338. -/
def insertV3Pool (reg : Registry) (chain : Chain) (now : Nat) (s : Store)
    (poolAddress token0 token1 : String) : Except String Store :=
  match selectByAddress s.rows poolAddress with
  | _ :: _ => .ok s
  | [] =>
    let a := analyzePair reg token0 token1
    if !a.hasMainToken then .ok s
    else
      let b := getTokenBalances chain s.tokenMeta poolAddress token0 token1
      match a.parentToken with
      | none => .error "TypeError"
      | some parentToken =>
        let parentInfo := getTokenMeta chain b.2 parentToken
        let liquidityValue : Except String ℚ :=
          match a.mainToken with
          | none => .ok 0
          | some mainToken =>
            if toLowerCase mainToken = toLowerCase token0 then
              match reg.get (toLowerCase mainToken) with
              | none => .error "TypeError"
              | some info => .ok (b.1.1 * info.rate)
            else if toLowerCase mainToken = toLowerCase token1 then
              match reg.get (toLowerCase mainToken) with
              | none => .error "TypeError"
              | some info => .ok (b.1.2 * info.rate)
            else .ok 0
        match liquidityValue with
        | .error e => .error e
        | .ok v =>
          insertIgnoringDuplicate s parentInfo.2
            { contract_address := poolAddress, parent_token_address := parentToken,
              token_symbol := parentInfo.1.symbol,
              total_supply := parentInfo.1.totalSupplyReadable, lp_version := "V3",
              token0_address := token0, token1_address := token1,
              token0_balance := b.1.1, token1_balance := b.1.2,
              main_token := a.mainTokenName, liquidity_value := some v,
              total_transaction_volume := none, trade_count_24h := 0, trade_count_12h := 0,
              last_updated := now }

/-- The signed value of a 256-bit two's complement word. -/
def fromTwos (w : Nat) : Int :=
  if w < 2 ^ 255 then (w : Int) else (w : Int) - 2 ^ 256

/-- The call `AbiCoder.decode(["int256","int256","uint160","uint128","int24",
"uint128","uint128"], data)` of lines 411-414, of which the source keeps the
first two values: seven words, or an exception when the payload is too short. -/
def decodeV3Swap (data : List Nat) : Except String (Int × Int) :=
  match readWord data 0, readWord data 1, readWord data 2, readWord data 3,
      readWord data 4, readWord data 5, readWord data 6 with
  | some a0, some a1, some _, some _, some _, some _, some _ => .ok (fromTwos a0, fromTwos a1)
  | _, _, _, _, _, _, _ => .error "BUFFER_OVERRUN"

/-- The `try` block of lines 408-435 of `updateV3Volume` for the record pair
`(token0, token1)` with reference token `mainToken`: every exception inside
it is caught and logged, and the cache write of `getTokenMeta` stays. -/
def applyV3Swap (reg : Registry) (chain : Chain) (s : Store) (lpAddress : String)
    (data : List Nat) (token0 token1 mainToken : String) : Store :=
  let m := getTokenMeta chain s.tokenMeta mainToken
  match decodeV3Swap data with
  | .error _ => { rows := s.rows, tokenMeta := m.2 }
  | .ok (amount0, amount1) =>
    let amount : Int :=
      if toLowerCase mainToken = toLowerCase token0 then amount0
      else if toLowerCase mainToken = toLowerCase token1 then amount1
      else 0
    let usd := |getUSDTValue reg mainToken amount m.1.decimals|
    { rows := updateByAddress s.rows lpAddress (fun r =>
        { r with total_transaction_volume := some (r.total_transaction_volume.getD 0 + usd),
                 trade_count_24h := r.trade_count_24h + 1,
                 trade_count_12h := r.trade_count_12h + 1 })
      tokenMeta := m.2 }

/-- Lines 403-436 of `updateV3Volume`, once `rows[0]` is known. -/
def updateV3VolumeOf (reg : Registry) (chain : Chain) (s : Store) (lpAddress : String)
    (data : List Nat) (row : PoolRecord) : Except String Store :=
  let token0 := row.token0_address
  let token1 := row.token1_address
  let analysis := analyzePair reg token0 token1
  if !analysis.hasMainToken then .ok s
  else
    match analysis.mainToken with
    | none => .ok s
    | some mainToken => .ok (applyV3Swap reg chain s lpAddress data token0 token1 mainToken)

/-- The function `updateV3Volume` of lines 379-436. -/
def updateV3Volume (reg : Registry) (chain : Chain) (now : Nat) (s : Store)
    (lpAddress : String) (data : List Nat) : Except String Store :=
  match selectByAddress s.rows lpAddress with
  | row :: _ => updateV3VolumeOf reg chain s lpAddress data row
  | [] =>
    match getV3Tokens chain lpAddress with
    | none => .ok s
    | some (token0, token1) =>
      if token0 = "" ∨ token1 = "" then .ok s
      else if !(analyzePair reg token0 token1).hasMainToken then .ok s
      else
        match insertV3Pool reg chain now s lpAddress token0 token1 with
        | .error e => .error e
        | .ok s1 =>
          match selectByAddress s1.rows lpAddress with
          | [] => .ok s1
          | row :: _ => updateV3VolumeOf reg chain s1 lpAddress data row

/-- The reference-side net amount of a V3 swap with decoded amounts
`(amount0, amount1)`, for reference token `m`. -/
def v3SideAmount (m token0 : String) (amounts : Int × Int) : Int :=
  if toLowerCase m = toLowerCase token0 then amounts.1 else amounts.2

/-- No two rows of the table have the same `contract_address`. -/
def UniqueAddresses (rows : List PoolRecord) : Prop :=
  (rows.map (fun r => r.contract_address)).Nodup

/-! ## Contract calls issued by metadata resolution -/

/-- A read issued to the node on behalf of a token address. -/
inductive ContractCall
  | decimals (address : String)
  | symbol (address : String)
  | totalSupply (address : String)
  | getCode (address : String)
  deriving DecidableEq, Repr

/-- The contract calls `getTokenMeta` (lines 97-121) issues: none on a cache
hit; on a miss `decimals()`, `symbol()` and `totalSupply()`, each in its own
`try`, whatever the others answered. -/
def getTokenMetaCalls (cache : MetaCache) (address : String) : List ContractCall :=
  match List.lookup ("token_meta:" ++ toLowerCase address) cache with
  | some _ => []
  | none => [.decimals address, .symbol address, .totalSupply address]

/-- The token a read is issued to. -/
def ContractCall.address : ContractCall → String
  | .decimals a => a
  | .symbol a => a
  | .totalSupply a => a
  | .getCode a => a

/-! ## Overlapping calls of `getTokenMeta` -/

/-- Lines 102-117 of `getTokenMeta`: the result object built from what the
three guarded reads answered, each failed read leaving its initial value. -/
def resolveTokenMeta (chain : Chain) (address : String) : TokenMeta :=
  let decimals := (chain.decimals address).getD 18
  let symbol := (chain.symbol address).getD "UNK"
  let totalSupplyReadable :=
    match chain.totalSupply address with
    | some supply => formatUnits supply decimals
    | none => 0
  { symbol := symbol, decimals := decimals, totalSupplyReadable := totalSupplyReadable }

/-- Where a call of `getTokenMeta` stands. Between the `redis.get` of line 99
and the `redis.set` of line 118 the function awaits three contract reads, and
other calls run meanwhile (`Promise.all` at lines 212 and 237, and the other
workers on the same Redis instance). -/
inductive MetaCall
  /-- not begun -/
  | idle
  /-- line 99 found no entry; the reads and the `SET` are still to come -/
  | pending (address : String)
  /-- returned `result` -/
  | returned (result : TokenMeta)
  deriving DecidableEq

/-- The cache, the calls of `getTokenMeta` by number, and the contract reads
issued so far, the latest first. -/
structure MetaRun where
  cache : MetaCache
  calls : Nat → MetaCall
  issued : List ContractCall

/-- The atomic steps of the calls of `getTokenMeta`. -/
inductive MetaEvent
  /-- call `c` starts on `address` and runs lines 98-100: it reads the key and
  returns the entry when there is one -/
  | get (c : Nat) (address : String)
  /-- call `c`, which found no entry, has its three reads answered as `chain`
  answers and runs lines 117-120: it writes its result and returns it -/
  | set (c : Nat) (chain : Chain)

/-- One atomic step; an event that the position of the call does not allow
changes nothing. The `SET` of line 118 is unconditional. -/
def metaStep (s : MetaRun) : MetaEvent → MetaRun
  | .get c address =>
    match s.calls c with
    | .idle =>
      match List.lookup ("token_meta:" ++ toLowerCase address) s.cache with
      | some cached => { s with calls := Function.update s.calls c (.returned cached) }
      | none => { s with calls := Function.update s.calls c (.pending address) }
    | _ => s
  | .set c chain =>
    match s.calls c with
    | .pending address =>
      { cache := ("token_meta:" ++ toLowerCase address, resolveTokenMeta chain address) :: s.cache
        calls := Function.update s.calls c (.returned (resolveTokenMeta chain address))
        issued := [.totalSupply address, .symbol address, .decimals address] ++ s.issued }
    | _ => s

/-- The state after a sequence of atomic steps. -/
def metaRun (s : MetaRun) (es : List MetaEvent) : MetaRun :=
  es.foldl metaStep s

/-- The start: the given cache, no call begun, no read issued. -/
def MetaRun.init (cache : MetaCache) : MetaRun :=
  { cache := cache, calls := fun _ => .idle, issued := [] }

/-- An address without deployed code: `getCode` answers `"0x"`, and each
contract read gets an empty answer that fails to decode, so the call throws. -/
def NoCode (chain : Chain) (address : String) : Prop :=
  chain.getCode address = some "0x" ∧ chain.decimals address = none ∧
    chain.symbol address = none ∧ chain.totalSupply address = none

/-- The function `safeDecimals` of `测试版.js` (lines 55-69): the decimals and
the calls issued. -/
def safeDecimals (chain : Chain) (address : String) : Nat × List ContractCall :=
  match chain.getCode address with
  | none => (18, [.getCode address])
  | some code =>
    if code = "0x" then (18, [.getCode address])
    else
      match chain.decimals address with
      | some d => (d, [.getCode address, .decimals address])
      | none => (18, [.getCode address, .decimals address])

/-- The function `fetchTokenInfo` of `测试版.js` (lines 116-127): the object
`{ symbol, totalSupplyReadable }` and the calls issued. -/
def fetchTokenInfo (chain : Chain) (address : String) : (String × ℚ) × List ContractCall :=
  let d := safeDecimals chain address
  let symbol := (chain.symbol address).getD "UNK"
  let totalSupplyReadable : ℚ :=
    match chain.totalSupply address with
    | some supply => formatUnits supply d.1
    | none => 0
  ((symbol, totalSupplyReadable), d.2 ++ [.symbol address, .totalSupply address])

/-! ## WorkerSupervisor: one iteration of `main` after the claim (lines 454-492) -/

/-- A raw log: emitting address, topics (hex text) and the bytes of `data`. -/
structure Log where
  address : String
  topics : List String
  data : List Nat
  deriving DecidableEq

/-- Values the loop takes from outside the file: the topic hashes
`ethers.id(...)` of lines 24-25 and the function `ethers.getAddress` (which
validates and checksums an address, or throws). -/
structure Env where
  SWAP_TOPIC : String
  SYNC_TOPIC : String
  getAddress : String → Except String String

/-- What `provider.getLogs` answers for the three filters of the claimed
range; `none` is a request that throws. -/
structure RangeLogs where
  v3Logs : Option (List Log)
  swapAndSyncLogs : Option (List Log)
  v3SwapLogs : Option (List Log)

/-- The three `getLogs` requests of lines 454-456. -/
inductive Fetch
  | poolCreated
  | swapOrSync
  | v3Swap
  deriving DecidableEq, Repr

/-- The outcome of one iteration: the store reached, the `getLogs` requests
issued in order, and the exception caught at line 487, if any. -/
structure IterationResult where
  store : Store
  fetches : List Fetch
  error : Option String

/-- The lower-case hexadecimal digit of `n % 16`. -/
def hexDigit (n : Nat) : Char :=
  ("0123456789abcdef".data).getD (n % 16) '0'

/-- The last `k` hexadecimal digits of `n`. -/
def hexFixed : Nat → Nat → List Char
  | 0, _ => []
  | k + 1, n => hexFixed k (n / 16) ++ [hexDigit n]

/-- The text `"0x" + t.slice(26)` of lines 461-462. -/
def topicAddress (t : String) : String :=
  "0x" ++ ⟨t.data.drop 26⟩

/-- The call `AbiCoder.decode(["int256", "address"], log.data)` of line 463,
of which the source keeps the address: two words, the second below `2^160`
and passed through `getAddress`, or an exception. -/
def decodePoolCreated (env : Env) (data : List Nat) : Except String String :=
  match readWord data 0, readWord data 1 with
  | some _, some w =>
    if w < 2 ^ 160 then env.getAddress ("0x" ++ ⟨hexFixed 40 w⟩)
    else .error "NUMERIC_FAULT"
  | _, _ => .error "BUFFER_OVERRUN"

/-- The call `AbiCoder.decode(["uint112", "uint112"], log.data)` of line 474:
two words, each masked to 112 bits, or an exception. -/
def decodeSync (data : List Nat) : Except String (Nat × Nat) :=
  match readWord data 0, readWord data 1 with
  | some r0, some r1 => .ok (r0 % 2 ^ 112, r1 % 2 ^ 112)
  | _, _ => .error "BUFFER_OVERRUN"

/-- The body of the loop of lines 460-468 for one log: the store reached and
the exception that leaves the loop, if any. -/
def handlePoolCreated (reg : Registry) (chain : Chain) (env : Env) (now : Nat)
    (s : Store) (log : Log) : Store × Option String :=
  match log.topics.get? 1 with
  | none => (s, some "TypeError")
  | some topic1 =>
    match env.getAddress (topicAddress topic1) with
    | .error e => (s, some e)
    | .ok token0 =>
      match log.topics.get? 2 with
      | none => (s, some "TypeError")
      | some topic2 =>
        match env.getAddress (topicAddress topic2) with
        | .error e => (s, some e)
        | .ok token1 =>
          match decodePoolCreated env log.data with
          | .error e => (s, some e)
          | .ok pool =>
            if (analyzePair reg token0 token1).hasMainToken then
              match insertV3Pool reg chain now s (toLowerCase pool) token0 token1 with
              | .error e => (s, some e)
              | .ok s1 => (s1, none)
            else (s, none)

/-- The body of the loop of lines 470-480 for one log. -/
def handleSwapOrSync (reg : Registry) (chain : Chain) (env : Env) (now : Nat)
    (s : Store) (log : Log) : Store × Option String :=
  let lpAddress := toLowerCase log.address
  match ensureV2Pool reg chain now s lpAddress with
  | .error e => (s, some e)
  | .ok s1 =>
    let afterSync : Store × Option String :=
      if log.topics.head? = some env.SYNC_TOPIC then
        match decodeSync log.data with
        | .error e => (s1, some e)
        | .ok (r0, r1) => (updateReserves reg chain now s1 lpAddress r0 r1, none)
      else (s1, none)
    match afterSync with
    | (s2, some e) => (s2, some e)
    | (s2, none) =>
      if log.topics.head? = some env.SWAP_TOPIC then
        match updateVolume reg chain s2 lpAddress log.data with
        | .error e => (s2, some e)
        | .ok s3 => (s3, none)
      else (s2, none)

/-- The body of the loop of lines 482-485 for one log. -/
def handleV3Swap (reg : Registry) (chain : Chain) (now : Nat)
    (s : Store) (log : Log) : Store × Option String :=
  match updateV3Volume reg chain now s (toLowerCase log.address) log.data with
  | .error e => (s, some e)
  | .ok s1 => (s1, none)

/-- A `for ... of` loop with an awaited body: the first exception leaves the
loop with the store reached so far. -/
def forEachLog (body : Store → Log → Store × Option String) :
    Store → List Log → Store × Option String
  | s, [] => (s, none)
  | s, log :: rest =>
    match body s log with
    | (s1, some e) => (s1, some e)
    | (s1, none) => forEachLog body s1 rest

/-- The three loops of lines 460-485 on fetched logs. -/
def applyLogs (reg : Registry) (chain : Chain) (env : Env) (now : Nat) (s : Store)
    (v3Logs swapAndSyncLogs v3SwapLogs : List Log) : Store × Option String :=
  match forEachLog (handlePoolCreated reg chain env now) s v3Logs with
  | (s1, some e) => (s1, some e)
  | (s1, none) =>
    match forEachLog (handleSwapOrSync reg chain env now) s1 swapAndSyncLogs with
    | (s2, some e) => (s2, some e)
    | (s2, none) => forEachLog (handleV3Swap reg chain now) s2 v3SwapLogs

/-- The `try` block of lines 450-486 after `acquireBlockRange` has returned,
with the `catch` of line 487: the three requests one after the other, then
the three loops. -/
def processRange (reg : Registry) (chain : Chain) (env : Env) (now : Nat) (s : Store)
    (logs : RangeLogs) : IterationResult :=
  match logs.v3Logs with
  | none => { store := s, fetches := [.poolCreated], error := some "getLogs" }
  | some v3Logs =>
    match logs.swapAndSyncLogs with
    | none => { store := s, fetches := [.poolCreated, .swapOrSync], error := some "getLogs" }
    | some swapAndSyncLogs =>
      match logs.v3SwapLogs with
      | none =>
        { store := s, fetches := [.poolCreated, .swapOrSync, .v3Swap], error := some "getLogs" }
      | some v3SwapLogs =>
        let r := applyLogs reg chain env now s v3Logs swapAndSyncLogs v3SwapLogs
        { store := r.1, fetches := [.poolCreated, .swapOrSync, .v3Swap], error := r.2 }

/-- The environment of the scenarios: the topic hashes of the two V2 events
and a `getAddress` that accepts every text unchanged. -/
def scenarioEnv : Env :=
  { SWAP_TOPIC := "0xd78ad95fa46c994b6551d0da85fc275fe613ce37657fb8d5e3d130840159d822",
    SYNC_TOPIC := "0x1c411e9a96e071241c2f21f7726b17ae89e3cab4c78be50e062b03a9fffbbad1",
    getAddress := fun a => .ok a }

/-- The ABI payload of two words, each below 256. -/
def syncPayload (a b : Nat) : List Nat :=
  List.replicate 31 0 ++ [a] ++ (List.replicate 31 0 ++ [b])

/-! ## Sequences of ledger operations -/

deriving instance DecidableEq for Except

/-- A call of one of the ledger operations, or `racingInsert`: the `INSERT`
of a worker whose existence check ran on an earlier state of the table. -/
inductive LedgerCall
  | ensureV2Pool (lpAddress : String)
  | insertV3Pool (poolAddress token0 token1 : String)
  | updateReserves (lpAddress : String) (r0 r1 : Nat)
  | updateVolume (lpAddress : String) (data : List Nat)
  | updateV3Volume (lpAddress : String) (data : List Nat)
  | racingInsert (r : PoolRecord)

/-- The store after one call, or the exception it throws. -/
def applyCall (reg : Registry) (chain : Chain) (now : Nat) (s : Store) :
    LedgerCall → Except String Store
  | .ensureV2Pool lpAddress => ensureV2Pool reg chain now s lpAddress
  | .insertV3Pool poolAddress token0 token1 =>
    insertV3Pool reg chain now s poolAddress token0 token1
  | .updateReserves lpAddress r0 r1 => .ok (updateReserves reg chain now s lpAddress r0 r1)
  | .updateVolume lpAddress data => updateVolume reg chain s lpAddress data
  | .updateV3Volume lpAddress data => updateV3Volume reg chain now s lpAddress data
  | .racingInsert r => insertIgnoringDuplicate s s.tokenMeta r

/-- The store after a sequence of calls; a call that throws is abandoned and
the sequence goes on from the store before it. -/
def applyCalls (reg : Registry) (chain : Chain) (now : Nat) : Store → List LedgerCall → Store
  | s, [] => s
  | s, c :: rest =>
    match applyCall reg chain now s c with
    | .ok s1 => applyCalls reg chain now s1 rest
    | .error _ => applyCalls reg chain now s rest

/-- The number of rows of an address. -/
def recordCount (s : Store) (address : String) : Nat :=
  (selectByAddress s.rows address).length

/-- The ABI payload of a V3 swap whose `amount0` is `-a` (for `0 < a ≤ 256`)
and whose other six words are zero. -/
def v3PayloadNegative (a : Nat) : List Nat :=
  List.replicate 31 255 ++ [256 - a] ++ List.replicate 192 0

/-- The ABI payload of a V3 swap whose `amount0` is `a` (below 256) and whose
other six words are zero. -/
def v3PayloadPositive (a : Nat) : List Nat :=
  List.replicate 31 0 ++ [a] ++ List.replicate 192 0

/-! ## `readblock.js`: `parseV3` (lines 80-89) -/

/-- A log as the JSON-RPC answer of `eth_getLogs` gives it: topics, data and
block number are hexadecimal text. -/
structure RawLog where
  topics : List String
  data : String
  blockNumber : String
  deriving DecidableEq

/-- The text `s.slice(start)` for a non-negative `start`. -/
def sliceFrom (s : String) (start : Nat) : String :=
  ⟨s.data.drop start⟩

/-- The text `s.slice(start, stop)` for non-negative indexes. -/
def slice (s : String) (start stop : Nat) : String :=
  ⟨(s.data.drop start).take (stop - start)⟩

/-- The value of a hexadecimal digit, in either case. -/
def hexValue (c : Char) : Option Nat :=
  if '0' ≤ c ∧ c ≤ '9' then some (c.toNat - '0'.toNat)
  else if 'a' ≤ c ∧ c ≤ 'f' then some (c.toNat - 'a'.toNat + 10)
  else if 'A' ≤ c ∧ c ≤ 'F' then some (c.toNat - 'A'.toNat + 10)
  else none

/-- The value of the longest run of hexadecimal digits that starts `cs`, after
`acc`, and whether a digit was read. -/
def hexPrefix : List Char → Nat → Bool → Nat × Bool
  | [], acc, seen => (acc, seen)
  | c :: cs, acc, seen =>
    match hexValue c with
    | some d => hexPrefix cs (acc * 16 + d) true
    | none => (acc, seen)

/-- The number `parseInt(s, 16)` for a text without leading blanks or sign: an
optional `0x` or `0X`, then the longest run of hexadecimal digits; `none` is
`NaN`. The value is exact (a JavaScript number rounds above `2^53`). -/
def parseInt16 (s : String) : Option Nat :=
  let body : List Char :=
    match s.data with
    | '0' :: 'x' :: rest => rest
    | '0' :: 'X' :: rest => rest
    | cs => cs
  match hexPrefix body 0 false with
  | (v, true) => some v
  | (_, false) => none

/-- The object `save` returned by `parseV3`. -/
structure ParsedV3 where
  block : Option Nat
  token0 : String
  token1 : String
  fee : Option Nat
  pool : String
  deriving DecidableEq

/-- The function `parseV3` of `readblock.js` (lines 80-89), its `save` object;
a missing topic makes `.slice` throw. -/
def parseV3 (log : RawLog) : Except String ParsedV3 :=
  match log.topics.get? 1, log.topics.get? 2 with
  | some topic1, some topic2 =>
    let token0 := "0x" ++ sliceFrom topic1 26
    let token1 := "0x" ++ sliceFrom topic2 26
    let fee := match log.topics.get? 3 with
      | some topic3 => parseInt16 topic3
      | none => none
    let pool := "0x" ++ slice log.data 130 170
    .ok { block := parseInt16 log.blockNumber, token0 := token0, token1 := token1,
          fee := fee, pool := pool }
  | _, _ => .error "TypeError"

/-- The value the claim describes for `pool`: `"0x"` followed by the low 20
bytes of the second 32-byte word of the data, that is the characters 90 to
129 of the text `"0x" + word0 + word1`. -/
def poolOfData (data : String) : String :=
  "0x" ++ slice data 90 130

/-- The function `parseV2` of `readblock.js` (lines 70-78), its fields
`token0`, `token1` and `pair`. -/
def parseV2 (log : RawLog) : Except String (String × String × String) :=
  match log.topics.get? 1, log.topics.get? 2 with
  | some topic1, some topic2 =>
    .ok ("0x" ++ sliceFrom topic1 26, "0x" ++ sliceFrom topic2 26, "0x" ++ slice log.data 26 66)
  | _, _ => .error "TypeError"

/-- A PoolCreated log of the V3 factory: USDT and WBNB, fee 500, tick spacing
10, pool `0x36696169c63e42cd08ce11f5deebbcebae652050`. -/
def samplePoolCreated : RawLog :=
  { topics :=
      ["0x783cca1c0412dd0d695e784568c96da2e9c22ff989357a2e8b1d9b2b4e6b7118",
       "0x00000000000000000000000055d398326f99059ff775485246999027b3197955",
       "0x000000000000000000000000bb4cdb9cbd36b01bd1cbaebf2de08d9173bc095c",
       "0x00000000000000000000000000000000000000000000000000000000000001f4"],
    data := "0x000000000000000000000000000000000000000000000000000000000000000a" ++
      "00000000000000000000000036696169c63e42cd08ce11f5deebbcebae652050",
    blockNumber := "0x1a2b3c4" }

/-! ## `测试版.js`: pairing (lines 91-114) -/

namespace TestVersion

/-- The function `containsMainToken` of `测试版.js` (lines 91-95). -/
def containsMainToken (reg : Registry) (token0 token1 : String) : Bool :=
  (reg.get (toLowerCase token0)).isSome || (reg.get (toLowerCase token1)).isSome

/-- The function `getParentToken` of `测试版.js` (lines 103-110). -/
def getParentToken (reg : Registry) (token0 token1 : String) : String :=
  match reg.get (toLowerCase token0) with
  | none => token0
  | some _ =>
    match reg.get (toLowerCase token1) with
    | none => token1
    | some _ =>
      if toLowerCase token0 = toLowerCase "0x55d398326f99059fF775485246999027B3197955" then token1
      else token0

/-- The function `getMainToken` of `测试版.js` (lines 112-114). -/
def getMainToken (token0 token1 parentToken : String) : String :=
  if toLowerCase token0 = toLowerCase parentToken then token1 else token0

end TestVersion

/-! ## `1.js`: registry and pairing (lines 24-31, 75-108) -/

namespace One

/-- A registry as `1.js` writes it: address text, then rate. -/
abbrev RateTable := List (String × ℚ)

/-- The registry of `1.js` (lines 24-31), keys as written in the source. -/
def MAIN_TOKENS : RateTable :=
  [ ("0x55d398326f99059fF775485246999027B3197955", 1),
    ("0x8ac76a51cc950d9822d68b83fe1ad97b32cd580d", 1),
    ("0xbb4cdb9cbd36b01bd1cbaebf2de08d9173bc095c", 700),
    ("0xe9e7cea3dedca5984780bafc599bd69add087d56", 1),
    ("0x2170ed0880ac9a755fd29b2688956bd959f933f8", 3500),
    ("0x1af3f329e8be154074d8769d1ffa4ee058b1dbc3", 1) ]

/-- The property read `MAIN_TOKENS[k]`; `none` is `undefined`. -/
def RateTable.get (reg : RateTable) (k : String) : Option ℚ :=
  List.lookup k reg

/-- Truthiness of a value that is a number or `undefined`. -/
def truthy (v : Option ℚ) : Bool :=
  match v with
  | none => false
  | some r => decide (r ≠ 0)

/-- The value of `a || b`. -/
def orElse (a b : Option ℚ) : Option ℚ :=
  if truthy a then a else b

/-- The function `containsMainToken` of `1.js` (lines 75-78) on two texts
(the empty text is falsy): the value returned, `none` being `false` or
`undefined`. -/
def containsMainToken (reg : RateTable) (token0 token1 : String) : Option ℚ :=
  if token0 = "" ∨ token1 = "" then none
  else orElse (reg.get (toLowerCase token0)) (reg.get (toLowerCase token1))

/-- The rate `MAIN_TOKENS[tokenAddress.toLowerCase()] || 0` of line 82. -/
def rateOf (reg : RateTable) (tokenAddress : String) : ℚ :=
  (orElse (reg.get (toLowerCase tokenAddress)) (some 0)).getD 0

/-- The function `getUSDTValue` of `1.js` (lines 81-85). -/
def getUSDTValue (reg : RateTable) (tokenAddress : String) (amount : Int) (decimals : Nat) : ℚ :=
  formatUnits amount decimals * rateOf reg tokenAddress

/-- The function `getParentToken` of `1.js` (lines 88-103). -/
def getParentToken (reg : RateTable) (token0 token1 : String) : String :=
  if !truthy (reg.get (toLowerCase token0)) then token0
  else if !truthy (reg.get (toLowerCase token1)) then token1
  else if toLowerCase token0 = toLowerCase "0x55d398326f99059fF775485246999027B3197955" then
    token1
  else if toLowerCase token1 = toLowerCase "0x55d398326f99059fF775485246999027B3197955" then
    token0
  else token0

/-- The function `getMainToken` of `1.js` (lines 106-108). -/
def getMainToken (token0 token1 parentToken : String) : String :=
  if toLowerCase token0 = toLowerCase parentToken then token1 else token0

/-- The fleet registry read as a table of rates. -/
def ratesOf (reg : Registry) : RateTable :=
  reg.map (fun e => (e.1, e.2.rate))

end One

/-! ## `1.js` and `测试版.js`: the single-process loop (lines 124-233, 180-221) -/

/-- The constant `BATCH_SIZE` of both single-process scripts. -/
def BATCH_SIZE : Int := 100

/-- One pass of `while (fromBlock <= latestBlock)` from `fromBlock`, the `try`
block being represented by whether it threw: the range attempted and the
`fromBlock` of the next pass. The `catch` waits and runs `continue`, which
skips the assignment `fromBlock = toBlock + 1`. -/
def singlePass (latestBlock fromBlock : Int) (threw : Bool) : (Int × Int) × Int :=
  let toBlock := min (fromBlock + BATCH_SIZE - 1) latestBlock
  if threw then ((fromBlock, toBlock), fromBlock)
  else ((fromBlock, toBlock), toBlock + 1)

/-- The loop run on a list of outcomes of its `try` block, one per pass: the
ranges attempted, in order, and the final `fromBlock`. The loop ends when
`fromBlock` exceeds `latestBlock`. -/
def singleLoop (latestBlock : Int) : Int → List Bool → List (Int × Int) × Int
  | fromBlock, [] => ([], fromBlock)
  | fromBlock, threw :: rest =>
    if fromBlock ≤ latestBlock then
      let r := singlePass latestBlock fromBlock threw
      let tail := singleLoop latestBlock r.2 rest
      (r.1 :: tail.1, tail.2)
    else ([], fromBlock)

/-! ## The fleet of `main` loops (lines 439-494) -/

/-- An atomic step of the fleet: a step of a worker inside `acquireBlockRange`,
or the rest of an iteration (lines 452-492) of a worker that holds a range,
with what `getLogs` answers. -/
inductive MainEvent
  | allocator (e : FleetEvent)
  | iteration (w : Nat) (logs : RangeLogs)

/-- The shared cursor with the workers, and the shared ledger with the cache. -/
structure System where
  fleet : Fleet
  store : Store

/-- One step of the fleet of `main` loops. The rest of an iteration reads and
writes the table and the metadata keys only; it runs for a worker that is
outside `acquireBlockRange` and holds a returned range. -/
def mainStep (reg : Registry) (chain : Chain) (env : Env) (now : Nat) (batchSize : Int)
    (sys : System) : MainEvent → System
  | .allocator e => { sys with fleet := fleetStep batchSize sys.fleet e }
  | .iteration w logs =>
    if sys.fleet.workers w = .idle ∧ (sys.fleet.granted.any (fun g => g.1 == w)) = true then
      { sys with store := (processRange reg chain env now sys.store logs).store }
    else sys

/-- The fleet after a sequence of steps. -/
def mainRun (reg : Registry) (chain : Chain) (env : Env) (now : Nat) (batchSize : Int)
    (sys : System) (es : List MainEvent) : System :=
  es.foldl (mainStep reg chain env now batchSize) sys

/-- The allocator steps of a sequence of steps. -/
def allocatorEvents : List MainEvent → List FleetEvent
  | [] => []
  | .allocator e :: rest => e :: allocatorEvents rest
  | .iteration _ _ :: rest => allocatorEvents rest

/-! ## Fields of a record fixed at insertion -/

/-- The address, the pair order and the resolved roles of a record. -/
def identityOf (r : PoolRecord) : String × String × String × String × Option String :=
  (r.contract_address, r.token0_address, r.token1_address, r.parent_token_address, r.main_token)

/-! ## Properties of the allocator -/

theorem claimScript_cursorLe (cur : Option Int) (arg : Int) :
    cursorLe cur (claimScript cur arg).2 := by
  cases cur with
  | none => simp [cursorLe]
  | some c =>
    by_cases h : arg > c
    · simp [claimScript, h, cursorLe]; omega
    · simp [claimScript, h, cursorLe]

theorem cursorLe_refl (a : Option Int) : cursorLe a a := by
  cases a <;> simp [cursorLe]

theorem cursorLe_trans {a b c : Option Int} (h₁ : cursorLe a b) (h₂ : cursorLe b c) :
    cursorLe a c := by
  cases a <;> cases b <;> cases c <;> simp_all [cursorLe]
  omega

theorem evalScripts_cursorLe (args : List Int) (cur : Option Int) :
    cursorLe cur (evalScripts cur args) := by
  induction args generalizing cur with
  | nil => exact cursorLe_refl cur
  | cons a rest ih =>
    exact cursorLe_trans (claimScript_cursorLe cur a) (ih (claimScript cur a).2)

theorem fleetStep_cursorLe (b : Int) (s : Fleet) (e : FleetEvent) :
    cursorLe s.cursor (fleetStep b s e).cursor := by
  cases e with
  | call w latest =>
    simp only [fleetStep]
    split <;> exact cursorLe_refl _
  | read w =>
    simp only [fleetStep]
    split
    · split <;> exact cursorLe_refl _
    · exact cursorLe_refl _
  | claim w =>
    simp only [fleetStep]
    split
    · split <;> exact claimScript_cursorLe _ _
    · exact cursorLe_refl _

theorem fleetRun_cursorLe (b : Int) (es : List FleetEvent) (s : Fleet) :
    cursorLe s.cursor (fleetRun b s es).cursor := by
  induction es generalizing s with
  | nil => exact cursorLe_refl _
  | cons e rest ih =>
    exact cursorLe_trans (fleetStep_cursorLe b s e) (ih (fleetStep b s e))

theorem claim_still_current {b c f : Int} (hle : f ≤ c) (hdvd : b ∣ (c - f))
    (hgt : f + b - 1 + 1 > c) : c = f ∧ 0 < b := by
  have hb : 0 < b := by omega
  have h0 : c - f = 0 := by
    apply Int.eq_zero_of_abs_lt_dvd hdvd
    rw [abs_of_nonneg (by omega)]
    omega
  exact ⟨by omega, hb⟩

theorem fleetStep_inv (b : Int) (s : Fleet) (e : FleetEvent) (h : FleetInv b s) :
    FleetInv b (fleetStep b s e) := by
  obtain ⟨c, hc, hpos, hw, hp, hg⟩ := h
  cases e with
  | call w latest =>
    simp only [fleetStep]
    split
    · refine ⟨c, hc, hpos, ?_, hp, hg⟩
      intro w1 l1 f1 h1
      by_cases hww : w1 = w
      · subst hww; simp at h1
      · simp only [Function.update_noteq hww] at h1
        exact hw w1 l1 f1 h1
    · exact ⟨c, hc, hpos, hw, hp, hg⟩
  | read w =>
    simp only [fleetStep]
    split
    · split
      · exact ⟨c, hc, hpos, hw, hp, hg⟩
      · refine ⟨c, hc, hpos, ?_, hp, hg⟩
        intro w1 l1 f1 h1
        by_cases hww : w1 = w
        · subst hww
          simp only [Function.update_same, WorkerState.readDone.injEq] at h1
          have hne : c ≠ 0 := by omega
          have : f1 = c := by rw [← h1.2, hc]; simp [readFromBlock, hne]
          subst this
          simp
        · simp only [Function.update_noteq hww] at h1
          exact hw w1 l1 f1 h1
    · exact ⟨c, hc, hpos, hw, hp, hg⟩
  | claim w =>
    simp only [fleetStep]
    split
    · rename_i latest f hwf
      obtain ⟨hle, hdvd⟩ := hw w latest f hwf
      by_cases hgt : f + b - 1 + 1 > c
      · obtain ⟨hcf, hb⟩ := claim_still_current hle hdvd hgt
        subst hcf
        simp only [hc, claimScript, hgt, if_true]
        refine ⟨c + b - 1 + 1, rfl, by omega, ?_, ?_, ?_⟩
        · intro w1 l1 f1 h1
          by_cases hww : w1 = w
          · subst hww; simp at h1
          · simp only [Function.update_noteq hww] at h1
            obtain ⟨h2, h3⟩ := hw w1 l1 f1 h1
            refine ⟨by omega, ?_⟩
            have : c + b - 1 + 1 - f1 = (c - f1) + b := by ring
            rw [this]
            exact dvd_add h3 (dvd_refl b)
        · refine List.Pairwise.cons ?_ hp
          intro g hgm
          exact hg g hgm
        · intro g hgm
          rcases List.mem_cons.1 hgm with rfl | hgm
          · simp
          · have := hg g hgm; omega
      · simp only [hc, claimScript, hgt, if_false]
        refine ⟨c, by simp, hpos, ?_, hp, hg⟩
        intro w1 l1 f1 h1
        by_cases hww : w1 = w
        · subst hww; simp at h1
        · simp [Function.update_noteq hww] at h1
          exact hw w1 l1 f1 h1
    · exact ⟨c, hc, hpos, hw, hp, hg⟩

theorem fleetRun_inv (b : Int) (es : List FleetEvent) (s : Fleet) (h : FleetInv b s) :
    FleetInv b (fleetRun b s es) := by
  induction es generalizing s with
  | nil => exact h
  | cons e rest ih => exact ih (fleetStep b s e) (fleetStep_inv b s e h)

theorem init_inv (b c : Int) (hc : 0 < c) : FleetInv b (Fleet.init (some c)) :=
  ⟨c, rfl, hc, by intro w l f h; simp [Fleet.init] at h, List.Pairwise.nil, by simp [Fleet.init]⟩

/-- With the cursor set to a positive block, the ranges returned along any
interleaving of any workers with one batch size are pairwise disjoint. -/
theorem granted_disjoint_of_set_cursor (b c : Int) (hc : 0 < c) (es : List FleetEvent) :
    (fleetRun b (Fleet.init (some c)) es).granted.Pairwise
      (fun x y => ¬ rangesOverlap x.2 y.2) := by
  obtain ⟨_, _, _, _, hp, _⟩ := fleetRun_inv b es _ (init_inv b c hc)
  refine hp.imp ?_
  rintro x y hxy ⟨blk, h1, h2, h3, h4⟩
  omega
/-- C1, at the failing input: with the cursor unset and batch size 100, a worker
that read head 2000000 and a worker that read head 2000050 both read the
cursor before either claims; both claims succeed, and the two returned ranges
share the blocks 1000050 to 1000099. -/
theorem acquireBlockRange_unset_cursor_overlap :
    (fleetRun 100 (Fleet.init none)
        [.call 0 2000000, .call 1 2000050, .read 0, .read 1, .claim 0, .claim 1]).granted
      = [(1, 1000050, 1000149), (0, 1000000, 1000099)]
    ∧ rangesOverlap (1000050, 1000149) (1000000, 1000099) := by
  refine ⟨by decide, 1000050, by decide, by decide, by decide, by decide⟩

/-- C2: an evaluation of the claim script either returns 1 and stores its
argument, which is then strictly above the old cursor unless the key was absent,
or returns 0 and leaves the cursor as it was; so the cursor never decreases,
neither across one evaluation, nor across any sequence of evaluations, nor
along any sequence of steps of any workers. -/
theorem claimScript_cursor_monotone (cur : Option Int) (arg : Int) (args : List Int)
    (b : Int) (s : Fleet) (es : List FleetEvent) :
    (((claimScript cur arg).1 = 1 ∧ (claimScript cur arg).2 = some arg ∧
        (cur = none ∨ ∃ c, cur = some c ∧ c < arg)) ∨
      ((claimScript cur arg).1 = 0 ∧ (claimScript cur arg).2 = cur)) ∧
    cursorLe cur (claimScript cur arg).2 ∧
    cursorLe cur (evalScripts cur args) ∧
    cursorLe s.cursor (fleetRun b s es).cursor := by
  refine ⟨?_, claimScript_cursorLe cur arg, evalScripts_cursorLe args cur,
    fleetRun_cursorLe b es s⟩
  cases cur with
  | none => left; simp [claimScript]
  | some c =>
    by_cases h : arg > c
    · left; simp [claimScript, h]
    · right; simp [claimScript, h]

/-- C3 as stated fails: a worker that read C = 1000050 with batch size 100 runs
the script while the stored cursor is 1000100, which is neither absent nor
equal to C, and the script still returns 1 and stores 1000150. -/
theorem claimScript_not_compare_and_set :
    ¬ (claimScript (some 1000100) (1000050 + 100) = (1, some (1000050 + 100)) ↔
        ((some 1000100 : Option Int) = none ∨ (some 1000100 : Option Int) = some 1000050)) := by
  decide

/-- C3, amended: the script sets the cursor when its argument is greater. It
returns 1 and stores C + batchSize exactly when the stored cursor is absent or
strictly below C + batchSize, and returns 0 leaving the cursor unchanged exactly
when the stored cursor is at or above C + batchSize; on a stored cursor still
equal to C it succeeds exactly when batchSize is at least 1. -/
theorem claimScript_set_if_greater (stored : Option Int) (C batchSize : Int) :
    (claimScript stored (C + batchSize) = (1, some (C + batchSize)) ↔
        (stored = none ∨ ∃ c, stored = some c ∧ c < C + batchSize)) ∧
    (claimScript stored (C + batchSize) = (0, stored) ↔
        ∃ c, stored = some c ∧ C + batchSize ≤ c) ∧
    claimScript (some C) (C + batchSize) =
      (if 1 ≤ batchSize then (1, some (C + batchSize)) else (0, some C)) := by
  refine ⟨?_, ?_, ?_⟩
  · cases stored with
    | none => simp [claimScript]
    | some c =>
      by_cases h : C + batchSize > c
      · simp [claimScript, h]
      · simp [claimScript, h]
  · cases stored with
    | none => simp [claimScript]
    | some c =>
      by_cases h : C + batchSize > c
      · simp [claimScript, h]
      · simp [claimScript, h]; omega
  · by_cases h : 1 ≤ batchSize
    · have : C + batchSize > C := by omega
      simp [claimScript, h, this]
    · have : ¬ C + batchSize > C := by omega
      simp [claimScript, h, this]

/-- C4: for a worker at the top of the loop of `acquireBlockRange` with head
`latest`: when the candidate `toBlock` exceeds the head, the iteration changes
nothing (no write to the cursor, the worker is back at the top of the loop and
has no claim step to run); and when it read a stored cursor C > 0 with
batchSize ≥ 1, the read itself writes nothing, and any later claim step of
that worker that returns a range returns `[C, C + batchSize - 1]`, with
`toBlock ≤ latest` and the stored cursor equal to C + batchSize right after. -/
theorem acquireBlockRange_range (b : Int) (s : Fleet) (w : Nat) (latest : Int)
    (hw : s.workers w = .loopTop latest) :
    (readFromBlock s.cursor latest + b - 1 > latest →
      fleetStep b s (.read w) = s ∧ fleetStep b s (.claim w) = s) ∧
    (∀ C : Int, s.cursor = some C → 0 < C → 1 ≤ b →
      (fleetStep b s (.read w)).cursor = s.cursor ∧
      (fleetStep b s (.read w)).granted = s.granted ∧
      ∀ s2 : Fleet, s2.workers w = (fleetStep b s (.read w)).workers w →
        ∀ (w1 : Nat) (f t : Int),
          (fleetStep b s2 (.claim w)).granted = (w1, f, t) :: s2.granted →
          w1 = w ∧ f = C ∧ t = C + b - 1 ∧ t ≤ latest ∧
          (fleetStep b s2 (.claim w)).cursor = some (C + b) ∧
          (fleetStep b s2 (.claim w)).workers w = .idle) := by
  constructor
  · intro h
    simp [fleetStep, hw, h]
  · intro C hc hC hb
    have hne : C ≠ 0 := by omega
    have hrd : readFromBlock s.cursor latest = C := by simp [hc, readFromBlock, hne]
    by_cases hgt : C + b - 1 > latest
    · simp only [fleetStep, hw, hrd, hgt, if_true, true_and]
      intro s2 h2 w1 f t hg
      simp [h2] at hg
    · simp only [fleetStep, hw, hrd, hgt, if_false, true_and, Function.update_same]
      intro s2 h2 w1 f t hg
      have e : C + b - 1 + 1 = C + b := by ring
      simp only [h2, e] at hg ⊢
      by_cases h1 : (claimScript s2.cursor (C + b)).1 = 1
      · simp only [h1, if_true, List.cons.injEq, Prod.mk.injEq, and_true] at hg ⊢
        obtain ⟨rfl, rfl, rfl⟩ := hg
        refine ⟨rfl, rfl, rfl, by omega, ?_, by simp⟩
        cases hcur : s2.cursor with
        | none => simp [claimScript]
        | some c =>
          rw [hcur] at h1
          by_cases hlt : C + b > c
          · simp [claimScript, hlt]
          · simp [claimScript, hlt] at h1
      · simp [h1] at hg

/-- Witness for C4: cursor 500, head 1000, batch size 100; worker 0 reads and
then claims `[500, 599]`, leaving the cursor at 600. -/
theorem acquireBlockRange_range_witness :
    (0 : Nat) = 0 ∧ (500 : Int) = 500 ∧ (599 : Int) = 500 + 100 - 1 ∧ (599 : Int) ≤ 1000 ∧
    (fleetStep 100 (fleetRun 100 (Fleet.init (some 500)) [.call 0 1000, .read 0])
        (.claim 0)).cursor = some (500 + 100) ∧
    (fleetStep 100 (fleetRun 100 (Fleet.init (some 500)) [.call 0 1000, .read 0])
        (.claim 0)).workers 0 = .idle :=
  ((acquireBlockRange_range 100 (fleetRun 100 (Fleet.init (some 500)) [.call 0 1000]) 0 1000
      (by decide)).2 500 (by decide) (by decide) (by decide)).2.2
    (fleetRun 100 (Fleet.init (some 500)) [.call 0 1000, .read 0]) (by decide)
    0 500 599 (by decide)

/-! ## Properties of `analyzePair` -/

theorem analyzePair_none_none (reg : Registry) (token0 token1 : String)
    (h0 : reg.get (toLowerCase token0) = none) (h1 : reg.get (toLowerCase token1) = none) :
    analyzePair reg token0 token1 =
      { hasMainToken := false, mainToken := none, mainTokenName := none,
        parentToken := some token0, otherToken := some token1 } := by
  simp [analyzePair, h0, h1]

theorem analyzePair_some_none (reg : Registry) (token0 token1 : String) (m0 : MainTokenInfo)
    (h0 : reg.get (toLowerCase token0) = some m0) (h1 : reg.get (toLowerCase token1) = none) :
    analyzePair reg token0 token1 =
      { hasMainToken := true, mainToken := some token0, mainTokenName := some m0.name,
        parentToken := some token1, otherToken := some token0 } := by
  simp [analyzePair, h0, h1]

theorem analyzePair_none_some (reg : Registry) (token0 token1 : String) (m1 : MainTokenInfo)
    (h0 : reg.get (toLowerCase token0) = none) (h1 : reg.get (toLowerCase token1) = some m1) :
    analyzePair reg token0 token1 =
      { hasMainToken := true, mainToken := some token1, mainTokenName := some m1.name,
        parentToken := some token0, otherToken := some token1 } := by
  simp [analyzePair, h0, h1]

theorem analyzePair_some_some (reg : Registry) (token0 token1 : String) (m0 m1 : MainTokenInfo)
    (h0 : reg.get (toLowerCase token0) = some m0) (h1 : reg.get (toLowerCase token1) = some m1) :
    analyzePair reg token0 token1 =
      if toLowerCase token0 = USDT_ANCHOR then
        { hasMainToken := true, mainToken := some token0, mainTokenName := some m0.name,
          parentToken := some token1, otherToken := none }
      else
        { hasMainToken := true, mainToken := some token1, mainTokenName := some m1.name,
          parentToken := some token0, otherToken := none } := by
  simp [analyzePair, h0, h1]

/-- C5 as stated fails: WBNB and ETH are both registry keys and neither is the
anchor, so each call takes its own first argument as `parentToken`. -/
theorem analyzePair_order_dependent :
    ¬ ((analyzePair (MAIN_TOKENS 700 3500 118000)
          "0xbb4CdB9CBd36B01bD1cBaEBF2De08d9173bc095c"
          "0x2170Ed0880ac9A755fd29B2688956BD959F933F8").mainToken
        = (analyzePair (MAIN_TOKENS 700 3500 118000)
          "0x2170Ed0880ac9A755fd29B2688956BD959F933F8"
          "0xbb4CdB9CBd36B01bD1cBaEBF2De08d9173bc095c").mainToken
      ∧ (analyzePair (MAIN_TOKENS 700 3500 118000)
          "0xbb4CdB9CBd36B01bD1cBaEBF2De08d9173bc095c"
          "0x2170Ed0880ac9A755fd29B2688956BD959F933F8").parentToken
        = (analyzePair (MAIN_TOKENS 700 3500 118000)
          "0x2170Ed0880ac9A755fd29B2688956BD959F933F8"
          "0xbb4CdB9CBd36B01bD1cBaEBF2De08d9173bc095c").parentToken) := by
  decide

/-- C5, amended: `analyzePair(A, B)` and `analyzePair(B, A)` return the same
`mainToken` and the same `parentToken` exactly when A = B, or exactly one of
the two lower-cased addresses is a registry key, or both are keys and exactly
one of them is the anchor USDT. -/
theorem analyzePair_symmetric_iff (reg : Registry) (A B : String) :
    ((analyzePair reg A B).mainToken = (analyzePair reg B A).mainToken ∧
      (analyzePair reg A B).parentToken = (analyzePair reg B A).parentToken) ↔
    (A = B ∨
      ((reg.get (toLowerCase A)).isSome = true ∧ (reg.get (toLowerCase B)).isSome = false) ∨
      ((reg.get (toLowerCase A)).isSome = false ∧ (reg.get (toLowerCase B)).isSome = true) ∨
      ((reg.get (toLowerCase A)).isSome = true ∧ (reg.get (toLowerCase B)).isSome = true ∧
        ((toLowerCase A = USDT_ANCHOR ∧ toLowerCase B ≠ USDT_ANCHOR) ∨
          (toLowerCase A ≠ USDT_ANCHOR ∧ toLowerCase B = USDT_ANCHOR)))) := by
  cases hA : reg.get (toLowerCase A) with
  | none =>
    cases hB : reg.get (toLowerCase B) with
    | none =>
      rw [analyzePair_none_none reg A B hA hB, analyzePair_none_none reg B A hB hA]
      simp
    | some mB =>
      rw [analyzePair_none_some reg A B mB hA hB, analyzePair_some_none reg B A mB hB hA]
      simp
  | some mA =>
    cases hB : reg.get (toLowerCase B) with
    | none =>
      rw [analyzePair_some_none reg A B mA hA hB, analyzePair_none_some reg B A mA hB hA]
      simp
    | some mB =>
      rw [analyzePair_some_some reg A B mA mB hA hB, analyzePair_some_some reg B A mB mA hB hA]
      by_cases hAa : toLowerCase A = USDT_ANCHOR <;>
        by_cases hBa : toLowerCase B = USDT_ANCHOR <;>
        simp [hAa, hBa] <;>
        exact fun h => h.symm

/-- C6: when both tokens are registry keys, the anchor USDT, in either
position, is `mainToken` and the other token is `parentToken`; when neither is
the anchor, `token0` is `parentToken` and `token1` is `mainToken`. -/
theorem analyzePair_both_main (reg : Registry) (token0 token1 : String)
    (h0 : (reg.get (toLowerCase token0)).isSome = true)
    (h1 : (reg.get (toLowerCase token1)).isSome = true) :
    USDT_ANCHOR = "0x55d398326f99059ff775485246999027b3197955" ∧
    (toLowerCase token0 = USDT_ANCHOR ∧ toLowerCase token1 ≠ USDT_ANCHOR →
      (analyzePair reg token0 token1).parentToken = some token1 ∧
      (analyzePair reg token0 token1).mainToken = some token0) ∧
    (toLowerCase token0 ≠ USDT_ANCHOR ∧ toLowerCase token1 = USDT_ANCHOR →
      (analyzePair reg token0 token1).parentToken = some token0 ∧
      (analyzePair reg token0 token1).mainToken = some token1) ∧
    (toLowerCase token0 ≠ USDT_ANCHOR ∧ toLowerCase token1 ≠ USDT_ANCHOR →
      (analyzePair reg token0 token1).parentToken = some token0 ∧
      (analyzePair reg token0 token1).mainToken = some token1) := by
  obtain ⟨m0, hm0⟩ := Option.isSome_iff_exists.1 h0
  obtain ⟨m1, hm1⟩ := Option.isSome_iff_exists.1 h1
  rw [analyzePair_some_some reg token0 token1 m0 m1 hm0 hm1]
  refine ⟨by decide, ?_, ?_, ?_⟩ <;>
    · rintro ⟨ha, hb⟩
      simp [ha]

/-- Witness for C6: ETH first and USDT second, in checksum case, over the
registry of the source. -/
theorem analyzePair_both_main_witness :
    (analyzePair (MAIN_TOKENS 700 3500 118000)
        "0x2170Ed0880ac9A755fd29B2688956BD959F933F8"
        "0x55d398326f99059fF775485246999027B3197955").parentToken
      = some "0x2170Ed0880ac9A755fd29B2688956BD959F933F8" ∧
    (analyzePair (MAIN_TOKENS 700 3500 118000)
        "0x2170Ed0880ac9A755fd29B2688956BD959F933F8"
        "0x55d398326f99059fF775485246999027B3197955").mainToken
      = some "0x55d398326f99059fF775485246999027B3197955" :=
  (analyzePair_both_main (MAIN_TOKENS 700 3500 118000)
    "0x2170Ed0880ac9A755fd29B2688956BD959F933F8"
    "0x55d398326f99059fF775485246999027B3197955" (by decide) (by decide)).2.2.1
    ⟨by decide, by decide⟩

/-- C7: `hasMainToken` is true exactly when at least one lower-cased address is
a registry key; with neither a key, `mainToken` and `mainTokenName` are null;
with exactly one a key, `mainToken` is that token, `mainTokenName` its registry
name and `parentToken` the other token. -/
theorem analyzePair_hasMainToken (reg : Registry) (token0 token1 : String) :
    ((analyzePair reg token0 token1).hasMainToken = true ↔
      ((reg.get (toLowerCase token0)).isSome = true ∨
        (reg.get (toLowerCase token1)).isSome = true)) ∧
    (reg.get (toLowerCase token0) = none → reg.get (toLowerCase token1) = none →
      (analyzePair reg token0 token1).mainToken = none ∧
      (analyzePair reg token0 token1).mainTokenName = none) ∧
    (∀ info, reg.get (toLowerCase token0) = some info → reg.get (toLowerCase token1) = none →
      (analyzePair reg token0 token1).mainToken = some token0 ∧
      (analyzePair reg token0 token1).mainTokenName = some info.name ∧
      (analyzePair reg token0 token1).parentToken = some token1) ∧
    (∀ info, reg.get (toLowerCase token0) = none → reg.get (toLowerCase token1) = some info →
      (analyzePair reg token0 token1).mainToken = some token1 ∧
      (analyzePair reg token0 token1).mainTokenName = some info.name ∧
      (analyzePair reg token0 token1).parentToken = some token0) := by
  refine ⟨?_, ?_, ?_, ?_⟩
  · cases h0 : reg.get (toLowerCase token0) with
    | none =>
      cases h1 : reg.get (toLowerCase token1) with
      | none => simp [analyzePair_none_none reg token0 token1 h0 h1]
      | some m1 => simp [analyzePair_none_some reg token0 token1 m1 h0 h1]
    | some m0 =>
      cases h1 : reg.get (toLowerCase token1) with
      | none => simp [analyzePair_some_none reg token0 token1 m0 h0 h1]
      | some m1 =>
        rw [analyzePair_some_some reg token0 token1 m0 m1 h0 h1]
        split <;> simp
  · intro h0 h1
    simp [analyzePair, h0, h1]
  · intro info h0 h1
    simp [analyzePair, h0, h1]
  · intro info h0 h1
    simp [analyzePair, h0, h1]

/-- Witness for C7: a token outside the registry paired with BUSD. -/
theorem analyzePair_hasMainToken_witness :
    (analyzePair (MAIN_TOKENS 700 3500 118000)
        "0x0E09FaBB73Bd3Ade0a17ECC321fD13a19e81cE82"
        "0xe9e7CEA3DedcA5984780Bafc599bD69ADd087D56").mainToken
      = some "0xe9e7CEA3DedcA5984780Bafc599bD69ADd087D56" ∧
    (analyzePair (MAIN_TOKENS 700 3500 118000)
        "0x0E09FaBB73Bd3Ade0a17ECC321fD13a19e81cE82"
        "0xe9e7CEA3DedcA5984780Bafc599bD69ADd087D56").mainTokenName = some "BUSD" ∧
    (analyzePair (MAIN_TOKENS 700 3500 118000)
        "0x0E09FaBB73Bd3Ade0a17ECC321fD13a19e81cE82"
        "0xe9e7CEA3DedcA5984780Bafc599bD69ADd087D56").parentToken
      = some "0x0E09FaBB73Bd3Ade0a17ECC321fD13a19e81cE82" :=
  (analyzePair_hasMainToken (MAIN_TOKENS 700 3500 118000)
    "0x0E09FaBB73Bd3Ade0a17ECC321fD13a19e81cE82"
    "0xe9e7CEA3DedcA5984780Bafc599bD69ADd087D56").2.2.2 ⟨"BUSD", 1⟩ (by decide) (by decide)

/-! ## Properties of the ledger -/

theorem selectByAddress_updateByAddress (rows : List PoolRecord) (a : String)
    (f : PoolRecord → PoolRecord) (hf : ∀ r, (f r).contract_address = r.contract_address) :
    selectByAddress (updateByAddress rows a f) a = (selectByAddress rows a).map f := by
  induction rows with
  | nil => rfl
  | cons r rest ih =>
    simp only [selectByAddress, updateByAddress, List.map_cons, List.filter_cons] at ih ⊢
    by_cases h : r.contract_address = a
    · have hb : (r.contract_address == a) = true := by simp [h]
      have hb2 : ((f r).contract_address == a) = true := by simp [hf, h]
      simp only [hb, hb2, ↓reduceIte, ih, List.map_cons]
    · have hb : (r.contract_address == a) = false := by simp [h]
      simp only [hb, Bool.false_eq_true, ↓reduceIte, ih]

theorem updateByAddress_updateByAddress (rows : List PoolRecord) (a : String)
    (f g : PoolRecord → PoolRecord) (hf : ∀ r, (f r).contract_address = r.contract_address) :
    updateByAddress (updateByAddress rows a f) a g = updateByAddress rows a (g ∘ f) := by
  induction rows with
  | nil => rfl
  | cons r rest ih =>
    simp only [updateByAddress, List.map_cons] at ih ⊢
    by_cases h : r.contract_address = a
    · have hb : (r.contract_address == a) = true := by simp [h]
      have hb2 : ((f r).contract_address == a) = true := by simp [hf, h]
      simp only [hb, hb2, ↓reduceIte, ih, Function.comp_apply]
    · have hb : (r.contract_address == a) = false := by simp [h]
      simp only [hb, Bool.false_eq_true, ↓reduceIte, ih]

theorem getTokenMeta_lookup (chain : Chain) (c : MetaCache) (x : String) :
    List.lookup ("token_meta:" ++ toLowerCase x) (getTokenMeta chain c x).2
      = some (getTokenMeta chain c x).1 := by
  cases h : List.lookup ("token_meta:" ++ toLowerCase x) c with
  | none => simp [getTokenMeta, h, List.lookup]
  | some v => simp [getTokenMeta, h]

theorem getTokenMeta_preserves (chain : Chain) (c : MetaCache) (x k : String) (v : TokenMeta)
    (hk : List.lookup k c = some v) :
    List.lookup k (getTokenMeta chain c x).2 = some v := by
  cases h : List.lookup ("token_meta:" ++ toLowerCase x) c with
  | none =>
    have hne : k ≠ "token_meta:" ++ toLowerCase x := by
      rintro rfl
      rw [h] at hk
      exact Option.noConfusion hk
    have hb : (k == "token_meta:" ++ toLowerCase x) = false := by simp [hne]
    simp [getTokenMeta, h, List.lookup, hb, hk]
  | some w => simpa [getTokenMeta, h] using hk

theorem getTokenMeta_of_lookup (chain : Chain) (c : MetaCache) (x : String) (v : TokenMeta)
    (hk : List.lookup ("token_meta:" ++ toLowerCase x) c = some v) :
    getTokenMeta chain c x = (v, c) := by
  simp [getTokenMeta, hk]

theorem getTokenMeta_again (chain : Chain) (c : MetaCache) (x : String) :
    getTokenMeta chain (getTokenMeta chain c x).2 x
      = ((getTokenMeta chain c x).1, (getTokenMeta chain c x).2) :=
  getTokenMeta_of_lookup chain _ x _ (getTokenMeta_lookup chain c x)

theorem record_eq_some {s : Store} {a : String} {rec : PoolRecord}
    (h : s.record a = some rec) :
    ∃ tl, selectByAddress s.rows a = rec :: tl := by
  unfold Store.record at h
  cases hs : selectByAddress s.rows a with
  | nil => rw [hs] at h; exact Option.noConfusion h
  | cons r tl =>
    rw [hs] at h
    simp only [List.head?_cons, Option.some.injEq] at h
    exact ⟨tl, by rw [h]⟩

theorem record_updateByAddress (rows : List PoolRecord) (c c2 : MetaCache) (a : String)
    (f : PoolRecord → PoolRecord) (hf : ∀ r, (f r).contract_address = r.contract_address)
    (rec : PoolRecord) (h : Store.record ⟨rows, c⟩ a = some rec)
    (rec2 : PoolRecord) (h2 : rec2 = f rec) :
    Store.record ⟨updateByAddress rows a f, c2⟩ a = some rec2 := by
  obtain ⟨tl, htl⟩ := record_eq_some h
  simp only [Store.record] at htl ⊢
  rw [selectByAddress_updateByAddress rows a f hf, htl, h2]
  rfl

theorem updateReserves_eq (reg : Registry) (chain : Chain) (now : Nat) (s : Store)
    (a : String) (r0 r1 : Nat) (rec : PoolRecord) (h : s.record a = some rec) :
    updateReserves reg chain now s a r0 r1 =
      { rows := updateByAddress s.rows a (fun r =>
          { r with
            token0_balance := formatUnits r0
              (reserveDecimals chain s.tokenMeta rec.token0_address rec.token1_address).1
            token1_balance := formatUnits r1
              (reserveDecimals chain s.tokenMeta rec.token0_address rec.token1_address).2
            liquidity_value := some (firstSideValue reg rec.token0_address rec.token1_address
              (formatUnits r0
                (reserveDecimals chain s.tokenMeta rec.token0_address rec.token1_address).1)
              (formatUnits r1
                (reserveDecimals chain s.tokenMeta rec.token0_address rec.token1_address).2))
            last_updated := now })
        tokenMeta := (getTokenMeta chain
          (getTokenMeta chain s.tokenMeta rec.token0_address).2 rec.token1_address).2 } := by
  obtain ⟨tl, htl⟩ := record_eq_some h
  simp only [updateReserves, htl, reserveDecimals, firstSideValue]

theorem updateReserves_none (reg : Registry) (chain : Chain) (now : Nat) (s : Store)
    (a : String) (r0 r1 : Nat) (h : s.record a = none) :
    updateReserves reg chain now s a r0 r1 = s := by
  unfold Store.record at h
  cases hs : selectByAddress s.rows a with
  | nil => simp only [updateReserves, hs]
  | cons r tl => rw [hs] at h; exact Option.noConfusion h

theorem updateReserves_record (reg : Registry) (chain : Chain) (now : Nat)
    (s : Store) (a : String) (r0 r1 : Nat) (rec : PoolRecord) (hrec : s.record a = some rec) :
    (updateReserves reg chain now s a r0 r1).record a =
      some { rec with
        token0_balance := formatUnits r0
          (reserveDecimals chain s.tokenMeta rec.token0_address rec.token1_address).1
        token1_balance := formatUnits r1
          (reserveDecimals chain s.tokenMeta rec.token0_address rec.token1_address).2
        liquidity_value := some (firstSideValue reg rec.token0_address rec.token1_address
          (formatUnits r0
            (reserveDecimals chain s.tokenMeta rec.token0_address rec.token1_address).1)
          (formatUnits r1
            (reserveDecimals chain s.tokenMeta rec.token0_address rec.token1_address).2))
        last_updated := now } := by
  rw [updateReserves_eq reg chain now s a r0 r1 rec hrec]
  refine record_updateByAddress s.rows s.tokenMeta _ a _ ?_ rec hrec _ ?_
  · intro r; rfl
  · rfl

/-- C8, at the failing input: for a pool with token0 = ETH and token1 = USDT
(18 decimals each, rates 3500 and 1) and reserves of 2 ETH and 5000 USDT,
`analyzePair` names USDT as `mainToken`, whose side is worth 5000 × 1, while
`updateReserves` stores 2 × 3500 = 7000, the value of the ETH side: lines
217-223 test token0 first, where lines 304-309, 361-365 and 417-421 take the
side of `mainToken`. -/
theorem updateReserves_values_token0_side :
    (analyzePair (MAIN_TOKENS 700 3500 118000)
        "0x2170Ed0880ac9A755fd29B2688956BD959F933F8"
        "0x55d398326f99059fF775485246999027B3197955").mainToken
      = some "0x55d398326f99059fF775485246999027B3197955" ∧
    referenceSideValue (MAIN_TOKENS 700 3500 118000)
        "0x2170Ed0880ac9A755fd29B2688956BD959F933F8"
        "0x55d398326f99059fF775485246999027B3197955"
        (formatUnits 2000000000000000000 18) (formatUnits 5000000000000000000000 18) = 5000 ∧
    ((updateReserves (MAIN_TOKENS 700 3500 118000)
        { failingChain with decimals := fun _ => some 18 } 0
        { rows := [{ scenarioRecord "0x531febfeb9a61d948c384acfbe6dcc51057aea7e"
                      "0x2170Ed0880ac9A755fd29B2688956BD959F933F8"
                      "0x55d398326f99059fF775485246999027B3197955" with
                     parent_token_address := "0x2170Ed0880ac9A755fd29B2688956BD959F933F8"
                     token_symbol := "ETH", main_token := some "USDT" }],
          tokenMeta := [] }
        "0x531febfeb9a61d948c384acfbe6dcc51057aea7e"
        2000000000000000000 5000000000000000000000).record
          "0x531febfeb9a61d948c384acfbe6dcc51057aea7e").map (fun r => r.liquidity_value)
      = some (some 7000) := by
  refine ⟨by decide, by decide!, by decide!⟩

theorem firstSideValue_eq_referenceSideValue (reg : Registry) (token0 token1 : String)
    (b0 b1 : ℚ)
    (h : ¬ ((reg.get (toLowerCase token0)).isSome = true ∧
            (reg.get (toLowerCase token1)).isSome = true ∧
            toLowerCase token0 ≠ USDT_ANCHOR)) :
    firstSideValue reg token0 token1 b0 b1 = referenceSideValue reg token0 token1 b0 b1 := by
  unfold firstSideValue referenceSideValue
  cases h0 : reg.get (toLowerCase token0) with
  | none =>
    cases h1 : reg.get (toLowerCase token1) with
    | none => simp [analyzePair_none_none reg token0 token1 h0 h1]
    | some m1 =>
      have hne : toLowerCase token1 ≠ toLowerCase token0 := by
        intro e
        rw [e, h0] at h1
        exact Option.noConfusion h1
      simp [analyzePair_none_some reg token0 token1 m1 h0 h1, h1, hne]
  | some m0 =>
    cases h1 : reg.get (toLowerCase token1) with
    | none => simp [analyzePair_some_none reg token0 token1 m0 h0 h1, h0]
    | some m1 =>
      have ha : toLowerCase token0 = USDT_ANCHOR := by
        by_contra hna
        exact h ⟨by simp [h0], by simp [h1], hna⟩
      rw [analyzePair_some_some reg token0 token1 m0 m1 h0 h1, if_pos ha]
      simp [h0]

/-- What `updateReserves` stores for an existing pool record: the two
human-scaled reserves and, as `liquidity_value`, the token0 reserve times the
rate of token0 when token0 is a registry key, otherwise the token1 reserve
times the rate of token1 when token1 is a key, otherwise 0. This is the side
of `analyzePair(token0, token1).mainToken` unless both tokens are keys and
token0 is not the anchor, and it is 0 when neither token is a key. In the
scenario (registry T_ref at rate 2, token0 = T_ref, decimals 0, reserves
(100, 50)) the stored value is 200. -/
theorem updateReserves_liquidity_value (reg : Registry) (chain : Chain) (now : Nat)
    (s : Store) (a : String) (r0 r1 : Nat) (rec : PoolRecord) (hrec : s.record a = some rec) :
    (updateReserves reg chain now s a r0 r1).record a =
      some { rec with
        token0_balance := formatUnits r0
          (reserveDecimals chain s.tokenMeta rec.token0_address rec.token1_address).1
        token1_balance := formatUnits r1
          (reserveDecimals chain s.tokenMeta rec.token0_address rec.token1_address).2
        liquidity_value := some (firstSideValue reg rec.token0_address rec.token1_address
          (formatUnits r0
            (reserveDecimals chain s.tokenMeta rec.token0_address rec.token1_address).1)
          (formatUnits r1
            (reserveDecimals chain s.tokenMeta rec.token0_address rec.token1_address).2))
        last_updated := now } ∧
    (∀ b0 b1 : ℚ,
      ¬ ((reg.get (toLowerCase rec.token0_address)).isSome = true ∧
          (reg.get (toLowerCase rec.token1_address)).isSome = true ∧
          toLowerCase rec.token0_address ≠ USDT_ANCHOR) →
      firstSideValue reg rec.token0_address rec.token1_address b0 b1 =
        referenceSideValue reg rec.token0_address rec.token1_address b0 b1) ∧
    (∀ b0 b1 : ℚ, reg.get (toLowerCase rec.token0_address) = none →
      reg.get (toLowerCase rec.token1_address) = none →
      firstSideValue reg rec.token0_address rec.token1_address b0 b1 = 0) ∧
    (∀ (b0 b1 : ℚ) (i0 : MainTokenInfo), reg.get (toLowerCase rec.token0_address) = some i0 →
      firstSideValue reg rec.token0_address rec.token1_address b0 b1 = b0 * i0.rate) ∧
    (∀ (b0 b1 : ℚ) (i1 : MainTokenInfo), reg.get (toLowerCase rec.token0_address) = none →
      reg.get (toLowerCase rec.token1_address) = some i1 →
      firstSideValue reg rec.token0_address rec.token1_address b0 b1 = b1 * i1.rate) ∧
    ((updateReserves scenarioRegistry scenarioChain 0
        { rows := [scenarioRecord "0x00000000000000000000000000000000000000f0"
                    "0x00000000000000000000000000000000000000AA"
                    "0x00000000000000000000000000000000000000bb"],
          tokenMeta := [] }
        "0x00000000000000000000000000000000000000f0" 100 50).record
          "0x00000000000000000000000000000000000000f0").map (fun r => r.liquidity_value)
      = some (some 200) := by
  refine ⟨?_, ?_, ?_, ?_, ?_, by decide!⟩
  · exact updateReserves_record reg chain now s a r0 r1 rec hrec
  · intro b0 b1 h
    exact firstSideValue_eq_referenceSideValue reg _ _ b0 b1 h
  · intro b0 b1 h0 h1
    simp [firstSideValue, h0, h1]
  · intro b0 b1 i0 h0
    simp [firstSideValue, h0]
  · intro b0 b1 i1 h0 h1
    simp [firstSideValue, h0, h1]

/-- The scenario pool, T_ref first at rate 2, no decimals, reserves
(100, 50): the record holds balances 100 and 50 and value 200. -/
theorem updateReserves_liquidity_value_witness :
    (updateReserves scenarioRegistry scenarioChain 7
        { rows := [scenarioRecord "0x00000000000000000000000000000000000000f0"
                    "0x00000000000000000000000000000000000000AA"
                    "0x00000000000000000000000000000000000000bb"],
          tokenMeta := [] }
        "0x00000000000000000000000000000000000000f0" 100 50).record
          "0x00000000000000000000000000000000000000f0" =
      some { scenarioRecord "0x00000000000000000000000000000000000000f0"
                "0x00000000000000000000000000000000000000AA"
                "0x00000000000000000000000000000000000000bb" with
        token0_balance := 100, token1_balance := 50,
        liquidity_value := some 200, last_updated := 7 } := by
  have h := (updateReserves_liquidity_value scenarioRegistry scenarioChain 7
    { rows := [scenarioRecord "0x00000000000000000000000000000000000000f0"
                "0x00000000000000000000000000000000000000AA"
                "0x00000000000000000000000000000000000000bb"],
      tokenMeta := [] }
    "0x00000000000000000000000000000000000000f0" 100 50
    (scenarioRecord "0x00000000000000000000000000000000000000f0"
      "0x00000000000000000000000000000000000000AA"
      "0x00000000000000000000000000000000000000bb") (by decide)).1
  rw [h]
  decide!

theorem getTokenMeta_pair_stable (chain : Chain) (c : MetaCache) (t0 t1 : String) :
    getTokenMeta chain (getTokenMeta chain (getTokenMeta chain c t0).2 t1).2 t0
      = ((getTokenMeta chain c t0).1, (getTokenMeta chain (getTokenMeta chain c t0).2 t1).2) ∧
    getTokenMeta chain (getTokenMeta chain (getTokenMeta chain c t0).2 t1).2 t1
      = ((getTokenMeta chain (getTokenMeta chain c t0).2 t1).1,
          (getTokenMeta chain (getTokenMeta chain c t0).2 t1).2) := by
  constructor
  · exact getTokenMeta_of_lookup chain _ t0 _
      (getTokenMeta_preserves chain _ t1 _ _ (getTokenMeta_lookup chain c t0))
  · exact getTokenMeta_of_lookup chain _ t1 _ (getTokenMeta_lookup chain _ t1)

theorem reserveDecimals_stable (chain : Chain) (c : MetaCache) (t0 t1 : String) :
    reserveDecimals chain (getTokenMeta chain (getTokenMeta chain c t0).2 t1).2 t0 t1
      = reserveDecimals chain c t0 t1 ∧
    (getTokenMeta chain (getTokenMeta chain
        (getTokenMeta chain (getTokenMeta chain c t0).2 t1).2 t0).2 t1).2
      = (getTokenMeta chain (getTokenMeta chain c t0).2 t1).2 := by
  obtain ⟨h0, h1⟩ := getTokenMeta_pair_stable chain c t0 t1
  constructor
  · unfold reserveDecimals
    rw [h0]
    simp only [h1]
  · rw [h0]
    simp only [h1]

/-- C9: `updateReserves(a, r0, r1)` followed by `updateReserves(a, q0, q1)`
leaves the store (table and metadata cache) exactly as `updateReserves(a, q0,
q1)` alone leaves it; when a record of `a` exists, it then holds the balances
and the valuation computed from `(q0, q1)`, and nothing computed from
`(r0, r1)`. -/
theorem updateReserves_overwrites (reg : Registry) (chain : Chain) (now1 now2 : Nat)
    (s : Store) (a : String) (r0 r1 q0 q1 : Nat) :
    updateReserves reg chain now2 (updateReserves reg chain now1 s a r0 r1) a q0 q1
      = updateReserves reg chain now2 s a q0 q1 ∧
    ∀ rec, s.record a = some rec →
      (updateReserves reg chain now2 (updateReserves reg chain now1 s a r0 r1) a q0 q1).record a =
        some { rec with
          token0_balance := formatUnits q0
            (reserveDecimals chain s.tokenMeta rec.token0_address rec.token1_address).1
          token1_balance := formatUnits q1
            (reserveDecimals chain s.tokenMeta rec.token0_address rec.token1_address).2
          liquidity_value := some (firstSideValue reg rec.token0_address rec.token1_address
            (formatUnits q0
              (reserveDecimals chain s.tokenMeta rec.token0_address rec.token1_address).1)
            (formatUnits q1
              (reserveDecimals chain s.tokenMeta rec.token0_address rec.token1_address).2))
          last_updated := now2 } := by
  have key : updateReserves reg chain now2 (updateReserves reg chain now1 s a r0 r1) a q0 q1
      = updateReserves reg chain now2 s a q0 q1 := by
    cases hrec : s.record a with
    | none =>
      rw [updateReserves_none reg chain now1 s a r0 r1 hrec]
    | some rec =>
      have h1 := updateReserves_record reg chain now1 s a r0 r1 rec hrec
      rw [updateReserves_eq reg chain now2 _ a q0 q1 _ h1]
      rw [updateReserves_eq reg chain now1 s a r0 r1 rec hrec]
      rw [updateReserves_eq reg chain now2 s a q0 q1 rec hrec]
      obtain ⟨hd, hc⟩ := reserveDecimals_stable chain s.tokenMeta
        rec.token0_address rec.token1_address
      simp only [hd, hc]
      rw [updateByAddress_updateByAddress]
      · rfl
      · intro r; rfl
  refine ⟨key, ?_⟩
  intro rec hrec
  rw [key]
  exact updateReserves_record reg chain now2 s a q0 q1 rec hrec

/-- Witness for C9: on the scenario pool, reserves (100, 50) and then (7, 9)
leave balances 7 and 9 and value 14; nothing of 100, 50 or 200 remains. -/
theorem updateReserves_overwrites_witness :
    (updateReserves scenarioRegistry scenarioChain 2
        (updateReserves scenarioRegistry scenarioChain 1
          { rows := [scenarioRecord "0x00000000000000000000000000000000000000f0"
                      "0x00000000000000000000000000000000000000AA"
                      "0x00000000000000000000000000000000000000bb"],
            tokenMeta := [] }
          "0x00000000000000000000000000000000000000f0" 100 50)
        "0x00000000000000000000000000000000000000f0" 7 9).record
          "0x00000000000000000000000000000000000000f0" =
      some { scenarioRecord "0x00000000000000000000000000000000000000f0"
                "0x00000000000000000000000000000000000000AA"
                "0x00000000000000000000000000000000000000bb" with
        token0_balance := 7, token1_balance := 9,
        liquidity_value := some 14, last_updated := 2 } :=
  ((updateReserves_overwrites scenarioRegistry scenarioChain 1 2
      { rows := [scenarioRecord "0x00000000000000000000000000000000000000f0"
                  "0x00000000000000000000000000000000000000AA"
                  "0x00000000000000000000000000000000000000bb"],
        tokenMeta := [] }
      "0x00000000000000000000000000000000000000f0" 100 50 7 9).2
    (scenarioRecord "0x00000000000000000000000000000000000000f0"
      "0x00000000000000000000000000000000000000AA"
      "0x00000000000000000000000000000000000000bb") (by decide)).trans (by decide!)

theorem analyzePair_mainToken_some (reg : Registry) (token0 token1 m : String)
    (hm : (analyzePair reg token0 token1).mainToken = some m) :
    (analyzePair reg token0 token1).hasMainToken = true ∧ (m = token0 ∨ m = token1) ∧
      ∃ info, reg.get (toLowerCase m) = some info := by
  cases h0 : reg.get (toLowerCase token0) with
  | none =>
    cases h1 : reg.get (toLowerCase token1) with
    | none =>
      rw [analyzePair_none_none reg token0 token1 h0 h1] at hm
      exact Option.noConfusion hm
    | some m1 =>
      rw [analyzePair_none_some reg token0 token1 m1 h0 h1] at hm ⊢
      simp only [Option.some.injEq] at hm
      subst hm
      exact ⟨rfl, Or.inr rfl, m1, h1⟩
  | some m0 =>
    cases h1 : reg.get (toLowerCase token1) with
    | none =>
      rw [analyzePair_some_none reg token0 token1 m0 h0 h1] at hm ⊢
      simp only [Option.some.injEq] at hm
      subst hm
      exact ⟨rfl, Or.inl rfl, m0, h0⟩
    | some m1 =>
      rw [analyzePair_some_some reg token0 token1 m0 m1 h0 h1] at hm ⊢
      by_cases ha : toLowerCase token0 = USDT_ANCHOR
      · rw [if_pos ha] at hm ⊢
        simp only [Option.some.injEq] at hm
        subst hm
        exact ⟨rfl, Or.inl rfl, m0, h0⟩
      · rw [if_neg ha] at hm ⊢
        simp only [Option.some.injEq] at hm
        subst hm
        exact ⟨rfl, Or.inr rfl, m1, h1⟩

theorem updateVolume_eq (reg : Registry) (chain : Chain) (s : Store) (a : String)
    (data : List Nat) (amounts : Nat × Nat × Nat × Nat) (rec : PoolRecord) (m : String)
    (info : MainTokenInfo)
    (hrec : s.record a = some rec)
    (hm : (analyzePair reg rec.token0_address rec.token1_address).mainToken = some m)
    (hinfo : reg.get (toLowerCase m) = some info)
    (hdec : decodeV2Swap data = .ok amounts) :
    updateVolume reg chain s a data =
      .ok { rows := updateByAddress s.rows a (fun r =>
              { r with
                total_transaction_volume := some (r.total_transaction_volume.getD 0 +
                  formatUnits (referenceSideAmount m rec.token0_address amounts)
                    (getTokenMeta chain s.tokenMeta m).1.decimals * info.rate)
                trade_count_24h := r.trade_count_24h + 1
                trade_count_12h := r.trade_count_12h + 1 })
            tokenMeta := (getTokenMeta chain s.tokenMeta m).2 } := by
  obtain ⟨tl, htl⟩ := record_eq_some hrec
  obtain ⟨hhas, hcases, -⟩ := analyzePair_mainToken_some reg _ _ m hm
  obtain ⟨a0In, a1In, a0Out, a1Out⟩ := amounts
  have hside : (if toLowerCase m = toLowerCase rec.token0_address then
        (a0In : Int) + (a0Out : Int)
      else if toLowerCase m = toLowerCase rec.token1_address then
        (a1In : Int) + (a1Out : Int)
      else 0) = referenceSideAmount m rec.token0_address (a0In, a1In, a0Out, a1Out) := by
    unfold referenceSideAmount
    by_cases h0 : toLowerCase m = toLowerCase rec.token0_address
    · simp [h0]
    · have h1 : m = rec.token1_address := by
        rcases hcases with h | h
        · exact absurd (by rw [h]) h0
        · exact h
      simp [h0, h1]
  simp only [updateVolume, hdec, htl, hhas, hm, getUSDTValue, hinfo, hside]
  rfl

theorem updateVolume_record (reg : Registry) (chain : Chain) (s : Store) (a : String)
    (data : List Nat) (amounts : Nat × Nat × Nat × Nat) (rec : PoolRecord) (m : String)
    (info : MainTokenInfo)
    (hrec : s.record a = some rec)
    (hm : (analyzePair reg rec.token0_address rec.token1_address).mainToken = some m)
    (hinfo : reg.get (toLowerCase m) = some info)
    (hdec : decodeV2Swap data = .ok amounts) :
    ∃ s1, updateVolume reg chain s a data = .ok s1 ∧
      s1.tokenMeta = (getTokenMeta chain s.tokenMeta m).2 ∧
      s1.record a = some { rec with
        total_transaction_volume := some (rec.total_transaction_volume.getD 0 +
          formatUnits (referenceSideAmount m rec.token0_address amounts)
            (getTokenMeta chain s.tokenMeta m).1.decimals * info.rate)
        trade_count_24h := rec.trade_count_24h + 1
        trade_count_12h := rec.trade_count_12h + 1 } := by
  refine ⟨_, updateVolume_eq reg chain s a data amounts rec m info hrec hm hinfo hdec, rfl, ?_⟩
  refine record_updateByAddress s.rows s.tokenMeta _ a _ ?_ rec hrec _ ?_
  · intro r; rfl
  · rfl

theorem updateVolumes_accumulate (reg : Registry) (chain : Chain) (a : String)
    (t0 t1 m : String) (info : MainTokenInfo) (d : Nat) (v : ℚ)
    (hm : (analyzePair reg t0 t1).mainToken = some m)
    (hinfo : reg.get (toLowerCase m) = some info) :
    ∀ (ds : List (List Nat)) (s : Store) (rec : PoolRecord),
      s.record a = some rec → rec.token0_address = t0 → rec.token1_address = t1 →
      (getTokenMeta chain s.tokenMeta m).1.decimals = d →
      (∀ data ∈ ds, ∃ amounts, decodeV2Swap data = .ok amounts ∧
        formatUnits (referenceSideAmount m t0 amounts) d * info.rate = v) →
      ∃ sN recN, updateVolumes reg chain s a ds = .ok sN ∧ sN.record a = some recN ∧
        recN.total_transaction_volume.getD 0
          = rec.total_transaction_volume.getD 0 + (ds.length : ℚ) * v ∧
        recN.trade_count_24h = rec.trade_count_24h + (ds.length : Int) ∧
        recN.trade_count_12h = rec.trade_count_12h + (ds.length : Int) := by
  intro ds
  induction ds with
  | nil =>
    intro s rec hrec _ _ _ _
    exact ⟨s, rec, rfl, hrec, by simp, by simp, by simp⟩
  | cons data rest ih =>
    intro s rec hrec h0 h1 hd hall
    obtain ⟨amounts, hdec, hv⟩ := hall data (List.mem_cons_self _ _)
    subst h0 h1
    obtain ⟨s1, hs1, hcache, hrec1⟩ :=
      updateVolume_record reg chain s a data amounts rec m info hrec hm hinfo hdec
    have hd1 : (getTokenMeta chain s1.tokenMeta m).1.decimals = d := by
      rw [hcache, getTokenMeta_again, hd]
    obtain ⟨sN, recN, hrun, hrecN, hvol, h24, h12⟩ :=
      ih s1 _ hrec1 rfl rfl hd1 (fun x hx => hall x (List.mem_cons_of_mem _ hx))
    refine ⟨sN, recN, ?_, hrecN, ?_, ?_, ?_⟩
    · simp only [updateVolumes, hs1, hrun]
    · rw [hvol]
      simp only [Option.getD_some, List.length_cons, Nat.cast_add, Nat.cast_one]
      rw [hd, hv]
      ring
    · rw [h24]
      simp only [List.length_cons, Nat.cast_add, Nat.cast_one]
      ring
    · rw [h12]
      simp only [List.length_cons, Nat.cast_add, Nat.cast_one]
      ring

/-- C10: for an existing pool whose reference token `m` (`analyzePair`'s
`mainToken`) has cached decimals `d` and rate `p`, one `updateVolume` call
with decoded amounts succeeds and leaves the record with
`total_transaction_volume` (null read as 0) increased by the reference-side
sum `(amount_i_In + amount_i_Out) / 10^d * p` and both trade counters
increased by 1; and N calls in a row, each contributing `v`, succeed and
increase the volume by N * v and both counters by N. -/
theorem updateVolume_accumulates (reg : Registry) (chain : Chain) (s : Store) (a : String)
    (rec : PoolRecord) (m : String) (info : MainTokenInfo)
    (hrec : s.record a = some rec)
    (hm : (analyzePair reg rec.token0_address rec.token1_address).mainToken = some m)
    (hinfo : reg.get (toLowerCase m) = some info) :
    (∀ (data : List Nat) (amounts : Nat × Nat × Nat × Nat), decodeV2Swap data = .ok amounts →
      ∃ s1, updateVolume reg chain s a data = .ok s1 ∧
        s1.record a = some { rec with
          total_transaction_volume := some (rec.total_transaction_volume.getD 0 +
            formatUnits (referenceSideAmount m rec.token0_address amounts)
              (getTokenMeta chain s.tokenMeta m).1.decimals * info.rate)
          trade_count_24h := rec.trade_count_24h + 1
          trade_count_12h := rec.trade_count_12h + 1 }) ∧
    (∀ (ds : List (List Nat)) (v : ℚ),
      (∀ data ∈ ds, ∃ amounts, decodeV2Swap data = .ok amounts ∧
        formatUnits (referenceSideAmount m rec.token0_address amounts)
          (getTokenMeta chain s.tokenMeta m).1.decimals * info.rate = v) →
      ∃ sN recN, updateVolumes reg chain s a ds = .ok sN ∧ sN.record a = some recN ∧
        recN.total_transaction_volume.getD 0
          = rec.total_transaction_volume.getD 0 + (ds.length : ℚ) * v ∧
        recN.trade_count_24h = rec.trade_count_24h + (ds.length : Int) ∧
        recN.trade_count_12h = rec.trade_count_12h + (ds.length : Int)) := by
  constructor
  · intro data amounts hdec
    obtain ⟨s1, hs1, -, hr⟩ :=
      updateVolume_record reg chain s a data amounts rec m info hrec hm hinfo hdec
    exact ⟨s1, hs1, hr⟩
  · intro ds v hall
    exact updateVolumes_accumulate reg chain a rec.token0_address rec.token1_address m info
      _ v hm hinfo ds s rec hrec rfl rfl rfl hall

/-- Witness for C10: on the scenario pool (T_ref on side 0, decimals 0, rate
2) a swap with amount0In = 10 and amount0Out = 20 has reference-side magnitude
30 and adds 60 to the volume and 1 to each counter. -/
theorem updateVolume_accumulates_witness :
    ∃ s1, updateVolume scenarioRegistry scenarioChain
        { rows := [scenarioRecord "0x00000000000000000000000000000000000000f0"
                    "0x00000000000000000000000000000000000000AA"
                    "0x00000000000000000000000000000000000000bb"],
          tokenMeta := [] }
        "0x00000000000000000000000000000000000000f0" (swapPayload 10 0 20 0) = .ok s1 ∧
      s1.record "0x00000000000000000000000000000000000000f0" =
        some { scenarioRecord "0x00000000000000000000000000000000000000f0"
                  "0x00000000000000000000000000000000000000AA"
                  "0x00000000000000000000000000000000000000bb" with
          total_transaction_volume := some 60, trade_count_24h := 1, trade_count_12h := 1 } := by
  obtain ⟨s1, h1, h2⟩ := (updateVolume_accumulates scenarioRegistry scenarioChain
    { rows := [scenarioRecord "0x00000000000000000000000000000000000000f0"
                "0x00000000000000000000000000000000000000AA"
                "0x00000000000000000000000000000000000000bb"],
      tokenMeta := [] }
    "0x00000000000000000000000000000000000000f0"
    (scenarioRecord "0x00000000000000000000000000000000000000f0"
      "0x00000000000000000000000000000000000000AA"
      "0x00000000000000000000000000000000000000bb")
    "0x00000000000000000000000000000000000000AA" ⟨"T_ref", 2⟩
    (by decide) (by decide) (by decide)).1 (swapPayload 10 0 20 0) (10, 0, 20, 0) rfl
  exact ⟨s1, h1, h2.trans (by decide!)⟩

/-! ## Properties of metadata resolution -/

/-- C15: on a cache miss `getTokenMeta` returns (it is a total function) a
result whose symbol is the one `symbol()` returned, or "UNK" when it threw;
whose decimals is the one `decimals()` returned, or 18 when it threw; and
whose supply is the one `totalSupply()` returned scaled by those decimals, or
0 when it threw. Each field depends only on its own call (and the supply on
the decimals used). -/
theorem getTokenMeta_miss (chain : Chain) (cache : MetaCache) (address : String)
    (hmiss : List.lookup ("token_meta:" ++ toLowerCase address) cache = none) :
    (∀ sym, chain.symbol address = some sym →
      (getTokenMeta chain cache address).1.symbol = sym) ∧
    (chain.symbol address = none → (getTokenMeta chain cache address).1.symbol = "UNK") ∧
    (∀ d, chain.decimals address = some d →
      (getTokenMeta chain cache address).1.decimals = d) ∧
    (chain.decimals address = none → (getTokenMeta chain cache address).1.decimals = 18) ∧
    (∀ supply, chain.totalSupply address = some supply →
      (getTokenMeta chain cache address).1.totalSupplyReadable =
        formatUnits supply (getTokenMeta chain cache address).1.decimals) ∧
    (chain.totalSupply address = none →
      (getTokenMeta chain cache address).1.totalSupplyReadable = 0) := by
  refine ⟨?_, ?_, ?_, ?_, ?_, ?_⟩
  · intro sym h; simp [getTokenMeta, hmiss, h]
  · intro h; simp [getTokenMeta, hmiss, h]
  · intro d h; simp [getTokenMeta, hmiss, h]
  · intro h; simp [getTokenMeta, hmiss, h]
  · intro supply h; simp [getTokenMeta, hmiss, h]
  · intro h; simp [getTokenMeta, hmiss, h]

/-- Witness for C15: `decimals()` and `totalSupply()` throw and `symbol()`
answers "CAKE": the result is ("CAKE", 18, 0). -/
theorem getTokenMeta_miss_witness :
    (getTokenMeta { failingChain with symbol := fun _ => some "CAKE" } []
        "0x0E09FaBB73Bd3Ade0a17ECC321fD13a19e81cE82").1.symbol = "CAKE" ∧
    (getTokenMeta { failingChain with symbol := fun _ => some "CAKE" } []
        "0x0E09FaBB73Bd3Ade0a17ECC321fD13a19e81cE82").1.decimals = 18 ∧
    (getTokenMeta { failingChain with symbol := fun _ => some "CAKE" } []
        "0x0E09FaBB73Bd3Ade0a17ECC321fD13a19e81cE82").1.totalSupplyReadable = 0 :=
  have h := getTokenMeta_miss { failingChain with symbol := fun _ => some "CAKE" } []
    "0x0E09FaBB73Bd3Ade0a17ECC321fD13a19e81cE82" rfl
  ⟨h.1 "CAKE" rfl, h.2.2.2.1 rfl, h.2.2.2.2.2 rfl⟩

theorem metaKey_injective (x y : String) (h : "token_meta:" ++ x = "token_meta:" ++ y) :
    x = y := by
  have h1 := congrArg String.data h
  simp only [String.data_append] at h1
  exact String.ext (List.append_cancel_left h1)

theorem resolveTokenMeta_eq (chain : Chain) (cache : MetaCache) (a : String)
    (hmiss : List.lookup ("token_meta:" ++ toLowerCase a) cache = none) :
    getTokenMeta chain cache a
      = (resolveTokenMeta chain a,
          ("token_meta:" ++ toLowerCase a, resolveTokenMeta chain a) :: cache) := by
  simp [getTokenMeta, hmiss, resolveTokenMeta]

/-- A call that no other step interrupts is the function `getTokenMeta`: the
`get` step followed by the `set` step of the same call leaves the cache and
the result that `getTokenMeta` gives. -/
theorem metaStep_get_set (s : MetaRun) (c : Nat) (a : String) (chain : Chain)
    (hidle : s.calls c = .idle) :
    (metaStep (metaStep s (.get c a)) (.set c chain)).cache = (getTokenMeta chain s.cache a).2 ∧
    (metaStep (metaStep s (.get c a)) (.set c chain)).calls c
      = .returned (getTokenMeta chain s.cache a).1 := by
  cases h : List.lookup ("token_meta:" ++ toLowerCase a) s.cache with
  | none =>
    rw [resolveTokenMeta_eq chain s.cache a h]
    simp [metaStep, hidle, h]
  | some v =>
    rw [getTokenMeta_of_lookup chain s.cache a v h]
    simp [metaStep, hidle, h]

/-- An entry stays as it is across a step when no call that found the key
empty is still on its way to the `SET`; no such call arises, and no read is
issued for the token. -/
theorem metaStep_stable (s : MetaRun) (e : MetaEvent) (k : String) (r : TokenMeta)
    (hentry : List.lookup k s.cache = some r)
    (hsolo : ∀ c a1, s.calls c = .pending a1 → "token_meta:" ++ toLowerCase a1 ≠ k) :
    List.lookup k (metaStep s e).cache = some r ∧
    (∀ c a1, (metaStep s e).calls c = .pending a1 → "token_meta:" ++ toLowerCase a1 ≠ k) ∧
    ∃ more, (metaStep s e).issued = more ++ s.issued ∧
      ∀ q ∈ more, "token_meta:" ++ toLowerCase q.address ≠ k := by
  cases e with
  | get c address =>
    simp only [metaStep]
    cases hc : s.calls c with
    | idle =>
      cases hl : List.lookup ("token_meta:" ++ toLowerCase address) s.cache with
      | some cached =>
        refine ⟨hentry, ?_, [], rfl, by simp⟩
        intro c1 a1 h1
        by_cases hcc : c1 = c
        · subst hcc; simp at h1
        · simp only [Function.update_noteq hcc] at h1
          exact hsolo c1 a1 h1
      | none =>
        refine ⟨hentry, ?_, [], rfl, by simp⟩
        intro c1 a1 h1
        by_cases hcc : c1 = c
        · subst hcc
          simp only [Function.update_same, MetaCall.pending.injEq] at h1
          subst h1
          intro hk
          rw [hk, hentry] at hl
          exact Option.noConfusion hl
        · simp only [Function.update_noteq hcc] at h1
          exact hsolo c1 a1 h1
    | pending a0 => exact ⟨hentry, hsolo, [], rfl, by simp⟩
    | returned r0 => exact ⟨hentry, hsolo, [], rfl, by simp⟩
  | set c chain =>
    simp only [metaStep]
    cases hc : s.calls c with
    | idle => exact ⟨hentry, hsolo, [], rfl, by simp⟩
    | returned r0 => exact ⟨hentry, hsolo, [], rfl, by simp⟩
    | pending address =>
      have hne : "token_meta:" ++ toLowerCase address ≠ k := hsolo c address hc
      have hb : (k == "token_meta:" ++ toLowerCase address) = false := by
        simp [Ne.symm hne]
      refine ⟨?_, ?_, [.totalSupply address, .symbol address, .decimals address], rfl, ?_⟩
      · simp [List.lookup, hb, hentry]
      · intro c1 a1 h1
        by_cases hcc : c1 = c
        · subst hcc; simp at h1
        · simp only [Function.update_noteq hcc] at h1
          exact hsolo c1 a1 h1
      · intro q hq
        simp only [List.mem_cons, List.mem_singleton, List.not_mem_nil, or_false] at hq
        rcases hq with rfl | rfl | rfl <;> exact hne

theorem metaRun_stable (es : List MetaEvent) (s : MetaRun) (k : String) (r : TokenMeta)
    (hentry : List.lookup k s.cache = some r)
    (hsolo : ∀ c a1, s.calls c = .pending a1 → "token_meta:" ++ toLowerCase a1 ≠ k) :
    List.lookup k (metaRun s es).cache = some r ∧
    (∀ c a1, (metaRun s es).calls c = .pending a1 → "token_meta:" ++ toLowerCase a1 ≠ k) ∧
    ∃ more, (metaRun s es).issued = more ++ s.issued ∧
      ∀ q ∈ more, "token_meta:" ++ toLowerCase q.address ≠ k := by
  induction es generalizing s with
  | nil => exact ⟨hentry, hsolo, [], rfl, by simp⟩
  | cons e rest ih =>
    obtain ⟨h1, h2, m1, hm1, hq1⟩ := metaStep_stable s e k r hentry hsolo
    obtain ⟨h3, h4, m2, hm2, hq2⟩ := ih (metaStep s e) h1 h2
    refine ⟨h3, h4, m2 ++ m1, ?_, ?_⟩
    · show (metaRun (metaStep s e) rest).issued = m2 ++ m1 ++ s.issued
      rw [hm2, hm1, List.append_assoc]
    · intro q hq
      rcases List.mem_append.1 hq with h | h
      · exact hq2 q h
      · exact hq1 q h

/-- The `get` step of a call not yet begun, on a key that holds an entry:
the call returns the entry, and neither the cache nor the reads change. -/
theorem metaStep_get_hit (s : MetaRun) (c : Nat) (a : String) (r : TokenMeta)
    (hidle : s.calls c = .idle)
    (hentry : List.lookup ("token_meta:" ++ toLowerCase a) s.cache = some r) :
    (metaStep s (.get c a)).calls c = .returned r ∧
    (metaStep s (.get c a)).cache = s.cache ∧
    (metaStep s (.get c a)).issued = s.issued := by
  simp [metaStep, hidle, hentry]

/-- The `set` step of a call that found no entry: the call returns the result
built from the answers and the key holds that result. -/
theorem metaStep_set_pending (s : MetaRun) (c : Nat) (a : String) (chain : Chain)
    (hpend : s.calls c = .pending a) :
    (metaStep s (.set c chain)).calls c = .returned (resolveTokenMeta chain a) ∧
    List.lookup ("token_meta:" ++ toLowerCase a) (metaStep s (.set c chain)).cache
      = some (resolveTokenMeta chain a) := by
  simp [metaStep, hpend, List.lookup]

theorem metaStep_set_solo (s : MetaRun) (c : Nat) (a : String) (chain : Chain)
    (hpend : s.calls c = .pending a)
    (hsolo : ∀ c1 a1, c1 ≠ c → s.calls c1 = .pending a1 → toLowerCase a1 ≠ toLowerCase a) :
    ∀ c1 a1, (metaStep s (.set c chain)).calls c1 = .pending a1 →
      "token_meta:" ++ toLowerCase a1 ≠ "token_meta:" ++ toLowerCase a := by
  intro c1 a1 h1 hk
  simp only [metaStep, hpend] at h1
  by_cases hcc : c1 = c
  · subst hcc; simp at h1
  · simp only [Function.update_noteq hcc] at h1
    exact hsolo c1 a1 hcc h1 (metaKey_injective _ _ hk)

/-- C17 as stated fails: two calls on one token both find the key empty; the
first has `decimals()` answered 9, writes its result and returns it; the
second has it answered 6 and writes over the entry. A third call, begun
after the first has returned, gets the second result, not the first. -/
theorem getTokenMeta_overlapping_calls_overwrite :
    (metaRun (MetaRun.init [])
        [.get 0 "0x0E09FaBB73Bd3Ade0a17ECC321fD13a19e81cE82",
         .get 1 "0x0e09fabb73bd3ade0a17ecc321fd13a19e81ce82",
         .set 0 { failingChain with decimals := fun _ => some 9 }]).calls 0
      = .returned { symbol := "UNK", decimals := 9, totalSupplyReadable := 0 } ∧
    (metaRun (MetaRun.init [])
        [.get 0 "0x0E09FaBB73Bd3Ade0a17ECC321fD13a19e81cE82",
         .get 1 "0x0e09fabb73bd3ade0a17ecc321fd13a19e81ce82",
         .set 0 { failingChain with decimals := fun _ => some 9 },
         .set 1 { failingChain with decimals := fun _ => some 6 },
         .get 2 "0x0E09FaBB73Bd3Ade0a17ECC321fD13a19e81cE82"]).calls 2
      = .returned { symbol := "UNK", decimals := 6, totalSupplyReadable := 0 } ∧
    List.lookup "token_meta:0x0e09fabb73bd3ade0a17ecc321fd13a19e81ce82"
      (metaRun (MetaRun.init [])
        [.get 0 "0x0E09FaBB73Bd3Ade0a17ECC321fD13a19e81cE82",
         .get 1 "0x0e09fabb73bd3ade0a17ecc321fd13a19e81ce82",
         .set 0 { failingChain with decimals := fun _ => some 9 },
         .set 1 { failingChain with decimals := fun _ => some 6 }]).cache
      = some { symbol := "UNK", decimals := 6, totalSupplyReadable := 0 } := by
  refine ⟨by decide!, by decide!, by decide!⟩

/-- C17, amended: a call of `getTokenMeta` that found the key empty writes
its result and returns it; and once the key of `a` holds an entry `r` while
no call that found that key empty is still on its way to the `SET`, then
after any further steps of any calls the key still holds `r`, and a
`getTokenMeta(a2)` begun then, for `a2` equal to `a` up to letter case,
returns `r` without consulting the contract, issues no read and leaves the
cache as it found it. -/
theorem getTokenMeta_write_once_without_overlap (s : MetaRun) (a : String) (r : TokenMeta)
    (hentry : List.lookup ("token_meta:" ++ toLowerCase a) s.cache = some r)
    (hsolo : ∀ c a1, s.calls c = .pending a1 → toLowerCase a1 ≠ toLowerCase a)
    (es : List MetaEvent) (c : Nat) (a2 : String)
    (hcase : toLowerCase a2 = toLowerCase a)
    (hidle : (metaRun s es).calls c = .idle) :
    (∀ (s0 : MetaRun) (c0 : Nat) (chain : Chain), s0.calls c0 = .pending a →
      (metaStep s0 (.set c0 chain)).calls c0 = .returned (resolveTokenMeta chain a) ∧
      List.lookup ("token_meta:" ++ toLowerCase a) (metaStep s0 (.set c0 chain)).cache
        = some (resolveTokenMeta chain a)) ∧
    List.lookup ("token_meta:" ++ toLowerCase a) (metaRun s es).cache = some r ∧
    (metaStep (metaRun s es) (.get c a2)).calls c = .returned r ∧
    (metaStep (metaRun s es) (.get c a2)).cache = (metaRun s es).cache ∧
    (metaStep (metaRun s es) (.get c a2)).issued = (metaRun s es).issued := by
  have hst := metaRun_stable es s _ r hentry
    (fun c1 a1 h1 hk => hsolo c1 a1 h1 (metaKey_injective _ _ hk))
  have hk : List.lookup ("token_meta:" ++ toLowerCase a2) (metaRun s es).cache = some r := by
    rw [hcase]; exact hst.1
  exact ⟨fun s0 c0 chain hp => metaStep_set_pending s0 c0 a chain hp, hst.1,
    metaStep_get_hit (metaRun s es) c a2 r hidle hk⟩

/-- Witness for C17: the entry written for the checksum form of an address by
a call that ran alone, when `decimals()` answered 9, is what a call on the
lower-case form gets after another token has been resolved in between. -/
theorem getTokenMeta_write_once_without_overlap_witness :
    (metaStep
        (metaRun
          (metaRun (MetaRun.init [])
            [.get 0 "0x0E09FaBB73Bd3Ade0a17ECC321fD13a19e81cE82",
             .set 0 { failingChain with decimals := fun _ => some 9 }])
          [.get 1 "0x2170Ed0880ac9A755fd29B2688956BD959F933F8", .set 1 failingChain])
        (.get 2 "0x0e09fabb73bd3ade0a17ecc321fd13a19e81ce82")).calls 2
      = .returned { symbol := "UNK", decimals := 9, totalSupplyReadable := 0 } :=
  (getTokenMeta_write_once_without_overlap
    (metaRun (MetaRun.init [])
      [.get 0 "0x0E09FaBB73Bd3Ade0a17ECC321fD13a19e81cE82",
       .set 0 { failingChain with decimals := fun _ => some 9 }])
    "0x0E09FaBB73Bd3Ade0a17ECC321fD13a19e81cE82"
    { symbol := "UNK", decimals := 9, totalSupplyReadable := 0 }
    (by decide!)
    (fun c1 a1 h1 => by
      by_cases hc : c1 = 0 <;>
        simp [metaRun, metaStep, MetaRun.init, hc, List.lookup, Function.update] at h1)
    [.get 1 "0x2170Ed0880ac9A755fd29B2688956BD959F933F8", .set 1 failingChain]
    2 "0x0e09fabb73bd3ade0a17ecc321fd13a19e81ce82" (by decide) (by decide!)).2.2.1

/-- C16 as stated fails: on an address without code (every read throws,
`getCode` answers "0x") and an empty cache, `getTokenMeta` issues the three
contract calls; `fetchTokenInfo` of `测试版.js` skips `decimals()` only. -/
theorem getTokenMeta_calls_without_code :
    NoCode { failingChain with getCode := fun _ => some "0x" }
      "0x000000000000000000000000000000000000dEaD" ∧
    getTokenMetaCalls [] "0x000000000000000000000000000000000000dEaD" =
      [.decimals "0x000000000000000000000000000000000000dEaD",
       .symbol "0x000000000000000000000000000000000000dEaD",
       .totalSupply "0x000000000000000000000000000000000000dEaD"] ∧
    (fetchTokenInfo { failingChain with getCode := fun _ => some "0x" }
        "0x000000000000000000000000000000000000dEaD").2 =
      [.getCode "0x000000000000000000000000000000000000dEaD",
       .symbol "0x000000000000000000000000000000000000dEaD",
       .totalSupply "0x000000000000000000000000000000000000dEaD"] :=
  ⟨⟨rfl, rfl, rfl, rfl⟩, by decide, by decide⟩

/-- C16, amended: for an address without deployed code, metadata resolution
returns the defaults ("UNK", 18, 0). On a cache miss `getTokenMeta` reaches
them by issuing `decimals()`, `symbol()` and `totalSupply()` and catching the
three failures; once cached, it returns them with no call. In `测试版.js`,
`safeDecimals` returns 18 after `getCode` alone, and `fetchTokenInfo` still
issues `symbol()` and `totalSupply()`. -/
theorem getTokenMeta_no_code (chain : Chain) (cache : MetaCache) (address : String)
    (hno : NoCode chain address)
    (hmiss : List.lookup ("token_meta:" ++ toLowerCase address) cache = none) :
    (getTokenMeta chain cache address).1 =
      { symbol := "UNK", decimals := 18, totalSupplyReadable := 0 } ∧
    getTokenMetaCalls cache address =
      [.decimals address, .symbol address, .totalSupply address] ∧
    (∀ chain2 : Chain,
      (getTokenMeta chain2 (getTokenMeta chain cache address).2 address).1 =
        { symbol := "UNK", decimals := 18, totalSupplyReadable := 0 }) ∧
    getTokenMetaCalls (getTokenMeta chain cache address).2 address = [] ∧
    safeDecimals chain address = (18, [.getCode address]) ∧
    fetchTokenInfo chain address =
      (("UNK", 0), [.getCode address, .symbol address, .totalSupply address]) := by
  obtain ⟨hcode, hdec, hsym, hsup⟩ := hno
  have hr : (getTokenMeta chain cache address).1 =
      { symbol := "UNK", decimals := 18, totalSupplyReadable := 0 } := by
    simp [getTokenMeta, hmiss, hdec, hsym, hsup]
  have hl := getTokenMeta_lookup chain cache address
  refine ⟨hr, by simp [getTokenMetaCalls, hmiss], ?_, by simp [getTokenMetaCalls, hl], ?_, ?_⟩
  · intro chain2
    rw [getTokenMeta_of_lookup chain2 _ address _ hl]
    exact hr
  · simp [safeDecimals, hcode]
  · simp [fetchTokenInfo, safeDecimals, hcode, hsym, hsup]

/-- Witness for C16: the burn address on a chain where it has no code. -/
theorem getTokenMeta_no_code_witness :
    (getTokenMeta { failingChain with getCode := fun _ => some "0x" } []
        "0x000000000000000000000000000000000000dEaD").1 =
      { symbol := "UNK", decimals := 18, totalSupplyReadable := 0 } :=
  (getTokenMeta_no_code { failingChain with getCode := fun _ => some "0x" } []
    "0x000000000000000000000000000000000000dEaD" ⟨rfl, rfl, rfl, rfl⟩ rfl).1

/-! ## Properties of pool creation and of the no-record paths -/

theorem updateVolume_none (reg : Registry) (chain : Chain) (s : Store) (a : String)
    (data : List Nat) (amounts : Nat × Nat × Nat × Nat) (h : s.record a = none)
    (hdec : decodeV2Swap data = .ok amounts) :
    updateVolume reg chain s a data = .ok s := by
  unfold Store.record at h
  obtain ⟨a0, a1, a2, a3⟩ := amounts
  cases hs : selectByAddress s.rows a with
  | nil => simp only [updateVolume, hdec, hs]
  | cons r tl => rw [hs] at h; exact Option.noConfusion h

/-- C14: when the table holds no record of `a`, `updateReserves(a, r0, r1)`
and `updateVolume(a, data)` with a payload that decodes return normally and
leave the store, table and cache, exactly as it was. -/
theorem no_record_no_update (reg : Registry) (chain : Chain) (now : Nat) (s : Store)
    (a : String) (h : s.record a = none) :
    (∀ r0 r1 : Nat, updateReserves reg chain now s a r0 r1 = s) ∧
    (∀ (data : List Nat) (amounts : Nat × Nat × Nat × Nat),
      decodeV2Swap data = .ok amounts → updateVolume reg chain s a data = .ok s) :=
  ⟨fun r0 r1 => updateReserves_none reg chain now s a r0 r1 h,
   fun data amounts hdec => updateVolume_none reg chain s a data amounts h hdec⟩

/-- Witness for C14: a table with the scenario pool only, and a Sync and a
Swap for another address. -/
theorem no_record_no_update_witness :
    updateReserves scenarioRegistry scenarioChain 5
        { rows := [scenarioRecord "0x00000000000000000000000000000000000000f0"
                    "0x00000000000000000000000000000000000000AA"
                    "0x00000000000000000000000000000000000000bb"],
          tokenMeta := [] }
        "0x00000000000000000000000000000000000000f1" 100 50
      = { rows := [scenarioRecord "0x00000000000000000000000000000000000000f0"
                    "0x00000000000000000000000000000000000000AA"
                    "0x00000000000000000000000000000000000000bb"],
          tokenMeta := [] } ∧
    updateVolume scenarioRegistry scenarioChain
        { rows := [scenarioRecord "0x00000000000000000000000000000000000000f0"
                    "0x00000000000000000000000000000000000000AA"
                    "0x00000000000000000000000000000000000000bb"],
          tokenMeta := [] }
        "0x00000000000000000000000000000000000000f1" (swapPayload 10 0 20 0)
      = .ok { rows := [scenarioRecord "0x00000000000000000000000000000000000000f0"
                    "0x00000000000000000000000000000000000000AA"
                    "0x00000000000000000000000000000000000000bb"],
              tokenMeta := [] } :=
  have h := no_record_no_update scenarioRegistry scenarioChain 5
    { rows := [scenarioRecord "0x00000000000000000000000000000000000000f0"
                "0x00000000000000000000000000000000000000AA"
                "0x00000000000000000000000000000000000000bb"],
      tokenMeta := [] }
    "0x00000000000000000000000000000000000000f1" (by decide)
  ⟨h.1 100 50, h.2 (swapPayload 10 0 20 0) (10, 0, 20, 0) rfl⟩

/-- C13: for a pair in which neither token is a registry key, `insertV3Pool`,
`ensureV2Pool` (the pair being what `token0()` and `token1()` answer) and
`updateV3Volume` on an address without record (its creation path) return
normally and leave the store, table and cache, exactly as it was. -/
theorem no_reference_no_record (reg : Registry) (chain : Chain) (now : Nat) (s : Store)
    (address token0 token1 : String)
    (h0 : reg.get (toLowerCase token0) = none) (h1 : reg.get (toLowerCase token1) = none) :
    insertV3Pool reg chain now s address token0 token1 = .ok s ∧
    (checkV2LP chain address = some (token0, token1) →
      ensureV2Pool reg chain now s address = .ok s) ∧
    (s.record address = none → getV3Tokens chain address = some (token0, token1) →
      ∀ data, updateV3Volume reg chain now s address data = .ok s) := by
  have ha := analyzePair_none_none reg token0 token1 h0 h1
  refine ⟨?_, ?_, ?_⟩
  · unfold insertV3Pool
    split
    · rfl
    · simp [ha]
  · intro hlp
    unfold ensureV2Pool
    split
    · rfl
    · simp [hlp, ha]
  · intro hrec hv3 data
    unfold Store.record at hrec
    cases hs : selectByAddress s.rows address with
    | cons r tl => rw [hs] at hrec; exact Option.noConfusion hrec
    | nil =>
      simp only [updateV3Volume, hs, hv3, ha]
      split <;> simp

/-- Witness for C13: a pool of two tokens outside the registry, on a chain
that answers its `token0()` and `token1()`. -/
theorem no_reference_no_record_witness :
    ensureV2Pool (MAIN_TOKENS 700 3500 118000)
        { failingChain with
          token0 := fun _ => some "0x0E09FaBB73Bd3Ade0a17ECC321fD13a19e81cE82",
          token1 := fun _ => some "0xF8A0BF9cF54Bb92F17374d9e9A321E6a111a51bD" } 3
        { rows := [], tokenMeta := [] } "0x00000000000000000000000000000000000000f1"
      = .ok { rows := [], tokenMeta := [] } :=
  (no_reference_no_record (MAIN_TOKENS 700 3500 118000)
    { failingChain with
      token0 := fun _ => some "0x0E09FaBB73Bd3Ade0a17ECC321fD13a19e81cE82",
      token1 := fun _ => some "0xF8A0BF9cF54Bb92F17374d9e9A321E6a111a51bD" } 3
    { rows := [], tokenMeta := [] } "0x00000000000000000000000000000000000000f1"
    "0x0E09FaBB73Bd3Ade0a17ECC321fD13a19e81cE82"
    "0xF8A0BF9cF54Bb92F17374d9e9A321E6a111a51bD" (by decide) (by decide)).2.1 rfl

/-! ## Properties of the worker iteration -/

/-- C18 as stated fails: when the pool-creation request throws, the iteration
issues no other request; the swap-or-sync and v3-swap requests are not
attempted. -/
theorem processRange_stops_at_first_failed_fetch :
    (processRange scenarioRegistry scenarioChain scenarioEnv 0 { rows := [], tokenMeta := [] }
        { v3Logs := none, swapAndSyncLogs := some [], v3SwapLogs := some [] }).fetches
      = [Fetch.poolCreated] ∧
    Fetch.swapOrSync ∉
      (processRange scenarioRegistry scenarioChain scenarioEnv 0 { rows := [], tokenMeta := [] }
        { v3Logs := none, swapAndSyncLogs := some [], v3SwapLogs := some [] }).fetches ∧
    Fetch.v3Swap ∉
      (processRange scenarioRegistry scenarioChain scenarioEnv 0 { rows := [], tokenMeta := [] }
        { v3Logs := none, swapAndSyncLogs := some [], v3SwapLogs := some [] }).fetches := by
  refine ⟨rfl, by decide, by decide⟩

/-- C18, amended: the three requests are issued one after the other in one
`try` block. The pool-creation request is always attempted; the swap-or-sync
request is attempted exactly when the pool-creation request succeeded; the
v3-swap request exactly when both earlier requests succeeded. -/
theorem processRange_fetches (reg : Registry) (chain : Chain) (env : Env) (now : Nat)
    (s : Store) (logs : RangeLogs) :
    Fetch.poolCreated ∈ (processRange reg chain env now s logs).fetches ∧
    (Fetch.swapOrSync ∈ (processRange reg chain env now s logs).fetches ↔
      logs.v3Logs.isSome = true) ∧
    (Fetch.v3Swap ∈ (processRange reg chain env now s logs).fetches ↔
      (logs.v3Logs.isSome = true ∧ logs.swapAndSyncLogs.isSome = true)) ∧
    (processRange reg chain env now s logs).fetches <+: [.poolCreated, .swapOrSync, .v3Swap] := by
  obtain ⟨v3, ss, v3s⟩ := logs
  cases v3 with
  | none => simp [processRange]
  | some l1 =>
    cases ss with
    | none => simp [processRange]
    | some l2 =>
      cases v3s with
      | none => simp [processRange]
      | some l3 => simp [processRange]

/-- C19: when at least one of the three requests of an iteration throws, the
iteration ends in the `catch` with the store, table and cache, exactly as it
was: no log of the range is applied. -/
theorem processRange_fetch_failure (reg : Registry) (chain : Chain) (env : Env) (now : Nat)
    (s : Store) (logs : RangeLogs)
    (hfail : logs.v3Logs = none ∨ logs.swapAndSyncLogs = none ∨ logs.v3SwapLogs = none) :
    (processRange reg chain env now s logs).store = s ∧
    (processRange reg chain env now s logs).error = some "getLogs" := by
  obtain ⟨v3, ss, v3s⟩ := logs
  cases v3 with
  | none => simp [processRange]
  | some l1 =>
    cases ss with
    | none => simp [processRange]
    | some l2 =>
      cases v3s with
      | none => simp [processRange]
      | some l3 => simp at hfail

/-- Witness for C19: the swap-or-sync request returns a Sync of the scenario
pool and the v3-swap request throws: the Sync is not applied. -/
theorem processRange_fetch_failure_witness :
    (processRange scenarioRegistry scenarioChain scenarioEnv 7
        { rows := [scenarioRecord "0x00000000000000000000000000000000000000f0"
                    "0x00000000000000000000000000000000000000AA"
                    "0x00000000000000000000000000000000000000bb"],
          tokenMeta := [] }
        { v3Logs := some [],
          swapAndSyncLogs := some [{ address := "0x00000000000000000000000000000000000000F0",
                                     topics := [scenarioEnv.SYNC_TOPIC],
                                     data := syncPayload 100 50 }],
          v3SwapLogs := none }).store
      = { rows := [scenarioRecord "0x00000000000000000000000000000000000000f0"
                    "0x00000000000000000000000000000000000000AA"
                    "0x00000000000000000000000000000000000000bb"],
          tokenMeta := [] } :=
  (processRange_fetch_failure scenarioRegistry scenarioChain scenarioEnv 7 _ _
    (Or.inr (Or.inr rfl))).1

/-- C20, at the failing input: the swap-or-sync logs of a range are a V2 Swap
log with an empty payload, from a contract that is no pool, followed by a
well-formed Sync of the scenario pool. The decode exception of `updateVolume`
leaves the loop: the Sync is not applied and the store is as before, whereas
the same range without the malformed log stores reserves 100 and 50 and
value 200. -/
theorem processRange_aborts_on_malformed_swap :
    (processRange scenarioRegistry scenarioChain scenarioEnv 7
        { rows := [scenarioRecord "0x00000000000000000000000000000000000000f0"
                    "0x00000000000000000000000000000000000000AA"
                    "0x00000000000000000000000000000000000000bb"],
          tokenMeta := [] }
        { v3Logs := some [],
          swapAndSyncLogs := some [{ address := "0x00000000000000000000000000000000000000E1",
                                     topics := [scenarioEnv.SWAP_TOPIC],
                                     data := [] },
                                   { address := "0x00000000000000000000000000000000000000F0",
                                     topics := [scenarioEnv.SYNC_TOPIC],
                                     data := syncPayload 100 50 }],
          v3SwapLogs := some [] }).store
      = { rows := [scenarioRecord "0x00000000000000000000000000000000000000f0"
                    "0x00000000000000000000000000000000000000AA"
                    "0x00000000000000000000000000000000000000bb"],
          tokenMeta := [] } ∧
    (processRange scenarioRegistry scenarioChain scenarioEnv 7
        { rows := [scenarioRecord "0x00000000000000000000000000000000000000f0"
                    "0x00000000000000000000000000000000000000AA"
                    "0x00000000000000000000000000000000000000bb"],
          tokenMeta := [] }
        { v3Logs := some [],
          swapAndSyncLogs := some [{ address := "0x00000000000000000000000000000000000000E1",
                                     topics := [scenarioEnv.SWAP_TOPIC],
                                     data := [] },
                                   { address := "0x00000000000000000000000000000000000000F0",
                                     topics := [scenarioEnv.SYNC_TOPIC],
                                     data := syncPayload 100 50 }],
          v3SwapLogs := some [] }).error = some "BUFFER_OVERRUN" ∧
    (processRange scenarioRegistry scenarioChain scenarioEnv 7
        { rows := [scenarioRecord "0x00000000000000000000000000000000000000f0"
                    "0x00000000000000000000000000000000000000AA"
                    "0x00000000000000000000000000000000000000bb"],
          tokenMeta := [] }
        { v3Logs := some [],
          swapAndSyncLogs := some [{ address := "0x00000000000000000000000000000000000000F0",
                                     topics := [scenarioEnv.SYNC_TOPIC],
                                     data := syncPayload 100 50 }],
          v3SwapLogs := some [] }).store.record "0x00000000000000000000000000000000000000f0"
      = some { scenarioRecord "0x00000000000000000000000000000000000000f0"
                "0x00000000000000000000000000000000000000AA"
                "0x00000000000000000000000000000000000000bb" with
          token0_balance := 100, token1_balance := 50,
          liquidity_value := some 200, last_updated := 7 } := by
  refine ⟨by decide!, by decide!, by decide!⟩

/-! ## Properties of `updateV3Volume` on an existing record -/

theorem updateV3Volume_eq (reg : Registry) (chain : Chain) (now : Nat) (s : Store)
    (a : String) (data : List Nat) (amounts : Int × Int) (rec : PoolRecord) (m : String)
    (info : MainTokenInfo)
    (hrec : s.record a = some rec)
    (hm : (analyzePair reg rec.token0_address rec.token1_address).mainToken = some m)
    (hinfo : reg.get (toLowerCase m) = some info)
    (hdec : decodeV3Swap data = .ok amounts) :
    updateV3Volume reg chain now s a data =
      .ok { rows := updateByAddress s.rows a (fun r =>
              { r with
                total_transaction_volume := some (r.total_transaction_volume.getD 0 +
                  |formatUnits (v3SideAmount m rec.token0_address amounts)
                    (getTokenMeta chain s.tokenMeta m).1.decimals * info.rate|)
                trade_count_24h := r.trade_count_24h + 1
                trade_count_12h := r.trade_count_12h + 1 })
            tokenMeta := (getTokenMeta chain s.tokenMeta m).2 } := by
  obtain ⟨tl, htl⟩ := record_eq_some hrec
  obtain ⟨hhas, hcases, -⟩ := analyzePair_mainToken_some reg _ _ m hm
  obtain ⟨amount0, amount1⟩ := amounts
  have hside : (if toLowerCase m = toLowerCase rec.token0_address then amount0
      else if toLowerCase m = toLowerCase rec.token1_address then amount1
      else 0) = v3SideAmount m rec.token0_address (amount0, amount1) := by
    unfold v3SideAmount
    by_cases h0 : toLowerCase m = toLowerCase rec.token0_address
    · simp [h0]
    · have h1 : m = rec.token1_address := by
        rcases hcases with h | h
        · exact absurd (by rw [h]) h0
        · exact h
      simp [h0, h1]
  simp only [updateV3Volume, updateV3VolumeOf, applyV3Swap, htl, hhas, hm, hdec,
    getUSDTValue, hinfo, hside]
  rfl

theorem abs_formatUnits_mul (x : Int) (d : Nat) (p : ℚ) (hp : 0 ≤ p) :
    |formatUnits x d * p| = |(x : ℚ)| / (10 : ℚ) ^ d * p := by
  unfold formatUnits
  rw [abs_mul, abs_div, abs_of_nonneg hp, abs_of_pos (by positivity : (0 : ℚ) < 10 ^ d)]

/-- C11: for an existing pool whose reference token `m` (`analyzePair`'s
`mainToken`) has cached decimals `d` and a rate `p ≥ 0`, `updateV3Volume` on a
payload that decodes succeeds and adds `|amount_i| / 10^d * p` to
`total_transaction_volume` (null read as 0) and 1 to both counters, where
`amount_i` is the signed net amount on the side of `m`; the increment is
never negative, and payloads whose reference-side amounts are opposite leave
the same store. -/
theorem updateV3Volume_adds_magnitude (reg : Registry) (chain : Chain) (now : Nat)
    (s : Store) (a : String) (rec : PoolRecord) (m : String) (info : MainTokenInfo)
    (hrec : s.record a = some rec)
    (hm : (analyzePair reg rec.token0_address rec.token1_address).mainToken = some m)
    (hinfo : reg.get (toLowerCase m) = some info)
    (hrate : 0 ≤ info.rate) :
    (∀ (data : List Nat) (amounts : Int × Int), decodeV3Swap data = .ok amounts →
      ∃ s1, updateV3Volume reg chain now s a data = .ok s1 ∧
        s1.record a = some { rec with
          total_transaction_volume := some (rec.total_transaction_volume.getD 0 +
            |((v3SideAmount m rec.token0_address amounts : Int) : ℚ)| /
              (10 : ℚ) ^ (getTokenMeta chain s.tokenMeta m).1.decimals * info.rate)
          trade_count_24h := rec.trade_count_24h + 1
          trade_count_12h := rec.trade_count_12h + 1 }) ∧
    (∀ amounts : Int × Int,
      0 ≤ |((v3SideAmount m rec.token0_address amounts : Int) : ℚ)| /
              (10 : ℚ) ^ (getTokenMeta chain s.tokenMeta m).1.decimals * info.rate) ∧
    (∀ (data1 data2 : List Nat) (amounts1 amounts2 : Int × Int),
      decodeV3Swap data1 = .ok amounts1 → decodeV3Swap data2 = .ok amounts2 →
      v3SideAmount m rec.token0_address amounts2 = - v3SideAmount m rec.token0_address amounts1 →
      updateV3Volume reg chain now s a data2 = updateV3Volume reg chain now s a data1) := by
  refine ⟨?_, ?_, ?_⟩
  · intro data amounts hdec
    refine ⟨_, updateV3Volume_eq reg chain now s a data amounts rec m info hrec hm hinfo hdec, ?_⟩
    refine record_updateByAddress s.rows s.tokenMeta _ a _ ?_ rec hrec _ ?_
    · intro r; rfl
    · rw [abs_formatUnits_mul _ _ _ hrate]
  · intro amounts
    positivity
  · intro data1 data2 amounts1 amounts2 h1 h2 hneg
    rw [updateV3Volume_eq reg chain now s a data1 amounts1 rec m info hrec hm hinfo h1,
      updateV3Volume_eq reg chain now s a data2 amounts2 rec m info hrec hm hinfo h2]
    simp only [abs_formatUnits_mul _ _ _ hrate, hneg, Int.cast_neg, abs_neg]

/-- Witness for C11: on the scenario pool (T_ref on side 0, decimals 0, rate
2) a V3 swap with `amount0 = -30` adds 60 to the volume and 1 to each
counter. -/
theorem updateV3Volume_adds_magnitude_witness :
    ∃ s1, updateV3Volume scenarioRegistry scenarioChain 0
        { rows := [scenarioRecord "0x00000000000000000000000000000000000000f0"
                    "0x00000000000000000000000000000000000000AA"
                    "0x00000000000000000000000000000000000000bb"],
          tokenMeta := [] }
        "0x00000000000000000000000000000000000000f0" (v3PayloadNegative 30) = .ok s1 ∧
      s1.record "0x00000000000000000000000000000000000000f0" =
        some { scenarioRecord "0x00000000000000000000000000000000000000f0"
                  "0x00000000000000000000000000000000000000AA"
                  "0x00000000000000000000000000000000000000bb" with
          total_transaction_volume := some 60, trade_count_24h := 1, trade_count_12h := 1 } := by
  obtain ⟨s1, h1, h2⟩ := (updateV3Volume_adds_magnitude scenarioRegistry scenarioChain 0
    { rows := [scenarioRecord "0x00000000000000000000000000000000000000f0"
                "0x00000000000000000000000000000000000000AA"
                "0x00000000000000000000000000000000000000bb"],
      tokenMeta := [] }
    "0x00000000000000000000000000000000000000f0"
    (scenarioRecord "0x00000000000000000000000000000000000000f0"
      "0x00000000000000000000000000000000000000AA"
      "0x00000000000000000000000000000000000000bb")
    "0x00000000000000000000000000000000000000AA" ⟨"T_ref", 2⟩
    (by decide) (by decide) (by decide) (by decide!)).1 (v3PayloadNegative 30) (-30, 0)
    (by decide!)
  exact ⟨s1, h1, h2.trans (by decide!)⟩

/-! ## Uniqueness of `contract_address` and idempotent creation -/

theorem selectByAddress_eq_nil_iff (rows : List PoolRecord) (a : String) :
    selectByAddress rows a = [] ↔ a ∉ rows.map (fun r => r.contract_address) := by
  induction rows with
  | nil => simp [selectByAddress]
  | cons r rest ih =>
    simp only [selectByAddress] at ih
    by_cases h : r.contract_address = a
    · simp [selectByAddress, List.filter_cons, h]
    · have h2 : ¬ a = r.contract_address := fun e => h e.symm
      simp [selectByAddress, List.filter_cons, h, h2, ih]

theorem selectByAddress_length_le_one (rows : List PoolRecord) (a : String)
    (hu : UniqueAddresses rows) : (selectByAddress rows a).length ≤ 1 := by
  induction rows with
  | nil => simp [selectByAddress]
  | cons r rest ih =>
    unfold UniqueAddresses at hu ih
    simp only [List.map_cons, List.nodup_cons] at hu
    by_cases h : r.contract_address = a
    · have hnil : selectByAddress rest a = [] := by
        rw [selectByAddress_eq_nil_iff, ← h]
        exact hu.1
      have : selectByAddress (r :: rest) a = r :: selectByAddress rest a := by
        simp [selectByAddress, List.filter_cons, h]
      rw [this, hnil]
      simp
    · have : selectByAddress (r :: rest) a = selectByAddress rest a := by
        simp [selectByAddress, List.filter_cons, h]
      rw [this]
      exact ih hu.2

theorem selectByAddress_append (rows : List PoolRecord) (r : PoolRecord) (a : String) :
    selectByAddress (rows ++ [r]) a =
      selectByAddress rows a ++ (if r.contract_address = a then [r] else []) := by
  by_cases h : r.contract_address = a
  · simp [selectByAddress, List.filter_append, List.filter_cons, h]
  · simp [selectByAddress, List.filter_append, List.filter_cons, h]

theorem uniqueAddresses_append (rows : List PoolRecord) (r : PoolRecord)
    (hu : UniqueAddresses rows) (hnil : selectByAddress rows r.contract_address = []) :
    UniqueAddresses (rows ++ [r]) := by
  unfold UniqueAddresses at hu ⊢
  rw [List.map_append, List.nodup_append]
  refine ⟨hu, by simp, ?_⟩
  intro x hx hx2
  simp only [List.map_cons, List.map_nil, List.mem_singleton] at hx2
  subst hx2
  exact (selectByAddress_eq_nil_iff rows _).1 hnil hx

theorem map_address_updateByAddress (rows : List PoolRecord) (a : String)
    (f : PoolRecord → PoolRecord) (hf : ∀ r, (f r).contract_address = r.contract_address) :
    (updateByAddress rows a f).map (fun r => r.contract_address)
      = rows.map (fun r => r.contract_address) := by
  induction rows with
  | nil => rfl
  | cons r rest ih =>
    simp only [updateByAddress, List.map_cons] at ih ⊢
    rw [ih]
    by_cases h : (r.contract_address == a) = true
    · simp [h, hf]
    · simp [h]

theorem insertIgnoringDuplicate_of_nil (s : Store) (cache : MetaCache) (r : PoolRecord)
    (h : selectByAddress s.rows r.contract_address = []) :
    insertIgnoringDuplicate s cache r = .ok { rows := s.rows ++ [r], tokenMeta := cache } := by
  simp [insertIgnoringDuplicate, insertRecord, h]

theorem insertIgnoringDuplicate_of_cons (s : Store) (cache : MetaCache) (r : PoolRecord)
    (h : selectByAddress s.rows r.contract_address ≠ []) :
    insertIgnoringDuplicate s cache r = .ok { rows := s.rows, tokenMeta := cache } := by
  cases hs : selectByAddress s.rows r.contract_address with
  | nil => exact absurd hs h
  | cons x tl => simp [insertIgnoringDuplicate, insertRecord, hs]

theorem analyzePair_hasMainToken_true (reg : Registry) (token0 token1 : String)
    (h : (analyzePair reg token0 token1).hasMainToken = true) :
    ∃ p m info, (analyzePair reg token0 token1).parentToken = some p ∧
      (analyzePair reg token0 token1).mainToken = some m ∧
      reg.get (toLowerCase m) = some info := by
  cases h0 : reg.get (toLowerCase token0) with
  | none =>
    cases h1 : reg.get (toLowerCase token1) with
    | none =>
      rw [analyzePair_none_none reg token0 token1 h0 h1] at h
      exact Bool.noConfusion h
    | some m1 =>
      rw [analyzePair_none_some reg token0 token1 m1 h0 h1]
      exact ⟨token0, token1, m1, rfl, rfl, h1⟩
  | some m0 =>
    cases h1 : reg.get (toLowerCase token1) with
    | none =>
      rw [analyzePair_some_none reg token0 token1 m0 h0 h1]
      exact ⟨token1, token0, m0, rfl, rfl, h0⟩
    | some m1 =>
      rw [analyzePair_some_some reg token0 token1 m0 m1 h0 h1]
      by_cases ha : toLowerCase token0 = USDT_ANCHOR
      · rw [if_pos ha]
        exact ⟨token1, token0, m0, rfl, rfl, h0⟩
      · rw [if_neg ha]
        exact ⟨token0, token1, m1, rfl, rfl, h1⟩

theorem insertV3Pool_spec (reg : Registry) (chain : Chain) (now : Nat) (s : Store)
    (pool token0 token1 : String) :
    ∃ s1, insertV3Pool reg chain now s pool token0 token1 = .ok s1 ∧
      ((s1 = s ∧ (selectByAddress s.rows pool ≠ [] ∨
          (analyzePair reg token0 token1).hasMainToken = false)) ∨
        (selectByAddress s.rows pool = [] ∧
          (analyzePair reg token0 token1).hasMainToken = true ∧
          ∃ r, r.contract_address = pool ∧ s1.rows = s.rows ++ [r])) := by
  cases hs : selectByAddress s.rows pool with
  | cons x tl =>
    exact ⟨s, by simp only [insertV3Pool, hs], Or.inl ⟨rfl, Or.inl (by simp)⟩⟩
  | nil =>
    cases hh : (analyzePair reg token0 token1).hasMainToken with
    | false => exact ⟨s, by simp [insertV3Pool, hs, hh], Or.inl ⟨rfl, Or.inr rfl⟩⟩
    | true =>
      obtain ⟨p, m, info, hp, hm, hinfo⟩ := analyzePair_hasMainToken_true reg token0 token1 hh
      have key : ∃ r : PoolRecord, r.contract_address = pool ∧ ∃ c,
          insertV3Pool reg chain now s pool token0 token1
            = .ok { rows := s.rows ++ [r], tokenMeta := c } := by
        simp only [insertV3Pool, hs, hh, hp, hm, hinfo, Bool.not_true, Bool.false_eq_true,
          if_false]
        split_ifs
        · refine ⟨_, ?_, _, insertIgnoringDuplicate_of_nil s _ _ (by exact hs)⟩
          rfl
        · refine ⟨_, ?_, _, insertIgnoringDuplicate_of_nil s _ _ (by exact hs)⟩
          rfl
        · refine ⟨_, ?_, _, insertIgnoringDuplicate_of_nil s _ _ (by exact hs)⟩
          rfl
      obtain ⟨r, hr, c, hc⟩ := key
      exact ⟨_, hc, Or.inr ⟨rfl, rfl, r, hr, rfl⟩⟩

theorem ensureV2Pool_spec (reg : Registry) (chain : Chain) (now : Nat) (s : Store)
    (lp : String) :
    ∃ s1, ensureV2Pool reg chain now s lp = .ok s1 ∧
      ((s1 = s ∧ (selectByAddress s.rows lp ≠ [] ∨
          ¬ ∃ t0 t1, checkV2LP chain lp = some (t0, t1) ∧
            (analyzePair reg t0 t1).hasMainToken = true)) ∨
        (selectByAddress s.rows lp = [] ∧
          (∃ t0 t1, checkV2LP chain lp = some (t0, t1) ∧
            (analyzePair reg t0 t1).hasMainToken = true) ∧
          ∃ r, r.contract_address = lp ∧ s1.rows = s.rows ++ [r])) := by
  cases hs : selectByAddress s.rows lp with
  | cons x tl =>
    exact ⟨s, by simp only [ensureV2Pool, hs], Or.inl ⟨rfl, Or.inl (by simp)⟩⟩
  | nil =>
    cases hlp : checkV2LP chain lp with
    | none => exact ⟨s, by simp [ensureV2Pool, hs, hlp], Or.inl ⟨rfl, Or.inr (by simp)⟩⟩
    | some pair =>
      obtain ⟨t0, t1⟩ := pair
      cases hh : (analyzePair reg t0 t1).hasMainToken with
      | false =>
        refine ⟨s, by simp [ensureV2Pool, hs, hlp, hh], Or.inl ⟨rfl, Or.inr ?_⟩⟩
        rintro ⟨a, b, hab, hab2⟩
        simp only [Option.some.injEq, Prod.mk.injEq] at hab
        rw [← hab.1, ← hab.2, hh] at hab2
        exact Bool.noConfusion hab2
      | true =>
        obtain ⟨p, m, info, hp, hm, hinfo⟩ := analyzePair_hasMainToken_true reg t0 t1 hh
        have key : ∃ r : PoolRecord, r.contract_address = lp ∧ ∃ c,
            ensureV2Pool reg chain now s lp = .ok { rows := s.rows ++ [r], tokenMeta := c } := by
          simp only [ensureV2Pool, hs, hlp, hh, hp, Bool.not_true, Bool.false_eq_true, if_false]
          refine ⟨_, ?_, _, insertIgnoringDuplicate_of_nil s _ _ (by exact hs)⟩
          rfl
        obtain ⟨r, hr, c, hc⟩ := key
        exact ⟨_, hc, Or.inr ⟨rfl, ⟨t0, t1, rfl, hh⟩, r, hr, rfl⟩⟩

theorem insertV3Pool_unique (reg : Registry) (chain : Chain) (now : Nat) (s s1 : Store)
    (pool token0 token1 : String) (hu : UniqueAddresses s.rows)
    (h : insertV3Pool reg chain now s pool token0 token1 = .ok s1) :
    UniqueAddresses s1.rows := by
  obtain ⟨s2, h2, hcase⟩ := insertV3Pool_spec reg chain now s pool token0 token1
  rw [h] at h2
  simp only [Except.ok.injEq] at h2
  subst h2
  rcases hcase with ⟨rfl, -⟩ | ⟨hs, -, r, hr, hrows⟩
  · exact hu
  · rw [hrows]
    exact uniqueAddresses_append s.rows r hu (by rw [hr]; exact hs)

theorem ensureV2Pool_unique (reg : Registry) (chain : Chain) (now : Nat) (s s1 : Store)
    (lp : String) (hu : UniqueAddresses s.rows)
    (h : ensureV2Pool reg chain now s lp = .ok s1) :
    UniqueAddresses s1.rows := by
  obtain ⟨s2, h2, hcase⟩ := ensureV2Pool_spec reg chain now s lp
  rw [h] at h2
  simp only [Except.ok.injEq] at h2
  subst h2
  rcases hcase with ⟨rfl, -⟩ | ⟨hs, -, r, hr, hrows⟩
  · exact hu
  · rw [hrows]
    exact uniqueAddresses_append s.rows r hu (by rw [hr]; exact hs)

theorem applyV3Swap_addresses (reg : Registry) (chain : Chain) (s : Store) (lp : String)
    (data : List Nat) (token0 token1 m : String) :
    (applyV3Swap reg chain s lp data token0 token1 m).rows.map (fun r => r.contract_address)
      = s.rows.map (fun r => r.contract_address) := by
  unfold applyV3Swap
  split
  · rfl
  · exact map_address_updateByAddress _ _ _ (fun _ => rfl)

theorem updateV3VolumeOf_addresses (reg : Registry) (chain : Chain) (s s1 : Store)
    (lp : String) (data : List Nat) (row : PoolRecord)
    (h : updateV3VolumeOf reg chain s lp data row = .ok s1) :
    s1.rows.map (fun r => r.contract_address) = s.rows.map (fun r => r.contract_address) := by
  unfold updateV3VolumeOf at h
  dsimp only at h
  split at h
  · simp only [Except.ok.injEq] at h; rw [← h]
  · split at h
    · simp only [Except.ok.injEq] at h; rw [← h]
    · simp only [Except.ok.injEq] at h
      rw [← h]
      exact applyV3Swap_addresses _ _ _ _ _ _ _ _

theorem updateV3Volume_unique (reg : Registry) (chain : Chain) (now : Nat) (s s1 : Store)
    (lp : String) (data : List Nat) (hu : UniqueAddresses s.rows)
    (h : updateV3Volume reg chain now s lp data = .ok s1) :
    UniqueAddresses s1.rows := by
  unfold updateV3Volume at h
  split at h
  · unfold UniqueAddresses
    rw [updateV3VolumeOf_addresses _ _ _ _ _ _ _ h]
    exact hu
  · split at h
    · simp only [Except.ok.injEq] at h; rw [← h]; exact hu
    · split at h
      · simp only [Except.ok.injEq] at h; rw [← h]; exact hu
      · split at h
        · simp only [Except.ok.injEq] at h; rw [← h]; exact hu
        · split at h
          · exact Except.noConfusion h
          · rename_i s2 hins
            have hu2 := insertV3Pool_unique _ _ _ _ _ _ _ _ hu hins
            split at h
            · simp only [Except.ok.injEq] at h; rw [← h]; exact hu2
            · unfold UniqueAddresses
              rw [updateV3VolumeOf_addresses _ _ _ _ _ _ _ h]
              exact hu2

theorem updateReserves_addresses (reg : Registry) (chain : Chain) (now : Nat) (s : Store)
    (a : String) (r0 r1 : Nat) :
    (updateReserves reg chain now s a r0 r1).rows.map (fun r => r.contract_address)
      = s.rows.map (fun r => r.contract_address) := by
  unfold updateReserves
  split
  · rfl
  · exact map_address_updateByAddress _ _ _ (fun _ => rfl)

theorem updateVolume_addresses (reg : Registry) (chain : Chain) (s s1 : Store)
    (a : String) (data : List Nat) (h : updateVolume reg chain s a data = .ok s1) :
    s1.rows.map (fun r => r.contract_address) = s.rows.map (fun r => r.contract_address) := by
  unfold updateVolume at h
  split at h
  · exact Except.noConfusion h
  · split at h
    · simp only [Except.ok.injEq] at h; rw [← h]
    · dsimp only at h
      split at h
      · simp only [Except.ok.injEq] at h; rw [← h]
      · split at h
        · exact Except.noConfusion h
        · simp only [Except.ok.injEq] at h
          rw [← h]
          exact map_address_updateByAddress _ _ _ (fun _ => rfl)

theorem insertIgnoringDuplicate_unique (s s1 : Store) (cache : MetaCache) (r : PoolRecord)
    (hu : UniqueAddresses s.rows) (h : insertIgnoringDuplicate s cache r = .ok s1) :
    UniqueAddresses s1.rows := by
  by_cases hs : selectByAddress s.rows r.contract_address = []
  · rw [insertIgnoringDuplicate_of_nil s cache r hs] at h
    simp only [Except.ok.injEq] at h
    rw [← h]
    exact uniqueAddresses_append s.rows r hu hs
  · rw [insertIgnoringDuplicate_of_cons s cache r hs] at h
    simp only [Except.ok.injEq] at h
    rw [← h]
    exact hu

theorem applyCall_unique (reg : Registry) (chain : Chain) (now : Nat) (s s1 : Store)
    (c : LedgerCall) (hu : UniqueAddresses s.rows) (h : applyCall reg chain now s c = .ok s1) :
    UniqueAddresses s1.rows := by
  cases c with
  | ensureV2Pool lp => exact ensureV2Pool_unique reg chain now s s1 lp hu h
  | insertV3Pool pool t0 t1 => exact insertV3Pool_unique reg chain now s s1 pool t0 t1 hu h
  | updateReserves lp r0 r1 =>
    simp only [applyCall, Except.ok.injEq] at h
    unfold UniqueAddresses
    rw [← h, updateReserves_addresses]
    exact hu
  | updateVolume lp data =>
    unfold UniqueAddresses
    rw [updateVolume_addresses reg chain s s1 lp data h]
    exact hu
  | updateV3Volume lp data => exact updateV3Volume_unique reg chain now s s1 lp data hu h
  | racingInsert r => exact insertIgnoringDuplicate_unique s s1 s.tokenMeta r hu h

theorem applyCalls_unique (reg : Registry) (chain : Chain) (now : Nat)
    (calls : List LedgerCall) (s : Store) (hu : UniqueAddresses s.rows) :
    UniqueAddresses (applyCalls reg chain now s calls).rows := by
  induction calls generalizing s with
  | nil => exact hu
  | cons c rest ih =>
    simp only [applyCalls]
    cases h : applyCall reg chain now s c with
    | error e => exact ih s hu
    | ok s1 => exact ih s1 (applyCall_unique reg chain now s s1 c hu h)

theorem creation_idempotent (op : Nat → Store → Except String Store) (a : String) (G : Prop)
    (hspec : ∀ now s, ∃ s1, op now s = .ok s1 ∧
      ((s1 = s ∧ (selectByAddress s.rows a ≠ [] ∨ ¬ G)) ∨
        (selectByAddress s.rows a = [] ∧ G ∧
          ∃ r : PoolRecord, r.contract_address = a ∧ s1.rows = s.rows ++ [r])))
    (now : Nat) (s : Store) (hu : UniqueAddresses s.rows) :
    ∃ s1, op now s = .ok s1 ∧ (∀ now2, op now2 s1 = .ok s1) ∧ recordCount s1 a ≤ 1 ∧
      (recordCount s1 a = 1 ↔ (recordCount s a = 1 ∨ G)) := by
  obtain ⟨s1, h1, hcase⟩ := hspec now s
  refine ⟨s1, h1, ?_, ?_, ?_⟩
  · intro now2
    obtain ⟨s2, h2, hcase2⟩ := hspec now2 s1
    rcases hcase2 with ⟨rfl, -⟩ | ⟨hnil2, hG2, -⟩
    · exact h2
    · exfalso
      rcases hcase with ⟨rfl, hne | hnG⟩ | ⟨-, -, r, hr, hrows⟩
      · exact hne hnil2
      · exact hnG hG2
      · rw [hrows, selectByAddress_append] at hnil2
        simp [hr] at hnil2
  · rcases hcase with ⟨rfl, -⟩ | ⟨hnil, -, r, hr, hrows⟩
    · exact selectByAddress_length_le_one _ _ hu
    · unfold recordCount
      rw [hrows, selectByAddress_append, hnil]
      simp [hr]
  · rcases hcase with ⟨rfl, hne | hnG⟩ | ⟨hnil, hG, r, hr, hrows⟩
    · constructor
      · exact fun h => Or.inl h
      · rintro (h | hG)
        · exact h
        · have hle := selectByAddress_length_le_one s1.rows a hu
          have hpos : 0 < (selectByAddress s1.rows a).length := List.length_pos.2 hne
          unfold recordCount
          omega
    · constructor
      · exact fun h => Or.inl h
      · rintro (h | hG)
        · exact h
        · exact absurd hG hnG
    · constructor
      · exact fun _ => Or.inr hG
      · intro _
        unfold recordCount
        rw [hrows, selectByAddress_append, hnil]
        simp [hr]

/-- C12 as stated fails: for a pair with no registry token, `insertV3Pool` on
an empty table returns the table empty, so running it twice leaves no record
of the address, not exactly one. -/
theorem insertV3Pool_twice_without_reference :
    insertV3Pool (MAIN_TOKENS 700 3500 118000) failingChain 0 { rows := [], tokenMeta := [] }
        "0x00000000000000000000000000000000000000f1"
        "0x0E09FaBB73Bd3Ade0a17ECC321fD13a19e81cE82"
        "0xF8A0BF9cF54Bb92F17374d9e9A321E6a111a51bD"
      = .ok { rows := [], tokenMeta := [] } ∧
    recordCount { rows := [], tokenMeta := [] } "0x00000000000000000000000000000000000000f1" = 0 := by
  refine ⟨by decide, by decide⟩

/-- C12, amended: from a table without duplicate addresses, `insertV3Pool` and
`ensureV2Pool` return normally; a second call with the same inputs leaves the
store unchanged; the address then has at most one record, and exactly one if
and only if it had one before or the operation's gates pass (the pair holds a
registry token; for `ensureV2Pool`, the pair being what `token0()` and
`token1()` answer). No sequence of ledger operations and of racing `INSERT`s,
duplicate-key rejections being ignored, produces two records with the same
`contract_address`. -/
theorem pool_creation_idempotent (reg : Registry) (chain : Chain) (now : Nat) (s : Store)
    (hu : UniqueAddresses s.rows) :
    (∀ pool token0 token1 : String,
      ∃ s1, insertV3Pool reg chain now s pool token0 token1 = .ok s1 ∧
        (∀ now2, insertV3Pool reg chain now2 s1 pool token0 token1 = .ok s1) ∧
        recordCount s1 pool ≤ 1 ∧
        (recordCount s1 pool = 1 ↔
          (recordCount s pool = 1 ∨ (analyzePair reg token0 token1).hasMainToken = true))) ∧
    (∀ lp : String,
      ∃ s1, ensureV2Pool reg chain now s lp = .ok s1 ∧
        (∀ now2, ensureV2Pool reg chain now2 s1 lp = .ok s1) ∧
        recordCount s1 lp ≤ 1 ∧
        (recordCount s1 lp = 1 ↔
          (recordCount s lp = 1 ∨
            ∃ t0 t1, checkV2LP chain lp = some (t0, t1) ∧
              (analyzePair reg t0 t1).hasMainToken = true))) ∧
    (∀ calls : List LedgerCall, UniqueAddresses (applyCalls reg chain now s calls).rows) := by
  refine ⟨?_, ?_, ?_⟩
  · intro pool token0 token1
    refine creation_idempotent (fun n st => insertV3Pool reg chain n st pool token0 token1) pool
      ((analyzePair reg token0 token1).hasMainToken = true) ?_ now s hu
    intro n st
    obtain ⟨s1, h1, hcase⟩ := insertV3Pool_spec reg chain n st pool token0 token1
    refine ⟨s1, h1, ?_⟩
    rcases hcase with ⟨rfl, hne | hf⟩ | h
    · exact Or.inl ⟨rfl, Or.inl hne⟩
    · exact Or.inl ⟨rfl, Or.inr (by simp [hf])⟩
    · exact Or.inr h
  · intro lp
    exact creation_idempotent (fun n st => ensureV2Pool reg chain n st lp) lp _
      (fun n st => ensureV2Pool_spec reg chain n st lp) now s hu
  · intro calls
    exact applyCalls_unique reg chain now calls s hu

/-- Witness for C12: on an empty table, `insertV3Pool` for a pool of USDT and
a token outside the registry creates the record, and the second call changes
nothing: the pool has exactly one record. -/
theorem pool_creation_idempotent_witness :
    ∃ s1, insertV3Pool (MAIN_TOKENS 700 3500 118000) failingChain 0
        { rows := [], tokenMeta := [] } "0x00000000000000000000000000000000000000f1"
        "0x0E09FaBB73Bd3Ade0a17ECC321fD13a19e81cE82"
        "0x55d398326f99059fF775485246999027B3197955" = .ok s1 ∧
      insertV3Pool (MAIN_TOKENS 700 3500 118000) failingChain 9 s1
        "0x00000000000000000000000000000000000000f1"
        "0x0E09FaBB73Bd3Ade0a17ECC321fD13a19e81cE82"
        "0x55d398326f99059fF775485246999027B3197955" = .ok s1 ∧
      recordCount s1 "0x00000000000000000000000000000000000000f1" = 1 := by
  obtain ⟨s1, h1, h2, -, h4⟩ := (pool_creation_idempotent (MAIN_TOKENS 700 3500 118000)
    failingChain 0 { rows := [], tokenMeta := [] } (by simp [UniqueAddresses])).1
    "0x00000000000000000000000000000000000000f1"
    "0x0E09FaBB73Bd3Ade0a17ECC321fD13a19e81cE82"
    "0x55d398326f99059fF775485246999027B3197955"
  exact ⟨s1, h1, h2 9, h4.2 (Or.inr (by decide))⟩

/-! ## Properties of `parseV3` of `readblock.js` -/

theorem parseV3_pool_empty (log : RawLog) (p : ParsedV3) (hlen : log.data.length ≤ 130)
    (h : parseV3 log = .ok p) : p.pool = "0x" := by
  unfold parseV3 at h
  split at h
  · simp only [Except.ok.injEq] at h
    rw [← h]
    have : log.data.data.drop 130 = [] := List.drop_eq_nil_of_le hlen
    simp [slice, this]
  · exact Except.noConfusion h

/-- C21, at the failing input: for the PoolCreated log of the USDT/WBNB pool
(fee 500, data of two words), `parseV3` returns the two tokens and the fee as
described, and `pool = "0x"`: `data.slice(130, 170)` starts after the second
word, whose low 20 bytes are `data.slice(90, 130)`. `parseV2` reads the low 20
bytes of its first word with `slice(26, 66)`. -/
theorem parseV3_pool_off_by_one_word :
    parseV3 samplePoolCreated =
      .ok { block := some 27440068,
            token0 := "0x55d398326f99059ff775485246999027b3197955",
            token1 := "0xbb4cdb9cbd36b01bd1cbaebf2de08d9173bc095c",
            fee := some 500,
            pool := "0x" } ∧
    poolOfData samplePoolCreated.data = "0x36696169c63e42cd08ce11f5deebbcebae652050" ∧
    samplePoolCreated.data.length = 130 := by
  refine ⟨by decide!, by decide!, by decide!⟩

/-! ## Properties of the single-process scripts -/

/-- C24 as stated fails: from `fromBlock = 100` with head 1000, a pass whose
`try` block throws leaves `fromBlock` at 100, and the next pass attempts
`[100, 199]` again, not `[200, 299]`. -/
theorem singleLoop_retries_failed_range :
    singlePass 1000 100 true = ((100, 199), 100) ∧
    singleLoop 1000 100 [true, false] = ([(100, 199), (100, 199)], 200) := by
  refine ⟨by decide, by decide⟩

/-- C24, amended: in the single-process loop a pass whose `try` block throws
does not advance `fromBlock`: the next pass starts at the same `fromBlock`
and attempts the same range again; `fromBlock` becomes `toBlock + 1` only
after a pass that did not throw. -/
theorem singlePass_advances_only_on_success (latestBlock fromBlock : Int) (next : Bool) :
    singlePass latestBlock fromBlock true
      = ((fromBlock, min (fromBlock + BATCH_SIZE - 1) latestBlock), fromBlock) ∧
    (singlePass latestBlock (singlePass latestBlock fromBlock true).2 next).1
      = (singlePass latestBlock fromBlock true).1 ∧
    singlePass latestBlock fromBlock false
      = ((fromBlock, min (fromBlock + BATCH_SIZE - 1) latestBlock),
          min (fromBlock + BATCH_SIZE - 1) latestBlock + 1) := by
  refine ⟨by simp [singlePass], ?_, by simp [singlePass]⟩
  cases next <;> simp [singlePass]

/-- C26, at the failing input: the USDT key of `1.js` is written in mixed
case, and every lookup lower-cases the address first, so the key is never
found: `containsMainToken` of USDT and a token outside the registry is falsy
in both orders, and `getUSDTValue` of one USDT uses rate 0. The lower-case
key of WBNB is found. -/
theorem one_usdt_key_not_recognised :
    One.MAIN_TOKENS.get "0x55d398326f99059fF775485246999027B3197955" = some 1 ∧
    One.truthy (One.containsMainToken One.MAIN_TOKENS
        "0x55d398326f99059fF775485246999027B3197955"
        "0x0E09FaBB73Bd3Ade0a17ECC321fD13a19e81cE82") = false ∧
    One.truthy (One.containsMainToken One.MAIN_TOKENS
        "0x0E09FaBB73Bd3Ade0a17ECC321fD13a19e81cE82"
        "0x55d398326f99059fF775485246999027B3197955") = false ∧
    One.getUSDTValue One.MAIN_TOKENS "0x55d398326f99059fF775485246999027B3197955"
        1000000000000000000 18 = 0 ∧
    One.truthy (One.containsMainToken One.MAIN_TOKENS
        "0xbb4cdb9cbd36b01bd1cbaebf2de08d9173bc095c"
        "0x0E09FaBB73Bd3Ade0a17ECC321fD13a19e81cE82") = true := by
  refine ⟨by decide!, by decide!, by decide!, by decide!, by decide!⟩

/-! ## The fleet pairing rule and the single-process ones -/

theorem testVersion_getParentToken_eq (reg : Registry) (token0 token1 : String) :
    (analyzePair reg token0 token1).parentToken
      = some (TestVersion.getParentToken reg token0 token1) := by
  cases h0 : reg.get (toLowerCase token0) with
  | none =>
    cases h1 : reg.get (toLowerCase token1) with
    | none => simp [analyzePair_none_none reg token0 token1 h0 h1, TestVersion.getParentToken, h0]
    | some m1 =>
      simp [analyzePair_none_some reg token0 token1 m1 h0 h1, TestVersion.getParentToken, h0]
  | some m0 =>
    cases h1 : reg.get (toLowerCase token1) with
    | none =>
      simp [analyzePair_some_none reg token0 token1 m0 h0 h1, TestVersion.getParentToken, h0, h1]
    | some m1 =>
      rw [analyzePair_some_some reg token0 token1 m0 m1 h0 h1]
      unfold USDT_ANCHOR
      by_cases ha : toLowerCase token0 = toLowerCase "0x55d398326f99059fF775485246999027B3197955"
      · have h0a := h0
        rw [ha] at h0a
        simp [TestVersion.getParentToken, h0, h0a, h1, ha]
      · simp [TestVersion.getParentToken, h0, h1, ha]

theorem testVersion_getMainToken_eq (reg : Registry) (token0 token1 : String)
    (hreg : (reg.get (toLowerCase token0)).isSome = true ∨
      (reg.get (toLowerCase token1)).isSome = true)
    (hne : toLowerCase token0 ≠ toLowerCase token1) :
    (analyzePair reg token0 token1).mainToken
      = some (TestVersion.getMainToken token0 token1
          (TestVersion.getParentToken reg token0 token1)) := by
  cases h0 : reg.get (toLowerCase token0) with
  | none =>
    cases h1 : reg.get (toLowerCase token1) with
    | none => simp [h0, h1] at hreg
    | some m1 =>
      simp [analyzePair_none_some reg token0 token1 m1 h0 h1, TestVersion.getParentToken,
        TestVersion.getMainToken, h0]
  | some m0 =>
    cases h1 : reg.get (toLowerCase token1) with
    | none =>
      simp [analyzePair_some_none reg token0 token1 m0 h0 h1, TestVersion.getParentToken,
        TestVersion.getMainToken, h0, h1, hne]
    | some m1 =>
      rw [analyzePair_some_some reg token0 token1 m0 m1 h0 h1]
      unfold USDT_ANCHOR
      by_cases ha : toLowerCase token0 = toLowerCase "0x55d398326f99059fF775485246999027B3197955"
      · have hne2 : ¬ toLowerCase "0x55d398326f99059fF775485246999027B3197955"
            = toLowerCase token1 := fun e => hne (ha.trans e)
        have h0a := h0
        rw [ha] at h0a
        simp [TestVersion.getParentToken, TestVersion.getMainToken, h0, h0a, h1, ha, hne2]
      · simp [TestVersion.getParentToken, TestVersion.getMainToken, h0, h1, ha]

theorem one_get_ratesOf (reg : Registry) (k : String) :
    One.RateTable.get (One.ratesOf reg) k = (reg.get k).map (fun i => i.rate) := by
  induction reg with
  | nil => rfl
  | cons e rest ih =>
    obtain ⟨k1, i1⟩ := e
    simp only [One.RateTable.get, One.ratesOf, Registry.get, List.map_cons, List.lookup] at ih ⊢
    cases hk : (k == k1) with
    | true => rfl
    | false => exact ih

theorem registry_get_mem (reg : Registry) (k : String) (info : MainTokenInfo)
    (h : reg.get k = some info) : ∃ e ∈ reg, e.2 = info := by
  induction reg with
  | nil => exact Option.noConfusion h
  | cons e rest ih =>
    obtain ⟨k1, i1⟩ := e
    simp only [Registry.get, List.lookup] at h ih
    cases hk : (k == k1) with
    | true =>
      rw [hk] at h
      simp only [Option.some.injEq] at h
      exact ⟨(k1, i1), List.mem_cons_self _ _, h⟩
    | false =>
      rw [hk] at h
      obtain ⟨e, he, hi⟩ := ih h
      exact ⟨e, List.mem_cons_of_mem _ he, hi⟩

theorem one_truthy_ratesOf (reg : Registry) (hrates : ∀ e ∈ reg, e.2.rate ≠ 0) (k : String) :
    One.truthy (One.RateTable.get (One.ratesOf reg) k) = (reg.get k).isSome := by
  rw [one_get_ratesOf]
  cases h : reg.get k with
  | none => rfl
  | some info =>
    obtain ⟨e, he, hi⟩ := registry_get_mem reg k info h
    have : info.rate ≠ 0 := hi ▸ hrates e he
    simp [One.truthy, this]

theorem one_getParentToken_eq (reg : Registry) (hrates : ∀ e ∈ reg, e.2.rate ≠ 0)
    (token0 token1 : String) :
    One.getParentToken (One.ratesOf reg) token0 token1
      = TestVersion.getParentToken reg token0 token1 := by
  unfold One.getParentToken TestVersion.getParentToken
  rw [one_truthy_ratesOf reg hrates, one_truthy_ratesOf reg hrates]
  cases h0 : reg.get (toLowerCase token0) with
  | none => simp
  | some m0 =>
    cases h1 : reg.get (toLowerCase token1) with
    | none => simp
    | some m1 =>
      by_cases ha : toLowerCase token0 = toLowerCase "0x55d398326f99059fF775485246999027B3197955"
      · simp [ha]
      · simp [ha]

theorem testVersion_getMainToken_lower (reg : Registry) (token0 token1 : String)
    (hreg : (reg.get (toLowerCase token0)).isSome = true ∨
      (reg.get (toLowerCase token1)).isSome = true) :
    (analyzePair reg token0 token1).mainToken.map toLowerCase
      = some (toLowerCase (TestVersion.getMainToken token0 token1
          (TestVersion.getParentToken reg token0 token1))) := by
  by_cases hne : toLowerCase token0 = toLowerCase token1
  · cases h0 : reg.get (toLowerCase token0) with
    | none =>
      have h1 : reg.get (toLowerCase token1) = none := by rw [← hne]; exact h0
      simp [h0, h1] at hreg
    | some m0 =>
      have h1 : reg.get (toLowerCase token1) = some m0 := by rw [← hne]; exact h0
      rw [analyzePair_some_some reg token0 token1 m0 m0 h0 h1]
      unfold USDT_ANCHOR
      by_cases ha : toLowerCase token0 = toLowerCase "0x55d398326f99059fF775485246999027B3197955"
      · have h0a := h0
        rw [ha] at h0a
        have h1a := h1
        rw [← hne, ha] at h1a
        have hb : toLowerCase "0x55d398326f99059fF775485246999027B3197955"
            = toLowerCase token1 := ha.symm.trans hne
        simp [TestVersion.getParentToken, TestVersion.getMainToken, h0, h0a, h1, ha, hb]
      · simp [TestVersion.getParentToken, TestVersion.getMainToken, h0, h1, ha]
  · rw [testVersion_getMainToken_eq reg token0 token1 hreg hne]
    rfl

/-- C27: over the same registry (which `1.js` reads as a table of rates, all
of them non-zero), for every pair, `analyzePair`'s `parentToken` is
`getParentToken(token0, token1)` of `测试版.js` and of `1.js`; when at least
one token is a registry key and the two tokens are different addresses (their
lower-case texts differ), `analyzePair`'s `mainToken` is
`getMainToken(token0, token1, getParentToken(token0, token1))` of both; and
when at least one token is a registry key, whether or not the two tokens
differ, the two results are the same address (equal up to letter case). -/
theorem analyzePair_refines_single_process (reg : Registry) (token0 token1 : String) :
    (analyzePair reg token0 token1).parentToken
      = some (TestVersion.getParentToken reg token0 token1) ∧
    ((∀ e ∈ reg, e.2.rate ≠ 0) →
      (analyzePair reg token0 token1).parentToken
        = some (One.getParentToken (One.ratesOf reg) token0 token1)) ∧
    (((reg.get (toLowerCase token0)).isSome = true ∨
        (reg.get (toLowerCase token1)).isSome = true) →
      toLowerCase token0 ≠ toLowerCase token1 →
      (analyzePair reg token0 token1).mainToken
        = some (TestVersion.getMainToken token0 token1
            (TestVersion.getParentToken reg token0 token1)) ∧
      ((∀ e ∈ reg, e.2.rate ≠ 0) →
        (analyzePair reg token0 token1).mainToken
          = some (One.getMainToken token0 token1
              (One.getParentToken (One.ratesOf reg) token0 token1)))) ∧
    (((reg.get (toLowerCase token0)).isSome = true ∨
        (reg.get (toLowerCase token1)).isSome = true) →
      (analyzePair reg token0 token1).mainToken.map toLowerCase
        = some (toLowerCase (TestVersion.getMainToken token0 token1
            (TestVersion.getParentToken reg token0 token1))) ∧
      ((∀ e ∈ reg, e.2.rate ≠ 0) →
        (analyzePair reg token0 token1).mainToken.map toLowerCase
          = some (toLowerCase (One.getMainToken token0 token1
              (One.getParentToken (One.ratesOf reg) token0 token1))))) := by
  refine ⟨testVersion_getParentToken_eq reg token0 token1, ?_, ?_, ?_⟩
  · intro hrates
    rw [one_getParentToken_eq reg hrates]
    exact testVersion_getParentToken_eq reg token0 token1
  · intro hreg hne
    refine ⟨testVersion_getMainToken_eq reg token0 token1 hreg hne, ?_⟩
    intro hrates
    rw [one_getParentToken_eq reg hrates]
    exact testVersion_getMainToken_eq reg token0 token1 hreg hne
  · intro hreg
    refine ⟨testVersion_getMainToken_lower reg token0 token1 hreg, ?_⟩
    intro hrates
    rw [one_getParentToken_eq reg hrates]
    exact testVersion_getMainToken_lower reg token0 token1 hreg

/-- Witness for C27: CAKE and USDT over the registry of the fleet script. -/
theorem analyzePair_refines_single_process_witness :
    (analyzePair (MAIN_TOKENS 700 3500 118000)
        "0x0E09FaBB73Bd3Ade0a17ECC321fD13a19e81cE82"
        "0x55d398326f99059fF775485246999027B3197955").mainToken
      = some (One.getMainToken "0x0E09FaBB73Bd3Ade0a17ECC321fD13a19e81cE82"
          "0x55d398326f99059fF775485246999027B3197955"
          (One.getParentToken (One.ratesOf (MAIN_TOKENS 700 3500 118000))
            "0x0E09FaBB73Bd3Ade0a17ECC321fD13a19e81cE82"
            "0x55d398326f99059fF775485246999027B3197955")) :=
  ((analyzePair_refines_single_process (MAIN_TOKENS 700 3500 118000)
    "0x0E09FaBB73Bd3Ade0a17ECC321fD13a19e81cE82"
    "0x55d398326f99059fF775485246999027B3197955").2.2.1
    (Or.inr (by decide)) (by decide)).2 (by decide!)

/-! ## Fallback values in the metadata cache -/

/-- C25 as stated fails: two calls on one token both find the key empty; for
the first every read throws, so it stores and returns the fallback ("UNK",
18, 0); the second, whose reads are answered ("CAKE", 6, supply 5000000),
then writes over it. A third call, begun after the fallback was stored,
returns ("CAKE", 6, 5), and the contract was read after the fallback was
stored. -/
theorem getTokenMeta_fallback_overwritten :
    List.lookup "token_meta:0x0e09fabb73bd3ade0a17ecc321fd13a19e81ce82"
      (metaRun (MetaRun.init [])
        [.get 0 "0x0E09FaBB73Bd3Ade0a17ECC321fD13a19e81cE82",
         .get 1 "0x0E09FaBB73Bd3Ade0a17ECC321fD13a19e81cE82",
         .set 0 failingChain]).cache
      = some { symbol := "UNK", decimals := 18, totalSupplyReadable := 0 } ∧
    (metaRun (MetaRun.init [])
        [.get 0 "0x0E09FaBB73Bd3Ade0a17ECC321fD13a19e81cE82",
         .get 1 "0x0E09FaBB73Bd3Ade0a17ECC321fD13a19e81cE82",
         .set 0 failingChain,
         .set 1 { failingChain with decimals := fun _ => some 6, symbol := fun _ => some "CAKE",
                                    totalSupply := fun _ => some 5000000 },
         .get 2 "0x0E09FaBB73Bd3Ade0a17ECC321fD13a19e81cE82"]).calls 2
      = .returned { symbol := "CAKE", decimals := 6, totalSupplyReadable := 5 } ∧
    (metaRun (MetaRun.init [])
        [.get 0 "0x0E09FaBB73Bd3Ade0a17ECC321fD13a19e81cE82",
         .get 1 "0x0E09FaBB73Bd3Ade0a17ECC321fD13a19e81cE82",
         .set 0 failingChain,
         .set 1 { failingChain with decimals := fun _ => some 6, symbol := fun _ => some "CAKE",
                                    totalSupply := fun _ => some 5000000 }]).issued.length
      = (metaRun (MetaRun.init [])
        [.get 0 "0x0E09FaBB73Bd3Ade0a17ECC321fD13a19e81cE82",
         .get 1 "0x0E09FaBB73Bd3Ade0a17ECC321fD13a19e81cE82",
         .set 0 failingChain]).issued.length + 3 := by
  refine ⟨by decide!, by decide!, by decide!⟩

/-- C25, amended: a call of `getTokenMeta` that found the key empty writes its
result under the lower-cased address whatever the three reads did, the field
of a read that threw holding its fallback (18, "UNK", 0); and when no other
call that found that key empty is still on its way to the `SET`, then after
any further steps of any calls, a `getTokenMeta` of the same address (in any
letter case) begun then returns that stored result, and no read has been
issued to the token since it was stored. -/
theorem getTokenMeta_caches_fallback_without_overlap (s0 : MetaRun) (c0 : Nat) (a : String)
    (chain1 : Chain) (hpend : s0.calls c0 = .pending a)
    (hsolo : ∀ c1 a1, c1 ≠ c0 → s0.calls c1 = .pending a1 → toLowerCase a1 ≠ toLowerCase a)
    (es : List MetaEvent) (c : Nat) (a2 : String)
    (hcase : toLowerCase a2 = toLowerCase a)
    (hidle : (metaRun (metaStep s0 (.set c0 chain1)) es).calls c = .idle) :
    List.lookup ("token_meta:" ++ toLowerCase a) (metaStep s0 (.set c0 chain1)).cache
      = some (resolveTokenMeta chain1 a) ∧
    (metaStep s0 (.set c0 chain1)).calls c0 = .returned (resolveTokenMeta chain1 a) ∧
    (chain1.decimals a = none → (resolveTokenMeta chain1 a).decimals = 18) ∧
    (chain1.symbol a = none → (resolveTokenMeta chain1 a).symbol = "UNK") ∧
    (chain1.totalSupply a = none → (resolveTokenMeta chain1 a).totalSupplyReadable = 0) ∧
    (metaStep (metaRun (metaStep s0 (.set c0 chain1)) es) (.get c a2)).calls c
      = .returned (resolveTokenMeta chain1 a) ∧
    (∃ more,
      (metaStep (metaRun (metaStep s0 (.set c0 chain1)) es) (.get c a2)).issued
          = more ++ (metaStep s0 (.set c0 chain1)).issued ∧
        ∀ q ∈ more, toLowerCase q.address ≠ toLowerCase a) := by
  obtain ⟨hret, hl⟩ := metaStep_set_pending s0 c0 a chain1 hpend
  obtain ⟨h1, _, more, hmore, hq⟩ := metaRun_stable es (metaStep s0 (.set c0 chain1)) _ _ hl
    (metaStep_set_solo s0 c0 a chain1 hpend hsolo)
  have hk : List.lookup ("token_meta:" ++ toLowerCase a2)
      (metaRun (metaStep s0 (.set c0 chain1)) es).cache = some (resolveTokenMeta chain1 a) := by
    rw [hcase]; exact h1
  obtain ⟨g1, _, g3⟩ := metaStep_get_hit _ c a2 _ hidle hk
  refine ⟨hl, hret, ?_, ?_, ?_, g1, more, ?_, ?_⟩
  · intro h; simp [resolveTokenMeta, h]
  · intro h; simp [resolveTokenMeta, h]
  · intro h; simp [resolveTokenMeta, h]
  · rw [g3, hmore]
  · intro q hqm he
    exact hq q hqm (by rw [he])

/-- Witness for C25: every read throws at the first resolution, which no other
call overlaps; a later call on the lower-case form of the address, after
another token has been resolved, still gets the stored ("UNK", 18, 0). -/
theorem getTokenMeta_caches_fallback_without_overlap_witness :
    (metaStep
        (metaRun
          (metaStep
            (metaStep (MetaRun.init []) (.get 0 "0x0E09FaBB73Bd3Ade0a17ECC321fD13a19e81cE82"))
            (.set 0 failingChain))
          [.get 1 "0x2170Ed0880ac9A755fd29B2688956BD959F933F8",
           .set 1 { failingChain with decimals := fun _ => some 6 }])
        (.get 2 "0x0e09fabb73bd3ade0a17ecc321fd13a19e81ce82")).calls 2
      = .returned (resolveTokenMeta failingChain "0x0E09FaBB73Bd3Ade0a17ECC321fD13a19e81cE82") ∧
    resolveTokenMeta failingChain "0x0E09FaBB73Bd3Ade0a17ECC321fD13a19e81cE82"
      = { symbol := "UNK", decimals := 18, totalSupplyReadable := 0 } :=
  have h := getTokenMeta_caches_fallback_without_overlap
    (metaStep (MetaRun.init []) (.get 0 "0x0E09FaBB73Bd3Ade0a17ECC321fD13a19e81cE82"))
    0 "0x0E09FaBB73Bd3Ade0a17ECC321fD13a19e81cE82" failingChain (by decide)
    (fun c1 a1 hne h1 => by
      simp [metaStep, MetaRun.init, List.lookup, Function.update, hne] at h1)
    [.get 1 "0x2170Ed0880ac9A755fd29B2688956BD959F933F8",
     .set 1 { failingChain with decimals := fun _ => some 6 }]
    2 "0x0e09fabb73bd3ade0a17ecc321fd13a19e81ce82" (by decide) (by decide!)
  ⟨h.2.2.2.2.2.1, by decide!⟩

/-! ## Fields fixed at insertion -/

theorem map_identity_updateByAddress (rows : List PoolRecord) (a : String)
    (f : PoolRecord → PoolRecord) (hf : ∀ r, identityOf (f r) = identityOf r) :
    (updateByAddress rows a f).map identityOf = rows.map identityOf := by
  induction rows with
  | nil => rfl
  | cons r rest ih =>
    simp only [updateByAddress, List.map_cons] at ih ⊢
    rw [ih]
    by_cases h : (r.contract_address == a) = true
    · simp [h, hf]
    · simp [h]

theorem updateReserves_identity (reg : Registry) (chain : Chain) (now : Nat) (s : Store)
    (a : String) (r0 r1 : Nat) :
    (updateReserves reg chain now s a r0 r1).rows.map identityOf = s.rows.map identityOf := by
  unfold updateReserves
  split
  · rfl
  · exact map_identity_updateByAddress _ _ _ (fun _ => rfl)

theorem updateVolume_identity (reg : Registry) (chain : Chain) (s s1 : Store)
    (a : String) (data : List Nat) (h : updateVolume reg chain s a data = .ok s1) :
    s1.rows.map identityOf = s.rows.map identityOf := by
  unfold updateVolume at h
  split at h
  · exact Except.noConfusion h
  · split at h
    · simp only [Except.ok.injEq] at h; rw [← h]
    · dsimp only at h
      split at h
      · simp only [Except.ok.injEq] at h; rw [← h]
      · split at h
        · exact Except.noConfusion h
        · simp only [Except.ok.injEq] at h
          rw [← h]
          exact map_identity_updateByAddress _ _ _ (fun _ => rfl)

theorem applyV3Swap_identity (reg : Registry) (chain : Chain) (s : Store) (lp : String)
    (data : List Nat) (token0 token1 m : String) :
    (applyV3Swap reg chain s lp data token0 token1 m).rows.map identityOf
      = s.rows.map identityOf := by
  unfold applyV3Swap
  split
  · rfl
  · exact map_identity_updateByAddress _ _ _ (fun _ => rfl)

theorem updateV3VolumeOf_identity (reg : Registry) (chain : Chain) (s s1 : Store)
    (lp : String) (data : List Nat) (row : PoolRecord)
    (h : updateV3VolumeOf reg chain s lp data row = .ok s1) :
    s1.rows.map identityOf = s.rows.map identityOf := by
  unfold updateV3VolumeOf at h
  dsimp only at h
  split at h
  · simp only [Except.ok.injEq] at h; rw [← h]
  · split at h
    · simp only [Except.ok.injEq] at h; rw [← h]
    · simp only [Except.ok.injEq] at h
      rw [← h]
      exact applyV3Swap_identity _ _ _ _ _ _ _ _

theorem insertV3Pool_identity (reg : Registry) (chain : Chain) (now : Nat) (s s1 : Store)
    (pool token0 token1 : String)
    (h : insertV3Pool reg chain now s pool token0 token1 = .ok s1) :
    s.rows.map identityOf <+: s1.rows.map identityOf := by
  obtain ⟨s2, h2, hcase⟩ := insertV3Pool_spec reg chain now s pool token0 token1
  rw [h] at h2
  simp only [Except.ok.injEq] at h2
  subst h2
  rcases hcase with ⟨rfl, -⟩ | ⟨-, -, r, -, hrows⟩
  · exact List.prefix_refl _
  · rw [hrows, List.map_append]
    exact List.prefix_append _ _

theorem ensureV2Pool_identity (reg : Registry) (chain : Chain) (now : Nat) (s s1 : Store)
    (lp : String) (h : ensureV2Pool reg chain now s lp = .ok s1) :
    s.rows.map identityOf <+: s1.rows.map identityOf := by
  obtain ⟨s2, h2, hcase⟩ := ensureV2Pool_spec reg chain now s lp
  rw [h] at h2
  simp only [Except.ok.injEq] at h2
  subst h2
  rcases hcase with ⟨rfl, -⟩ | ⟨-, -, r, -, hrows⟩
  · exact List.prefix_refl _
  · rw [hrows, List.map_append]
    exact List.prefix_append _ _

theorem updateV3Volume_identity (reg : Registry) (chain : Chain) (now : Nat) (s s1 : Store)
    (lp : String) (data : List Nat)
    (h : updateV3Volume reg chain now s lp data = .ok s1) :
    s.rows.map identityOf <+: s1.rows.map identityOf := by
  unfold updateV3Volume at h
  split at h
  · rw [updateV3VolumeOf_identity _ _ _ _ _ _ _ h]
  · split at h
    · simp only [Except.ok.injEq] at h; rw [← h]
    · split at h
      · simp only [Except.ok.injEq] at h; rw [← h]
      · split at h
        · simp only [Except.ok.injEq] at h; rw [← h]
        · split at h
          · exact Except.noConfusion h
          · rename_i s2 hins
            have hp := insertV3Pool_identity _ _ _ _ _ _ _ _ hins
            split at h
            · simp only [Except.ok.injEq] at h; rw [← h]; exact hp
            · rw [updateV3VolumeOf_identity _ _ _ _ _ _ _ h]
              exact hp

theorem insertIgnoringDuplicate_identity (s s1 : Store) (cache : MetaCache) (r : PoolRecord)
    (h : insertIgnoringDuplicate s cache r = .ok s1) :
    s.rows.map identityOf <+: s1.rows.map identityOf := by
  by_cases hs : selectByAddress s.rows r.contract_address = []
  · rw [insertIgnoringDuplicate_of_nil s cache r hs] at h
    simp only [Except.ok.injEq] at h
    rw [← h, List.map_append]
    exact List.prefix_append _ _
  · rw [insertIgnoringDuplicate_of_cons s cache r hs] at h
    simp only [Except.ok.injEq] at h
    rw [← h]

theorem applyCall_identity (reg : Registry) (chain : Chain) (now : Nat) (s s1 : Store)
    (c : LedgerCall) (h : applyCall reg chain now s c = .ok s1) :
    s.rows.map identityOf <+: s1.rows.map identityOf := by
  cases c with
  | ensureV2Pool lp => exact ensureV2Pool_identity reg chain now s s1 lp h
  | insertV3Pool pool t0 t1 => exact insertV3Pool_identity reg chain now s s1 pool t0 t1 h
  | updateReserves lp r0 r1 =>
    simp only [applyCall, Except.ok.injEq] at h
    rw [← h, updateReserves_identity]
  | updateVolume lp data => rw [updateVolume_identity reg chain s s1 lp data h]
  | updateV3Volume lp data => exact updateV3Volume_identity reg chain now s s1 lp data h
  | racingInsert r => exact insertIgnoringDuplicate_identity s s1 s.tokenMeta r h

theorem applyCalls_identity (reg : Registry) (chain : Chain) (now : Nat)
    (calls : List LedgerCall) (s : Store) :
    s.rows.map identityOf <+: (applyCalls reg chain now s calls).rows.map identityOf := by
  induction calls generalizing s with
  | nil => exact List.prefix_refl _
  | cons c rest ih =>
    simp only [applyCalls]
    cases h : applyCall reg chain now s c with
    | error e => exact ih s
    | ok s1 => exact (applyCall_identity reg chain now s s1 c h).trans (ih s1)

theorem identity_of_prefix (rows rows1 : List PoolRecord)
    (hp : rows.map identityOf <+: rows1.map identityOf) (i : Nat) (r : PoolRecord)
    (hr : rows[i]? = some r) :
    ∃ r1, rows1[i]? = some r1 ∧ identityOf r1 = identityOf r := by
  obtain ⟨t, ht⟩ := hp
  have hi : i < rows.length := by
    rcases Nat.lt_or_ge i rows.length with h | h
    · exact h
    · rw [List.getElem?_eq_none h] at hr
      exact Option.noConfusion hr
  have h1 : (rows1.map identityOf)[i]? = some (identityOf r) := by
    rw [← ht, List.getElem?_append_left (by simpa using hi), List.getElem?_map, hr]
    rfl
  rw [List.getElem?_map] at h1
  cases h2 : rows1[i]? with
  | none => rw [h2] at h1; exact Option.noConfusion h1
  | some r1 =>
    rw [h2] at h1
    simp only [Option.map_some', Option.some.injEq] at h1
    exact ⟨r1, rfl, h1⟩

theorem identityOf_fields (r1 r : PoolRecord) (h : identityOf r1 = identityOf r) :
    r1.contract_address = r.contract_address ∧ r1.token0_address = r.token0_address ∧
    r1.token1_address = r.token1_address ∧
    r1.parent_token_address = r.parent_token_address ∧ r1.main_token = r.main_token := by
  simp only [identityOf, Prod.mk.injEq] at h
  exact h

/-- C22: a ledger operation that returns (`ensureV2Pool`, `insertV3Pool`,
`updateReserves`, `updateVolume`, `updateV3Volume`, or a racing `INSERT`)
leaves every row of the table in place with the same `contract_address`,
`token0_address`, `token1_address`, `parent_token_address` and `main_token`;
so does any sequence of such operations, those that throw changing nothing. -/
theorem ledger_operations_keep_identity (reg : Registry) (chain : Chain) (now : Nat)
    (s : Store) :
    (∀ (c : LedgerCall) (s1 : Store), applyCall reg chain now s c = .ok s1 →
      ∀ (i : Nat) (r : PoolRecord), s.rows[i]? = some r →
        ∃ r1, s1.rows[i]? = some r1 ∧
          r1.contract_address = r.contract_address ∧ r1.token0_address = r.token0_address ∧
          r1.token1_address = r.token1_address ∧
          r1.parent_token_address = r.parent_token_address ∧ r1.main_token = r.main_token) ∧
    (∀ (calls : List LedgerCall) (i : Nat) (r : PoolRecord), s.rows[i]? = some r →
        ∃ r1, (applyCalls reg chain now s calls).rows[i]? = some r1 ∧
          r1.contract_address = r.contract_address ∧ r1.token0_address = r.token0_address ∧
          r1.token1_address = r.token1_address ∧
          r1.parent_token_address = r.parent_token_address ∧ r1.main_token = r.main_token) := by
  constructor
  · intro c s1 h i r hr
    obtain ⟨r1, h1, h2⟩ :=
      identity_of_prefix s.rows s1.rows (applyCall_identity reg chain now s s1 c h) i r hr
    exact ⟨r1, h1, identityOf_fields r1 r h2⟩
  · intro calls i r hr
    obtain ⟨r1, h1, h2⟩ :=
      identity_of_prefix s.rows _ (applyCalls_identity reg chain now calls s) i r hr
    exact ⟨r1, h1, identityOf_fields r1 r h2⟩

/-- Witness for C22: on the scenario pool, a Sync, a V2 swap, a V3 swap and a
second creation attempt leave the address, the pair and the roles of the
row as they were. -/
theorem ledger_operations_keep_identity_witness :
    ∃ r1, (applyCalls scenarioRegistry scenarioChain 3
        { rows := [scenarioRecord "0x00000000000000000000000000000000000000f0"
                    "0x00000000000000000000000000000000000000AA"
                    "0x00000000000000000000000000000000000000bb"],
          tokenMeta := [] }
        [.updateReserves "0x00000000000000000000000000000000000000f0" 100 50,
         .updateVolume "0x00000000000000000000000000000000000000f0" (swapPayload 10 0 20 0),
         .updateV3Volume "0x00000000000000000000000000000000000000f0" (v3PayloadNegative 30),
         .insertV3Pool "0x00000000000000000000000000000000000000f0"
           "0x00000000000000000000000000000000000000AA"
           "0x00000000000000000000000000000000000000cc"]).rows[0]? = some r1 ∧
      r1.contract_address = "0x00000000000000000000000000000000000000f0" ∧
      r1.token0_address = "0x00000000000000000000000000000000000000AA" ∧
      r1.token1_address = "0x00000000000000000000000000000000000000bb" ∧
      r1.parent_token_address = "0x00000000000000000000000000000000000000bb" ∧
      r1.main_token = some "T_ref" :=
  (ledger_operations_keep_identity scenarioRegistry scenarioChain 3
    { rows := [scenarioRecord "0x00000000000000000000000000000000000000f0"
                "0x00000000000000000000000000000000000000AA"
                "0x00000000000000000000000000000000000000bb"],
      tokenMeta := [] }).2 _ 0
    (scenarioRecord "0x00000000000000000000000000000000000000f0"
      "0x00000000000000000000000000000000000000AA"
      "0x00000000000000000000000000000000000000bb") rfl

/-! ## A failed iteration and the ranges claimed after it -/

theorem mainStep_fleet (reg : Registry) (chain : Chain) (env : Env) (now : Nat) (b : Int)
    (sys : System) (w : Nat) (logs : RangeLogs) :
    (mainStep reg chain env now b sys (.iteration w logs)).fleet = sys.fleet := by
  simp only [mainStep]
  split <;> rfl

/-- The rest of an iteration never touches the cursor, the workers' positions
or the ranges returned: the fleet after a run of `main` loops is the fleet
after its allocator steps. -/
theorem mainRun_fleet (reg : Registry) (chain : Chain) (env : Env) (now : Nat) (b : Int)
    (es : List MainEvent) (sys : System) :
    (mainRun reg chain env now b sys es).fleet = fleetRun b sys.fleet (allocatorEvents es) := by
  induction es generalizing sys with
  | nil => rfl
  | cons e rest ih =>
    cases e with
    | allocator e =>
      show (mainRun reg chain env now b (mainStep reg chain env now b sys (.allocator e)) rest).fleet
        = fleetRun b (fleetStep b sys.fleet e) (allocatorEvents rest)
      rw [ih]
      rfl
    | iteration w logs =>
      show (mainRun reg chain env now b (mainStep reg chain env now b sys (.iteration w logs))
        rest).fleet = fleetRun b sys.fleet (allocatorEvents rest)
      rw [ih, mainStep_fleet]

/-- No step of `main` or of `acquireBlockRange` lowers the cursor. -/
theorem mainRun_cursorLe (reg : Registry) (chain : Chain) (env : Env) (now : Nat) (b : Int)
    (es : List MainEvent) (sys : System) :
    cursorLe sys.fleet.cursor (mainRun reg chain env now b sys es).fleet.cursor := by
  rw [mainRun_fleet]
  exact fleetRun_cursorLe b _ _

/-- With the cursor set to a positive block at the start, the ranges returned
along any run of the `main` loops are pairwise disjoint, whatever iterations
failed in between. -/
theorem mainRun_disjoint_of_set_cursor (reg : Registry) (chain : Chain) (env : Env)
    (now : Nat) (b c : Int) (hc : 0 < c) (store : Store) (es : List MainEvent) :
    (mainRun reg chain env now b { fleet := Fleet.init (some c), store := store } es).fleet.granted.Pairwise
      (fun x y => ¬ rangesOverlap x.2 y.2) := by
  rw [mainRun_fleet]
  obtain ⟨_, _, _, _, hp, _⟩ := fleetRun_inv b (allocatorEvents es) _ (init_inv b c hc)
  refine hp.imp ?_
  rintro x y hxy ⟨blk, h1, h2, h3, h4⟩
  omega

/-- C23, at the failing input: the cursor is unset and the batch size is 100.
Worker 0 (head 2000000) and worker 1 (head 2000050) both read the cursor;
worker 0 claims the range 1000000 to 1000099 and its iteration fails at the
first `getLogs` request, leaving the ledger and the cursor 1000100 as they
were. The claim of worker 1 then succeeds and returns the range 1000050 to
1000149, which holds the blocks 1000050 to 1000099 of the failed range; the
cursor was never lowered (it ends at 1000150). -/
theorem failed_range_claimed_again_from_unset_cursor :
    (mainRun scenarioRegistry scenarioChain scenarioEnv 0 100
        { fleet := Fleet.init none, store := { rows := [], tokenMeta := [] } }
        [.allocator (.call 0 2000000), .allocator (.call 1 2000050), .allocator (.read 0),
         .allocator (.read 1), .allocator (.claim 0)]).fleet.granted
      = [(0, 1000000, 1000099)]
    ∧ (mainRun scenarioRegistry scenarioChain scenarioEnv 0 100
        { fleet := Fleet.init none, store := { rows := [], tokenMeta := [] } }
        [.allocator (.call 0 2000000), .allocator (.call 1 2000050), .allocator (.read 0),
         .allocator (.read 1), .allocator (.claim 0)]).fleet.cursor = some 1000100
    ∧ (processRange scenarioRegistry scenarioChain scenarioEnv 0 { rows := [], tokenMeta := [] }
        { v3Logs := none, swapAndSyncLogs := some [], v3SwapLogs := some [] }).error
      = some "getLogs"
    ∧ (mainRun scenarioRegistry scenarioChain scenarioEnv 0 100
        { fleet := Fleet.init none, store := { rows := [], tokenMeta := [] } }
        [.allocator (.call 0 2000000), .allocator (.call 1 2000050), .allocator (.read 0),
         .allocator (.read 1), .allocator (.claim 0),
         .iteration 0 { v3Logs := none, swapAndSyncLogs := some [], v3SwapLogs := some [] },
         .allocator (.claim 1)]).fleet.granted
      = [(1, 1000050, 1000149), (0, 1000000, 1000099)]
    ∧ (mainRun scenarioRegistry scenarioChain scenarioEnv 0 100
        { fleet := Fleet.init none, store := { rows := [], tokenMeta := [] } }
        [.allocator (.call 0 2000000), .allocator (.call 1 2000050), .allocator (.read 0),
         .allocator (.read 1), .allocator (.claim 0),
         .iteration 0 { v3Logs := none, swapAndSyncLogs := some [], v3SwapLogs := some [] },
         .allocator (.claim 1)]).fleet.cursor = some 1000150
    ∧ rangesOverlap (1000050, 1000149) (1000000, 1000099) := by
  refine ⟨by decide, by decide, by decide, by decide, by decide,
    1000050, by decide, by decide, by decide, by decide⟩

end Readblock
